import Mathlib

/-!
# The autocompletion cache engine

A shallow embedding of `backend/wbpublic/sqlide/autocomplete_object_name_cache.cpp`
(class `AutoCompleteCache`): the task queue with its kind-dependent deduplication, the query
façade over the sqlite store, the update routines, the fetchers and the loop of the worker, the
scheduling of the worker and the shutdown path.

Every public operation runs under the recursive mutexes `_sqconn_mutex` and `_pending_mutex`,
so each one is embedded as one atomic step on an explicit `State`.
-/

namespace AutoCompleteCache

/-! ## Refresh tasks -/

/-- The task kinds `RefreshTask::RefreshType`. The header that declares the enumeration is not
among the sources; the kinds are the cases of the dispatch `switch` of `refresh_cache_thread`,
in its order. -/
inductive RefreshType where
  | RefreshSchemas
  | RefreshTables
  | RefreshViews
  | RefreshProcedures
  | RefreshFunctions
  | RefreshColumns
  | RefreshTriggers
  | RefreshUDFs
  | RefreshCharsets
  | RefreshCollations
  | RefreshVariables
  | RefreshEngines
  | RefreshLogfileGroups
  | RefreshTableSpaces
  | RefreshEvents
  deriving DecidableEq, Repr

open RefreshType

/-- One pending unit of work, `RefreshTask(type, schema, table)`, with the fields that
`add_pending_refresh` and `refresh_cache_thread` read. -/
structure RefreshTask where
  type : RefreshType
  schema_name : String
  table_name : String
  deriving DecidableEq, Repr

/-- The `RetrievalType` argument of `get_matching_objects`, with the values that its callers
pass. -/
inductive RetrievalType where
  | RetrieveWithNoQualifier
  | RetrieveWithSchemaQualifier
  | RetrieveWithFullQualifier
  deriving DecidableEq, Repr

open RetrievalType

/-! ## The sqlite store -/

/-- A row of a cache table. The tables created by `init_db` have the columns `name`
(all of them), `last_refresh` (`schemas` only), `schema_id` (the schema scoped and table scoped
caches) and `table_id` (`columns` and `triggers`); a column that a table does not have is
held as `""` (or `0`). `last_refresh` is the value as `get_int` reads it. -/
structure Row where
  schema_id : String
  table_id : String
  name : String
  last_refresh : Int
  deriving DecidableEq, Repr

/-- The database behind `_sqconn`: for every table name its rows, in rowid order (the order in
which a query without `ORDER BY` steps through them). -/
abbrev Store := String → List Row

/-- Case rule of sqlite's `LIKE`: two characters match when they are equal after folding
the ASCII letters `A`..`Z` to lower case; all other characters only match themselves. -/
def same_char (c d : Char) : Bool := c.toLower == d.toLower

/-- The wildcard `%`: the rest of the pattern has to match the text after dropping zero or
more leading characters. -/
def match_any (rest : List Char → Bool) : List Char → Bool
  | [] => rest []
  | c :: t => rest (c :: t) || match_any rest t

/-- The operator `text LIKE pattern ESCAPE '\'` of sqlite on character lists: `%` matches any
run of characters, `_` any single character, the escape character makes the character after it
literal (an escape character at the very end matches nothing), every other character matches
itself up to ASCII case. The flag tells that the escape character has just been read. -/
def like_chars : Bool → List Char → List Char → Bool
  | false, [], s => s.isEmpty
  | true, [], _ => false
  | false, c :: p, s =>
    if c = '%' then match_any (like_chars false p) s
    else if c = '\\' then like_chars true p s
    else
      match s with
      | d :: t => (c = '_' || same_char c d) && like_chars false p t
      | [] => false
  | true, c :: p, s =>
    match s with
    | d :: t => same_char c d && like_chars false p t
    | [] => false

/-- The store primitive `text LIKE pattern ESCAPE '\'`. The constructor only issues the
pragmas `temp_store` and `synchronous`, so `LIKE` keeps sqlite's default of ignoring ASCII
case. -/
def sqlite_like (pattern text : String) : Bool := like_chars false pattern.data text.data

/-- The columns of the primary key declared by `init_db` for each table: `name` for
`schemas` and the single column caches, `(schema_id, name)` for the schema scoped caches,
`(schema_id, table_id, name)` for `columns` and `triggers`. -/
def primary_key (cache : String) (r : Row) : List String :=
  if cache = "columns" ∨ cache = "triggers" then [r.schema_id, r.table_id, r.name]
  else if cache = "tables" ∨ cache = "views" ∨ cache = "functions" ∨ cache = "procedures"
      ∨ cache = "events" then [r.schema_id, r.name]
  else [r.name]

/-- One `insert` statement: it throws (`none`) when a row with the same primary key is already
there, and otherwise appends the row. -/
def insert_row (cache : String) (rows : List Row) (r : Row) : Option (List Row) :=
  if rows.any (fun x => primary_key cache x == primary_key cache r) then none
  else some (rows ++ [r])

/-- The insert loop of the update routines: the first failing insert ends it with the
exception. -/
def insert_rows (cache : String) : List Row → List Row → Option (List Row)
  | rows, [] => some rows
  | rows, r :: rest =>
    match insert_row cache rows r with
    | none => none
    | some rows' => insert_rows cache rows' rest

/-! ## The cache object -/

/-- The members of `AutoCompleteCache` that the embedded operations read or write. -/
structure State where
  /-- `_sqconn`, the store. -/
  sqconn : Store
  /-- `_pending_tasks`, front first. -/
  pending_tasks : List RefreshTask
  /-- `_shutdown`. -/
  shutdown : Bool
  /-- `_cache_working`, the count of the semaphore (constructed with 1). -/
  cache_working : Nat
  /-- `_refresh_thread != NULL`. -/
  refresh_thread : Bool
  /-- The number of threads inside the loop of `refresh_cache_thread`: each of them will call
  `get_pending_refresh` again. -/
  workers_looping : Nat
  /-- The number of threads that have left the loop of `refresh_cache_thread` and have not yet
  posted `_cache_working`. -/
  workers_leaving : Nat
  /-- `_feedback` holds a callback. -/
  feedback : Bool
  /-- The arguments with which `_feedback` has been invoked so far, oldest first. -/
  feedback_calls : List Bool

/-- A worker leaves the loop of `refresh_cache_thread`: its call of `get_pending_refresh`
returned false, or it saw `_shutdown`. -/
def worker_leaves_loop (s : State) : State :=
  { s with workers_looping := s.workers_looping - 1, workers_leaving := s.workers_leaving + 1 }

/-- The lines of `refresh_cache_thread` after the loop: the semaphore is posted and the
callback is told `false` unless the cache is shutting down. -/
def worker_posts (s : State) : State :=
  let s := { s with workers_leaving := s.workers_leaving - 1,
                    cache_working := s.cache_working + 1 }
  if s.feedback && !s.shutdown then { s with feedback_calls := s.feedback_calls ++ [false] }
  else s

/-- The end of `refresh_cache_thread` for a worker in its loop: it leaves the loop and runs the
lines after it. -/
def refresh_cache_thread_exit (s : State) : State :=
  worker_posts (worker_leaves_loop s)

/-- `AutoCompleteCache::shutdown`: under both locks the flag is set, the queue cleared and
the callback dropped; then the worker, if there is a handle, is joined. A worker that is still
in its loop leaves it on seeing the flag; one that has left it posts the semaphore. -/
def shutdown (s : State) : State :=
  let s := { s with shutdown := true, pending_tasks := [], feedback := false }
  if s.refresh_thread then
    let s :=
      if s.workers_looping > 0 then refresh_cache_thread_exit s
      else if s.workers_leaving > 0 then worker_posts s
      else s
    { s with refresh_thread := false }
  else s

/-- `AutoCompleteCache::create_worker_thread`. `thread_created` is the outcome of
`base::create_thread` (false: it returned `NULL`). -/
def create_worker_thread (thread_created : Bool) (s : State) : State :=
  -- if (!_cache_working.try_wait()) return;
  if s.cache_working = 0 then s
  else
    let s := { s with cache_working := s.cache_working - 1 }
    -- the previous thread is joined and its handle dropped; the semaphore is only available
    -- once that thread has left its loop, so the join returns at once
    let s := if s.refresh_thread then { s with refresh_thread := false } else s
    if !s.shutdown then
      if !thread_created then s
      else
        let s := { s with refresh_thread := true, workers_looping := s.workers_looping + 1 }
        if s.feedback then { s with feedback_calls := s.feedback_calls ++ [true] } else s
    else s

/-- The body of the scan loop of `add_pending_refresh` for one queued task `i`: does `i` stand
for the same work as the request `(type, schema, table)`? -/
def same_request (i : RefreshTask) (type : RefreshType) (schema table : String) : Bool :=
  if i.type ≠ type then false
  else
    match type with
    | RefreshSchemas | RefreshVariables | RefreshEngines | RefreshUDFs | RefreshCharsets
    | RefreshCollations => true
    | RefreshTables | RefreshViews | RefreshProcedures | RefreshFunctions | RefreshEvents =>
      i.schema_name == schema
    | RefreshTriggers | RefreshColumns | RefreshLogfileGroups | RefreshTableSpaces =>
      i.schema_name == schema && i.table_name == table

/-- `AutoCompleteCache::add_pending_refresh(type, schema, table)`; the C++ defaults of
`schema` and `table` are the empty string. -/
def add_pending_refresh (thread_created : Bool) (type : RefreshType) (schema table : String)
    (s : State) : State :=
  if s.shutdown then s
  else
    let found := s.pending_tasks.any (fun i => same_request i type schema table)
    let s := if !found then { s with pending_tasks := s.pending_tasks ++ [⟨type, schema, table⟩] }
      else s
    if s.pending_tasks.length > 0 then create_worker_thread thread_created s else s

/-- `AutoCompleteCache::get_pending_refresh(task)`: the returned `bool` and the out parameter
are one `Option`. -/
def get_pending_refresh (s : State) : Option RefreshTask × State :=
  if s.shutdown then (none, s)
  else
    match s.pending_tasks with
    | task :: rest => (some task, { s with pending_tasks := rest })
    | [] => (none, s)

/-! ## Polling predicates and the schema list update -/

/-- `AutoCompleteCache::is_schema_list_fetch_done`: `select * from schemas` yields a row. -/
def is_schema_list_fetch_done (s : State) : Bool :=
  !(s.sqconn "schemas").isEmpty

/-- `AutoCompleteCache::is_fetch_done(cache, schema)`:
`select * from <cache> where schema_id = ?` yields a row. -/
def is_fetch_done (cache schema : String) (s : State) : Bool :=
  (s.sqconn cache).any (fun r => r.schema_id == schema)

/-- `AutoCompleteCache::is_schema_tables_fetch_done`. -/
def is_schema_tables_fetch_done (schema : String) (s : State) : Bool :=
  is_fetch_done "tables" schema s

/-- `AutoCompleteCache::is_schema_table_columns_fetch_done`; the body does not use `table`. -/
def is_schema_table_columns_fetch_done (schema _table : String) (s : State) : Bool :=
  is_fetch_done "columns" schema s

/-- `AutoCompleteCache::is_schema_functions_fetch_done`. -/
def is_schema_functions_fetch_done (schema : String) (s : State) : Bool :=
  is_fetch_done "functions" schema s

/-- `AutoCompleteCache::is_schema_procedure_fetch_done`. -/
def is_schema_procedure_fetch_done (schema : String) (s : State) : Bool :=
  is_fetch_done "procedures" schema s

/-- The `std::map<std::string, int> old_schema_update_times` that `update_schemas` fills from
`select name, last_refresh from schemas`: rows with an empty name are skipped, a later row
overwrites an earlier entry of the same name. -/
def old_schema_update_times (rows : List Row) : String → Option Int :=
  rows.foldl
    (fun m r => if r.name ≠ "" then fun k => if k = r.name then some r.last_refresh else m k
      else m)
    (fun _ => none)

/-- Modelled from the spec: `sqlide::Sqlite_transaction_guarder` (declared in
`sqlide_generics.h`, which is not among the sources). A refresh is one transaction; when a
statement of it throws, the prior rows are left unchanged ("transaction rolled back"), and
otherwise the new rows are committed. `result` is the outcome of the statements run under the
guard on table `cache`. -/
def transaction (cache : String) (result : Option (List Row)) (s : State) : State :=
  match result with
  | some rows => { s with sqconn := fun c => if c = cache then rows else s.sqconn c }
  | none => s

/-- `AutoCompleteCache::update_schemas(schemas)`. -/
def update_schemas (schemas : List String) (s : State) : State :=
  if s.shutdown then s
  else
    let times := old_schema_update_times (s.sqconn "schemas")
    -- "delete from schemas" empties the table; then the inserts
    let inserted :=
      if schemas.isEmpty then insert_rows "schemas" [] [⟨"", "", "", 0⟩]
      else insert_rows "schemas" []
        (schemas.map fun t => ⟨"", "", t, match times t with | none => 0 | some v => v⟩)
    transaction "schemas" inserted s

/-- `AutoCompleteCache::update_object_names(cache, objects)`, the update routine for the cache
tables with the single column `name`: `delete from <cache>`, then one insert per object. -/
def update_object_names (cache : String) (objects : List String) (s : State) : State :=
  if s.shutdown then s
  else
    transaction cache
      (insert_rows cache [] (objects.map fun name => (⟨"", "", name, 0⟩ : Row))) s

/-- `AutoCompleteCache::update_object_names(cache, schema, objects)`, the update routine for
the objects of one schema: `delete from <cache> where schema_id = ?`, then one insert per
object. The rows that stay keep their order and the new rows follow them. -/
def update_object_names_in_schema (cache schema : String) (objects : List String)
    (s : State) : State :=
  if s.shutdown then s
  else
    let kept := (s.sqconn cache).filter fun (r : Row) => r.schema_id != schema
    transaction cache
      (insert_rows cache kept (objects.map fun name => (⟨schema, "", name, 0⟩ : Row))) s

/-- `AutoCompleteCache::update_object_names(cache, schema, table, objects)`, the update routine
for the objects of one table: `delete from <cache> where schema_id = ? and table_id = ?`, then
one insert per object.

The foreign key that `init_db` declares from `columns` and `triggers` to `tables` plays no
part here or in the other update routines: sqlite enforces foreign keys only on a connection
that has turned them on with `PRAGMA foreign_keys`, and the constructor issues the pragmas
`temp_store` and `synchronous` only. -/
def update_object_names_in_table (cache schema table : String) (objects : List String)
    (s : State) : State :=
  if s.shutdown then s
  else
    let kept := (s.sqconn cache).filter fun (r : Row) =>
      !(r.schema_id == schema && r.table_id == table)
    transaction cache
      (insert_rows cache kept (objects.map fun name => (⟨schema, table, name, 0⟩ : Row))) s

/-- `AutoCompleteCache::update_tables`. -/
def update_tables (schema : String) (tables : List String) (s : State) : State :=
  update_object_names_in_schema "tables" schema tables s

/-- `AutoCompleteCache::update_views`. -/
def update_views (schema : String) (views : List String) (s : State) : State :=
  update_object_names_in_schema "views" schema views s

/-- `AutoCompleteCache::update_procedures`. -/
def update_procedures (schema : String) (procedures : List String) (s : State) : State :=
  update_object_names_in_schema "procedures" schema procedures s

/-- `AutoCompleteCache::update_functions`. -/
def update_functions (schema : String) (functions : List String) (s : State) : State :=
  update_object_names_in_schema "functions" schema functions s

/-- `AutoCompleteCache::update_events`. -/
def update_events (schema : String) (events : List String) (s : State) : State :=
  update_object_names_in_schema "events" schema events s

/-- `AutoCompleteCache::refresh_schemas_w`, the schema list fetch. `live` is the result set of
`SHOW DATABASES` on the connection, `none` when `executeQuery` hands back no result set; the
rows are read while `_shutdown` is not set. -/
def refresh_schemas_w (live : Option (List String)) (s : State) : State :=
  let schemas :=
    match live with
    | some rows => if s.shutdown then [] else rows
    | none => []
  if !s.shutdown then update_schemas schemas s else s

/-- `AutoCompleteCache::touch_schema_record(schema)`: the row of the schema gets the current
time as its `last_refresh`, and is inserted with it when there is none. `now` is the value of
`strftime('%s', 'now')`. No function of the source file calls it. -/
def touch_schema_record (now : Int) (schema : String) (s : State) : State :=
  if (s.sqconn "schemas").any (fun r => r.name == schema) then
    { s with sqconn := fun c =>
        if c = "schemas" then
          (s.sqconn "schemas").map fun (r : Row) =>
            if r.name == schema then { r with last_refresh := now } else r
        else s.sqconn c }
  else
    { s with sqconn := fun c =>
        if c = "schemas" then s.sqconn "schemas" ++ [⟨"", "", schema, now⟩] else s.sqconn c }

/-! ## The query façade -/

section Facade

-- The helper `base::escape_sql_string(s, true)` of `base/string_utilities.h` is not among the
-- sources: it is a parameter of every operation that calls it.
variable (escape_sql_string : String → String)

/-- `AutoCompleteCache::get_matching_objects(cache, schema, table, prefix, type)`: the names
of the rows selected by the `LIKE` conditions, in store order. -/
def get_matching_objects (cache schema table pfx : String) (type : RetrievalType)
    (s : State) : List String :=
  if s.shutdown then []
  else
    let schema_pattern := if schema.isEmpty then "%" else escape_sql_string schema
    let table_pattern := if table.isEmpty then "%" else escape_sql_string table
    let name_pattern := escape_sql_string pfx ++ "%"
    let selected :=
      match type with
      | RetrieveWithNoQualifier =>
        (s.sqconn cache).filter fun (r : Row) => sqlite_like name_pattern r.name
      | RetrieveWithSchemaQualifier =>
        (s.sqconn cache).filter fun (r : Row) =>
          sqlite_like schema_pattern r.schema_id && sqlite_like name_pattern r.name
      | RetrieveWithFullQualifier =>
        (s.sqconn cache).filter fun (r : Row) =>
          sqlite_like schema_pattern r.schema_id && sqlite_like table_pattern r.table_id
            && sqlite_like name_pattern r.name
    selected.map fun (r : Row) => r.name

/-- `AutoCompleteCache::refresh_schema_cache_if_needed(schema)`: the returned `bool` and the
state after the call. Only the first row of the result of
`SELECT last_refresh FROM schemas WHERE name LIKE ? ESCAPE '\'` is looked at. -/
def refresh_schema_cache_if_needed (thread_created : Bool) (schema : String) (s : State) :
    Bool × State :=
  if schema.isEmpty then (false, s)
  else if s.shutdown then (false, s)
  else
    let pattern := if schema.isEmpty then "%" else escape_sql_string schema
    let result := (s.sqconn "schemas").filter fun (r : Row) => sqlite_like pattern r.name
    let cached :=
      match result with
      | r :: _ => r.last_refresh != 0
      | [] => false
    if cached then (false, s)
    else
      let s := add_pending_refresh thread_created RefreshTables schema "" s
      let s := add_pending_refresh thread_created RefreshViews schema "" s
      let s := add_pending_refresh thread_created RefreshProcedures schema "" s
      let s := add_pending_refresh thread_created RefreshFunctions schema "" s
      let s := add_pending_refresh thread_created RefreshEvents schema "" s
      (true, s)

/-- `AutoCompleteCache::get_matching_schema_names`. -/
def get_matching_schema_names (pfx : String) (s : State) : List String × State :=
  (get_matching_objects escape_sql_string "schemas" "" "" pfx RetrieveWithNoQualifier s, s)

/-- `AutoCompleteCache::get_matching_table_names`. -/
def get_matching_table_names (thread_created : Bool) (schema pfx : String) (s : State) :
    List String × State :=
  let s := (refresh_schema_cache_if_needed escape_sql_string thread_created schema s).2
  (get_matching_objects escape_sql_string "tables" schema "" pfx RetrieveWithSchemaQualifier s, s)

/-- `AutoCompleteCache::get_matching_view_names`. -/
def get_matching_view_names (thread_created : Bool) (schema pfx : String) (s : State) :
    List String × State :=
  let s := (refresh_schema_cache_if_needed escape_sql_string thread_created schema s).2
  (get_matching_objects escape_sql_string "views" schema "" pfx RetrieveWithSchemaQualifier s, s)

/-- `AutoCompleteCache::get_matching_column_names`. -/
def get_matching_column_names (thread_created : Bool) (schema table pfx : String) (s : State) :
    List String × State :=
  let s := (refresh_schema_cache_if_needed escape_sql_string thread_created schema s).2
  (get_matching_objects escape_sql_string "columns" schema table pfx RetrieveWithFullQualifier s,
    s)

/-- `AutoCompleteCache::get_matching_procedure_names`. -/
def get_matching_procedure_names (thread_created : Bool) (schema pfx : String) (s : State) :
    List String × State :=
  let s := (refresh_schema_cache_if_needed escape_sql_string thread_created schema s).2
  (get_matching_objects escape_sql_string "procedures" schema "" pfx RetrieveWithSchemaQualifier s,
    s)

/-- `AutoCompleteCache::get_matching_function_names`. -/
def get_matching_function_names (thread_created : Bool) (schema pfx : String) (s : State) :
    List String × State :=
  let s := (refresh_schema_cache_if_needed escape_sql_string thread_created schema s).2
  (get_matching_objects escape_sql_string "functions" schema "" pfx RetrieveWithSchemaQualifier s,
    s)

/-- `AutoCompleteCache::get_matching_trigger_names`; the retrieval type passed on is
`RetrieveWithSchemaQualifier`. -/
def get_matching_trigger_names (thread_created : Bool) (schema table pfx : String) (s : State) :
    List String × State :=
  let s := (refresh_schema_cache_if_needed escape_sql_string thread_created schema s).2
  (get_matching_objects escape_sql_string "triggers" schema table pfx RetrieveWithSchemaQualifier
    s, s)

/-- `AutoCompleteCache::get_matching_udf_names`. -/
def get_matching_udf_names (pfx : String) (s : State) : List String × State :=
  (get_matching_objects escape_sql_string "udfs" "" "" pfx RetrieveWithNoQualifier s, s)

/-- `AutoCompleteCache::get_matching_variables`. -/
def get_matching_variables (pfx : String) (s : State) : List String × State :=
  (get_matching_objects escape_sql_string "variables" "" "" pfx RetrieveWithNoQualifier s, s)

/-- `AutoCompleteCache::get_matching_engines`. -/
def get_matching_engines (pfx : String) (s : State) : List String × State :=
  (get_matching_objects escape_sql_string "engines" "" "" pfx RetrieveWithNoQualifier s, s)

/-- `AutoCompleteCache::get_matching_logfile_groups`. -/
def get_matching_logfile_groups (thread_created : Bool) (pfx : String) (s : State) :
    List String × State :=
  let s := add_pending_refresh thread_created RefreshLogfileGroups "" "" s
  (get_matching_objects escape_sql_string "logfile_groups" "" "" pfx RetrieveWithNoQualifier s, s)

/-- `AutoCompleteCache::get_matching_tablespaces`. -/
def get_matching_tablespaces (thread_created : Bool) (pfx : String) (s : State) :
    List String × State :=
  let s := add_pending_refresh thread_created RefreshTableSpaces "" "" s
  (get_matching_objects escape_sql_string "tablespaces" "" "" pfx RetrieveWithNoQualifier s, s)

/-- `AutoCompleteCache::get_matching_charsets`. -/
def get_matching_charsets (pfx : String) (s : State) : List String × State :=
  (get_matching_objects escape_sql_string "charsets" "" "" pfx RetrieveWithNoQualifier s, s)

/-- `AutoCompleteCache::get_matching_collations`. -/
def get_matching_collations (pfx : String) (s : State) : List String × State :=
  (get_matching_objects escape_sql_string "collations" "" "" pfx RetrieveWithNoQualifier s, s)

/-- `AutoCompleteCache::get_matching_events`; there is no call of
`refresh_schema_cache_if_needed` in its body. -/
def get_matching_events (schema pfx : String) (s : State) : List String × State :=
  (get_matching_objects escape_sql_string "events" schema "" pfx RetrieveWithSchemaQualifier s, s)

end Facade

/-! ## Explicit refresh triggers -/

/-- `AutoCompleteCache::refresh_schema_list`. -/
def refresh_schema_list (thread_created : Bool) (s : State) : State :=
  add_pending_refresh thread_created RefreshSchemas "" "" s

/-- `AutoCompleteCache::refresh_columns`. -/
def refresh_columns (thread_created : Bool) (schema table : String) (s : State) : State :=
  add_pending_refresh thread_created RefreshColumns schema table s

/-- `AutoCompleteCache::refresh_triggers`; the kind it passes on is `RefreshTableSpaces`. -/
def refresh_triggers (thread_created : Bool) (schema table : String) (s : State) : State :=
  add_pending_refresh thread_created RefreshTableSpaces schema table s

/-- `AutoCompleteCache::refresh_udfs`. -/
def refresh_udfs (thread_created : Bool) (s : State) : State :=
  add_pending_refresh thread_created RefreshUDFs "" "" s

/-- `AutoCompleteCache::refresh_tablespaces`. -/
def refresh_tablespaces (thread_created : Bool) (s : State) : State :=
  add_pending_refresh thread_created RefreshTableSpaces "" "" s

/-- `AutoCompleteCache::refresh_logfile_groups`. -/
def refresh_logfile_groups (thread_created : Bool) (s : State) : State :=
  add_pending_refresh thread_created RefreshLogfileGroups "" "" s

/-- `AutoCompleteCache::refresh_events`. -/
def refresh_events (thread_created : Bool) (s : State) : State :=
  add_pending_refresh thread_created RefreshEvents "" "" s


/-! ## Construction -/

/-- The store after `AutoCompleteCache::init_db`: every table is there and empty. -/
def init_db : Store := fun _ => []

/-- The members as the initializer list of the constructor sets them, before its body runs: the
semaphore holds one permit, there is no thread, no task and no shutdown. `store` is the
database that the constructor opens: `init_db` when the cache file is new or could be removed,
and otherwise what the file held. `feedback` tells whether a callback was passed. -/
def initial (store : Store) (feedback : Bool) : State :=
  { sqconn := store, pending_tasks := [], shutdown := false, cache_working := 1,
    refresh_thread := false, workers_looping := 0, workers_leaving := 0,
    feedback := feedback, feedback_calls := [] }

/-- The constructor `AutoCompleteCache::AutoCompleteCache`: the initial members, then the five
requests of its body. -/
def new (store : Store) (feedback : Bool) (thread_created : Bool) : State :=
  let s := initial store feedback
  let s := add_pending_refresh thread_created RefreshSchemas "" "" s
  let s := add_pending_refresh thread_created RefreshVariables "" "" s
  let s := add_pending_refresh thread_created RefreshEngines "" "" s
  let s := add_pending_refresh thread_created RefreshCharsets "" "" s
  let s := add_pending_refresh thread_created RefreshCollations "" "" s
  s

/-! ## The live server and the fetchers -/

/-- What `executeQuery` does with a statement: it throws, or it hands back a result set, which
the fetchers test for `NULL`. -/
inductive Answer (α : Type) where
  | exception
  | result (rs : Option (List α))

/-- The live server behind the connection: its answer to each statement that a fetcher
issues. -/
structure Server where
  /-- `SHOW DATABASES`. -/
  show_databases : Answer String
  /-- `show schemas like ?`. -/
  show_schemas_like : String → Answer String
  /-- `SHOW FULL TABLES FROM !`: the name and the type of each row. -/
  show_full_tables : String → Answer (String × String)
  /-- `SHOW FUNCTION STATUS WHERE Db=?`: the names. -/
  show_function_status : String → Answer String
  /-- `SHOW PROCEDURE STATUS WHERE Db=?`: the names. -/
  show_procedure_status : String → Answer String
  /-- `SHOW COLUMNS FROM !.!`. -/
  show_columns : String → String → Answer String
  /-- `SHOW TRIGGERS FROM ! WHERE ! = ?`, for the table given. -/
  show_triggers_where_table : String → String → Answer String
  /-- `SHOW TRIGGERS FROM !`. -/
  show_triggers : String → Answer String
  /-- `SELECT NAME FROM mysql.func`. -/
  select_udfs : Answer String
  /-- `show charset`. -/
  show_charset : Answer String
  /-- `show collation`. -/
  show_collation : Answer String
  /-- `SHOW GLOBAL VARIABLES`: the names. -/
  show_global_variables : Answer String
  /-- `SHOW ENGINES`. -/
  show_engines : Answer String
  /-- `SELECT distinct logfile_group_name FROM information_schema.FILES`. -/
  select_logfile_groups : Answer String
  /-- `SELECT distinct tablespace_name FROM information_schema.FILES`. -/
  select_tablespaces : Answer String
  /-- `SELECT EVENT_NAME FROM information_schema.EVENTS WHERE EVENT_SCHEMA = ?`. -/
  select_events : String → Answer String

/-- The rows that the loop `while (rs->next() && !_shutdown)` reads from a result set, which
may be `NULL`. -/
def rows_read {α : Type} (rs : Option (List α)) (s : State) : List α :=
  match rs with
  | some rows => if s.shutdown then [] else rows
  | none => []

/-- The test `rs1.get() && rs1->next()`: there is a result set and it has a row. -/
def has_row {α : Type} (rs : Option (List α)) : Bool :=
  match rs with
  | some (_ :: _) => true
  | _ => false

/-- `AutoCompleteCache::refresh_tables_w`. `none`: `executeQuery` threw. The rows whose type
is not `VIEW` are the tables; for each of them a columns and a triggers task is requested. -/
def refresh_tables_w (server : Server) (thread_created : Bool) (schema : String) (s : State) :
    Option State :=
  match server.show_schemas_like schema with
  | .exception => none
  | .result rs1 =>
    if has_row rs1 then
      match server.show_full_tables schema with
      | .exception => none
      | .result rs2 =>
        let tables := ((rows_read rs2 s).filter fun row => row.2 != "VIEW").map fun row => row.1
        let s := tables.foldl
          (fun s table =>
            add_pending_refresh thread_created RefreshTriggers schema table
              (add_pending_refresh thread_created RefreshColumns schema table s)) s
        some (if !s.shutdown then update_object_names_in_schema "tables" schema tables s else s)
    else some (if !s.shutdown then update_object_names_in_schema "tables" schema [] s else s)

/-- `AutoCompleteCache::refresh_views_w`. The rows whose type is `VIEW` are the views; for each
of them a columns task is requested. -/
def refresh_views_w (server : Server) (thread_created : Bool) (schema : String) (s : State) :
    Option State :=
  match server.show_schemas_like schema with
  | .exception => none
  | .result rs1 =>
    if has_row rs1 then
      match server.show_full_tables schema with
      | .exception => none
      | .result rs2 =>
        let views := ((rows_read rs2 s).filter fun row => row.2 == "VIEW").map fun row => row.1
        let s := views.foldl
          (fun s table => add_pending_refresh thread_created RefreshColumns schema table s) s
        some (if !s.shutdown then update_object_names_in_schema "views" schema views s else s)
    else some (if !s.shutdown then update_object_names_in_schema "views" schema [] s else s)

/-- `AutoCompleteCache::refresh_functions_w`. -/
def refresh_functions_w (server : Server) (schema : String) (s : State) : Option State :=
  match server.show_function_status schema with
  | .exception => none
  | .result rs =>
    let functions := rows_read rs s
    some (if !s.shutdown then update_object_names_in_schema "functions" schema functions s
      else s)

/-- `AutoCompleteCache::refresh_procedures_w`. -/
def refresh_procedures_w (server : Server) (schema : String) (s : State) : Option State :=
  match server.show_procedure_status schema with
  | .exception => none
  | .result rs =>
    let procedures := rows_read rs s
    some (if !s.shutdown then update_object_names_in_schema "procedures" schema procedures s
      else s)

/-- `AutoCompleteCache::refresh_columns_w`. -/
def refresh_columns_w (server : Server) (schema table : String) (s : State) : Option State :=
  match server.show_columns schema table with
  | .exception => none
  | .result rs =>
    let columns := rows_read rs s
    some (if !s.shutdown then update_object_names_in_table "columns" schema table columns s
      else s)

/-- `AutoCompleteCache::refresh_triggers_w`. -/
def refresh_triggers_w (server : Server) (schema table : String) (s : State) : Option State :=
  match (if !table.isEmpty then server.show_triggers_where_table schema table
      else server.show_triggers schema) with
  | .exception => none
  | .result rs =>
    let triggers := rows_read rs s
    some (if !s.shutdown then update_object_names_in_table "triggers" schema table triggers s
      else s)

/-- `AutoCompleteCache::refresh_udfs_w`. -/
def refresh_udfs_w (server : Server) (s : State) : Option State :=
  match server.select_udfs with
  | .exception => none
  | .result rs =>
    let udfs := rows_read rs s
    some (if !s.shutdown then update_object_names "udfs" udfs s else s)

/-- `AutoCompleteCache::refreshCharsets_w`. -/
def refreshCharsets_w (server : Server) (s : State) : Option State :=
  match server.show_charset with
  | .exception => none
  | .result rs =>
    let charsets := rows_read rs s
    some (if !s.shutdown then update_object_names "charsets" charsets s else s)

/-- `AutoCompleteCache::refreshCollations_w`. -/
def refreshCollations_w (server : Server) (s : State) : Option State :=
  match server.show_collation with
  | .exception => none
  | .result rs =>
    let collations := rows_read rs s
    some (if !s.shutdown then update_object_names "collations" collations s else s)

/-- `AutoCompleteCache::refresh_variables_w`: each name gets the marker `@@` in front. -/
def refresh_variables_w (server : Server) (s : State) : Option State :=
  match server.show_global_variables with
  | .exception => none
  | .result rs =>
    let names := (rows_read rs s).map fun name => "@@" ++ name
    some (if !s.shutdown then update_object_names "variables" names s else s)

/-- `AutoCompleteCache::refresh_engines_w`. -/
def refresh_engines_w (server : Server) (s : State) : Option State :=
  match server.show_engines with
  | .exception => none
  | .result rs =>
    let engines := rows_read rs s
    some (if !s.shutdown then update_object_names "engines" engines s else s)

/-- `AutoCompleteCache::refresh_logfile_groups_w`. -/
def refresh_logfile_groups_w (server : Server) (s : State) : Option State :=
  match server.select_logfile_groups with
  | .exception => none
  | .result rs =>
    let logfile_groups := rows_read rs s
    some (if !s.shutdown then update_object_names "logfile_groups" logfile_groups s else s)

/-- `AutoCompleteCache::refresh_tablespaces_w`: empty entries are left out. -/
def refresh_tablespaces_w (server : Server) (s : State) : Option State :=
  match server.select_tablespaces with
  | .exception => none
  | .result rs =>
    let tablespaces := (rows_read rs s).filter fun entry => !entry.isEmpty
    some (if !s.shutdown then update_object_names "tablespaces" tablespaces s else s)

/-- `AutoCompleteCache::refreshEvents_w`: empty entries are left out. -/
def refreshEvents_w (server : Server) (schema : String) (s : State) : Option State :=
  match server.select_events schema with
  | .exception => none
  | .result rs =>
    let events := (rows_read rs s).filter fun entry => !entry.isEmpty
    some (if !s.shutdown then update_object_names_in_schema "events" schema events s else s)

/-- The dispatch `switch (task.type)` of `refresh_cache_thread`. `none`: the fetcher threw. -/
def dispatch (server : Server) (thread_created : Bool) (task : RefreshTask) (s : State) :
    Option State :=
  match task.type with
  | RefreshSchemas =>
    match server.show_databases with
    | .exception => none
    | .result rs => some (refresh_schemas_w rs s)
  | RefreshTables => refresh_tables_w server thread_created task.schema_name s
  | RefreshViews => refresh_views_w server thread_created task.schema_name s
  | RefreshProcedures => refresh_procedures_w server task.schema_name s
  | RefreshFunctions => refresh_functions_w server task.schema_name s
  | RefreshColumns => refresh_columns_w server task.schema_name task.table_name s
  | RefreshTriggers => refresh_triggers_w server task.schema_name task.table_name s
  | RefreshUDFs => refresh_udfs_w server s
  | RefreshCharsets => refreshCharsets_w server s
  | RefreshCollations => refreshCollations_w server s
  | RefreshVariables => refresh_variables_w server s
  | RefreshEngines => refresh_engines_w server s
  | RefreshLogfileGroups => refresh_logfile_groups_w server s
  | RefreshTableSpaces => refresh_tablespaces_w server s
  | RefreshEvents => refreshEvents_w server task.schema_name s

/-- `AutoCompleteCache::refresh_cache_thread`, run by one worker from its entry to its return
with no other thread in between. The result is the list of the tasks dispatched, in order, each
with the outcome of its fetcher (`false`: it threw and the `catch` logged it), and the state at
the return. The first argument bounds the number of passes through the loop; `none` tells that
the bound was reached. -/
def refresh_cache_thread (server : Server) (thread_created : Bool) :
    Nat → State → Option (List (RefreshTask × Bool) × State)
  | 0, _ => none
  | n + 1, s =>
    if s.shutdown then some ([], refresh_cache_thread_exit s)
    else
      match get_pending_refresh s with
      | (none, s) => some ([], refresh_cache_thread_exit s)
      | (some task, s) =>
        if s.shutdown then some ([], refresh_cache_thread_exit s)
        else
          match dispatch server thread_created task s with
          | some s' =>
            match refresh_cache_thread server thread_created n s' with
            | some (log, s'') => some ((task, true) :: log, s'')
            | none => none
          | none =>
            match refresh_cache_thread server thread_created n s with
            | some (log, s'') => some ((task, false) :: log, s'')
            | none => none

/-- An upper bound of the number of tasks that the fetcher of a task requests: two for each
row of the table listing of its schema for a tables or views task, none for the other
kinds. -/
def children_bound (server : Server) (task : RefreshTask) : Nat :=
  match task.type with
  | RefreshTables | RefreshViews =>
    match server.show_full_tables task.schema_name with
    | .result (some rows) => 2 * rows.length
    | _ => 0
  | _ => 0

/-- A number of passes through the loop of the worker that suffices for the queue `q`. -/
def passes_bound (server : Server) (q : List RefreshTask) : Nat :=
  (q.map fun task => 1 + children_bound server task).sum

/-! ## The steps of the scheduler -/

/-- One step of a caller or of the worker, each atomic under `_pending_mutex`: a caller runs
`add_pending_refresh` (or `create_worker_thread` alone); the worker's call of
`get_pending_refresh` returns a task (`pop`) or returns false, on which the worker leaves its
loop (`observe_empty`); the worker runs the lines after the loop, which post the semaphore
(`release_permit`). The fetcher that runs between two steps of the worker acts on the queue
and the scheduler through `add_pending_refresh` steps only. -/
inductive Step where
  | add_pending_refresh (thread_created : Bool) (type : RefreshType) (schema table : String)
  | create_worker_thread (thread_created : Bool)
  | pop
  | observe_empty
  | release_permit
  deriving DecidableEq, Repr

/-- The state after a step; `none` when the step cannot be taken: a worker step needs a worker
at that place of `refresh_cache_thread`, `pop` a task in the queue and `observe_empty` a call
of `get_pending_refresh` that returns false. -/
def Step.apply : Step → State → Option State
  | .add_pending_refresh thread_created type schema table, s =>
    some (AutoCompleteCache.add_pending_refresh thread_created type schema table s)
  | .create_worker_thread thread_created, s =>
    some (AutoCompleteCache.create_worker_thread thread_created s)
  | .pop, s =>
    if s.workers_looping = 0 then none
    else
      match get_pending_refresh s with
      | (some _, s') => some s'
      | (none, _) => none
  | .observe_empty, s =>
    if s.workers_looping = 0 then none
    else
      match get_pending_refresh s with
      | (some _, _) => none
      | (none, s') => some (worker_leaves_loop s')
  | .release_permit, s =>
    if s.workers_leaving = 0 then none else some (worker_posts s)

/-- The state after a sequence of steps, the first of the list first; `none` when one of them
cannot be taken. -/
def run_steps : List Step → State → Option State
  | [], s => some s
  | step :: steps, s =>
    match step.apply s with
    | some s' => run_steps steps s'
    | none => none

/-- The step is a worker's. -/
def Step.is_worker_step : Step → Bool
  | .pop | .observe_empty | .release_permit => true
  | _ => false

/-- No thread creation fails in the step. -/
def Step.thread_created : Step → Bool
  | .add_pending_refresh thread_created _ _ _ => thread_created
  | .create_worker_thread thread_created => thread_created
  | _ => true

/-- The number of workers that have not yet posted the semaphore. -/
def active_workers (s : State) : Nat := s.workers_looping + s.workers_leaving

/-! ## Sequences of queue operations -/

/-- An operation on the task queue. -/
inductive QueueOp where
  | add_pending_refresh (thread_created : Bool) (type : RefreshType) (schema table : String)
  | get_pending_refresh
  | shutdown

/-- The state after one queue operation. -/
def QueueOp.apply : QueueOp → State → State
  | .add_pending_refresh thread_created type schema table, s =>
    AutoCompleteCache.add_pending_refresh thread_created type schema table s
  | .get_pending_refresh, s => (AutoCompleteCache.get_pending_refresh s).2
  | .shutdown, s => AutoCompleteCache.shutdown s

/-- The state after a sequence of queue operations, the first of the list first. -/
def run_queue_ops (ops : List QueueOp) (s : State) : State :=
  ops.foldl (fun s op => op.apply s) s

/-- The tasks that `n` successive calls of `get_pending_refresh` hand out, in the order of the
calls, and the state after them; a call that reports no task ends the sequence, as it ends
the loop of the worker. -/
def handed_out : Nat → State → List RefreshTask × State
  | 0, s => ([], s)
  | n + 1, s =>
    match get_pending_refresh s with
    | (some task, s') => (task :: (handed_out n s').1, (handed_out n s').2)
    | (none, s') => ([], s')

/-! ## Sequences of public calls -/

/-- A call of one of the public `get_matching_*` and `refresh_*` operations, or the worker's
call of `get_pending_refresh` between two of them. -/
inductive Call where
  | get_matching_schema_names (pfx : String)
  | get_matching_table_names (thread_created : Bool) (schema pfx : String)
  | get_matching_view_names (thread_created : Bool) (schema pfx : String)
  | get_matching_column_names (thread_created : Bool) (schema table pfx : String)
  | get_matching_procedure_names (thread_created : Bool) (schema pfx : String)
  | get_matching_function_names (thread_created : Bool) (schema pfx : String)
  | get_matching_trigger_names (thread_created : Bool) (schema table pfx : String)
  | get_matching_udf_names (pfx : String)
  | get_matching_variables (pfx : String)
  | get_matching_engines (pfx : String)
  | get_matching_logfile_groups (thread_created : Bool) (pfx : String)
  | get_matching_tablespaces (thread_created : Bool) (pfx : String)
  | get_matching_charsets (pfx : String)
  | get_matching_collations (pfx : String)
  | get_matching_events (schema pfx : String)
  | refresh_schema_list (thread_created : Bool)
  | refresh_schema_cache_if_needed (thread_created : Bool) (schema : String)
  | refresh_columns (thread_created : Bool) (schema table : String)
  | refresh_triggers (thread_created : Bool) (schema table : String)
  | refresh_udfs (thread_created : Bool)
  | refresh_tablespaces (thread_created : Bool)
  | refresh_logfile_groups (thread_created : Bool)
  | refresh_events (thread_created : Bool)
  | get_pending_refresh

/-- The call is one of `refresh_triggers`. -/
def Call.is_refresh_triggers : Call → Bool
  | .refresh_triggers _ _ _ => true
  | _ => false

/-- The state after a call. -/
def Call.apply (escape_sql_string : String → String) : Call → State → State
  | .get_matching_schema_names pfx, s =>
    (AutoCompleteCache.get_matching_schema_names escape_sql_string pfx s).2
  | .get_matching_table_names thread_created schema pfx, s =>
    (AutoCompleteCache.get_matching_table_names escape_sql_string thread_created schema pfx s).2
  | .get_matching_view_names thread_created schema pfx, s =>
    (AutoCompleteCache.get_matching_view_names escape_sql_string thread_created schema pfx s).2
  | .get_matching_column_names thread_created schema table pfx, s =>
    (AutoCompleteCache.get_matching_column_names escape_sql_string thread_created schema table
      pfx s).2
  | .get_matching_procedure_names thread_created schema pfx, s =>
    (AutoCompleteCache.get_matching_procedure_names escape_sql_string thread_created schema pfx
      s).2
  | .get_matching_function_names thread_created schema pfx, s =>
    (AutoCompleteCache.get_matching_function_names escape_sql_string thread_created schema pfx
      s).2
  | .get_matching_trigger_names thread_created schema table pfx, s =>
    (AutoCompleteCache.get_matching_trigger_names escape_sql_string thread_created schema table
      pfx s).2
  | .get_matching_udf_names pfx, s =>
    (AutoCompleteCache.get_matching_udf_names escape_sql_string pfx s).2
  | .get_matching_variables pfx, s =>
    (AutoCompleteCache.get_matching_variables escape_sql_string pfx s).2
  | .get_matching_engines pfx, s =>
    (AutoCompleteCache.get_matching_engines escape_sql_string pfx s).2
  | .get_matching_logfile_groups thread_created pfx, s =>
    (AutoCompleteCache.get_matching_logfile_groups escape_sql_string thread_created pfx s).2
  | .get_matching_tablespaces thread_created pfx, s =>
    (AutoCompleteCache.get_matching_tablespaces escape_sql_string thread_created pfx s).2
  | .get_matching_charsets pfx, s =>
    (AutoCompleteCache.get_matching_charsets escape_sql_string pfx s).2
  | .get_matching_collations pfx, s =>
    (AutoCompleteCache.get_matching_collations escape_sql_string pfx s).2
  | .get_matching_events schema pfx, s =>
    (AutoCompleteCache.get_matching_events escape_sql_string schema pfx s).2
  | .refresh_schema_list thread_created, s =>
    AutoCompleteCache.refresh_schema_list thread_created s
  | .refresh_schema_cache_if_needed thread_created schema, s =>
    (AutoCompleteCache.refresh_schema_cache_if_needed escape_sql_string thread_created schema
      s).2
  | .refresh_columns thread_created schema table, s =>
    AutoCompleteCache.refresh_columns thread_created schema table s
  | .refresh_triggers thread_created schema table, s =>
    AutoCompleteCache.refresh_triggers thread_created schema table s
  | .refresh_udfs thread_created, s => AutoCompleteCache.refresh_udfs thread_created s
  | .refresh_tablespaces thread_created, s =>
    AutoCompleteCache.refresh_tablespaces thread_created s
  | .refresh_logfile_groups thread_created, s =>
    AutoCompleteCache.refresh_logfile_groups thread_created s
  | .refresh_events thread_created, s => AutoCompleteCache.refresh_events thread_created s
  | .get_pending_refresh, s => (AutoCompleteCache.get_pending_refresh s).2

/-- The state after a sequence of calls, the first of the list first. -/
def run_calls (escape_sql_string : String → String) (calls : List Call) (s : State) : State :=
  calls.foldl (fun s call => call.apply escape_sql_string s) s

/-- Every queued task of the kind `kind` carries the empty schema and the empty table. -/
def scope_free (kind : RefreshType) (q : List RefreshTask) : Prop :=
  ∀ t ∈ q, t.type = kind → t.schema_name = "" ∧ t.table_name = ""

/-! ## Sequences of store operations -/

/-- An operation that can write to the store or read it: the fetcher of a task run by the
worker against a server, one of the update routines, a public call, or `shutdown`. -/
inductive StoreOp where
  | fetch (server : Server) (thread_created : Bool) (task : RefreshTask)
  | update_schemas (schemas : List String)
  | update_object_names (cache : String) (objects : List String)
  | update_object_names_in_schema (cache schema : String) (objects : List String)
  | update_object_names_in_table (cache schema table : String) (objects : List String)
  | call (c : Call)
  | shutdown

/-- The state after a store operation; a fetcher that throws leaves the state as it was. -/
def StoreOp.apply (escape_sql_string : String → String) : StoreOp → State → State
  | .fetch server thread_created task, s =>
    match dispatch server thread_created task s with
    | some s' => s'
    | none => s
  | .update_schemas schemas, s => AutoCompleteCache.update_schemas schemas s
  | .update_object_names cache objects, s =>
    AutoCompleteCache.update_object_names cache objects s
  | .update_object_names_in_schema cache schema objects, s =>
    AutoCompleteCache.update_object_names_in_schema cache schema objects s
  | .update_object_names_in_table cache schema table objects, s =>
    AutoCompleteCache.update_object_names_in_table cache schema table objects s
  | .call c, s => Call.apply escape_sql_string c s
  | .shutdown, s => AutoCompleteCache.shutdown s

/-- The state after a sequence of store operations, the first of the list first. -/
def run_store_ops (escape_sql_string : String → String) (ops : List StoreOp) (s : State) :
    State :=
  ops.foldl (fun s op => op.apply escape_sql_string s) s

/-- No row of the store has a refresh time. -/
def all_cold (s : State) : Prop :=
  ∀ cache, ∀ r ∈ s.sqconn cache, r.last_refresh = 0

/-! ## The deduplication rule as the specification words it -/

/-- The three granularities of the data model. -/
inductive Granularity where
  | kind
  | kind_schema
  | kind_schema_table
  deriving DecidableEq, Repr

/-- The granularity at which a task kind is deduplicated: the kind alone for
Schemas/Variables/Engines/UDFs/Charsets/Collations, kind and schema for
Tables/Views/Procedures/Functions/Events, kind, schema and table for
Triggers/Columns/LogfileGroups/TableSpaces. -/
def granularity : RefreshType → Granularity
  | RefreshSchemas | RefreshVariables | RefreshEngines | RefreshUDFs | RefreshCharsets
  | RefreshCollations => Granularity.kind
  | RefreshTables | RefreshViews | RefreshProcedures | RefreshFunctions | RefreshEvents =>
    Granularity.kind_schema
  | RefreshTriggers | RefreshColumns | RefreshLogfileGroups | RefreshTableSpaces =>
    Granularity.kind_schema_table

/-- Two tasks are equivalent when they have the same kind and agree on the scope fields that
the granularity of the kind names. -/
def equivalent (a b : RefreshTask) : Bool :=
  decide (a.type = b.type) &&
    match granularity a.type with
    | Granularity.kind => true
    | Granularity.kind_schema => a.schema_name == b.schema_name
    | Granularity.kind_schema_table =>
      a.schema_name == b.schema_name && a.table_name == b.table_name

/-- No two entries at different positions of the queue are equivalent. -/
def no_equivalent_pair (q : List RefreshTask) : Prop :=
  ∀ i j : Fin q.length, i ≠ j → equivalent (q.get i) (q.get j) = false

/-! ## Escaped patterns -/

/-- The pattern `p` spells the text `t` literally: it is `t` with the escape character put
before every `%`, `_` and `\`, and possibly before other characters as well. The flag tells
that the escape character has just been read. -/
def spells : Bool → List Char → List Char → Bool
  | false, [], t => t.isEmpty
  | true, [], _ => false
  | false, c :: p, t =>
    if c = '\\' then spells true p t
    else if c = '%' ∨ c = '_' then false
    else
      match t with
      | d :: t' => c == d && spells false p t'
      | [] => false
  | true, c :: p, t =>
    match t with
    | d :: t' => c == d && spells false p t'
    | [] => false

/-- What the operations need of the helper `escape_sql_string` at the string `text`: the
result spells `text` literally. -/
def escapes_literally (escape_sql_string : String → String) (text : String) : Prop :=
  spells false (escape_sql_string text).data text.data = true

instance (escape_sql_string : String → String) (text : String) :
    Decidable (escapes_literally escape_sql_string text) :=
  inferInstanceAs (Decidable (spells false (escape_sql_string text).data text.data = true))

/-- The escape character before each of `%`, `_` and `\`. -/
def escape_chars : List Char → List Char
  | [] => []
  | c :: t =>
    if c = '%' ∨ c = '_' ∨ c = '\\' then '\\' :: c :: escape_chars t else c :: escape_chars t

/-- Modelled from the spec: `base::escape_sql_string(s, true)`, defined in the base library
and not among the sources. The spec has the query façade build a prefix match "prefix +
wildcard" for `LIKE ... ESCAPE '\'`, so the escaped text stands for itself: the characters
that are special in such a pattern get the escape character in front. It instantiates the
helper parameter where an operation is run on concrete input. -/
def escape_like_wildcards (s : String) : String := String.mk (escape_chars s.data)

/-! ## Comparison up to ASCII case -/

/-- The characters of a string with the ASCII letters `A`..`Z` folded to lower case. -/
def fold_case (s : String) : List Char := s.data.map Char.toLower

/-- The two strings are equal up to the case of ASCII letters. -/
def equal_ignoring_case (a b : String) : Bool := fold_case a == fold_case b

/-- The string `name` begins with `start`, up to the case of ASCII letters. -/
def begins_with_ignoring_case (name start : String) : Bool :=
  (fold_case start).isPrefixOf (fold_case name)

/-! ## The prefix query as the specification words it -/

/-- The names of the cached table rows of the schema `schema` whose name begins with `start`,
in store order. -/
def table_names_beginning_with (s : State) (schema start : String) : List String :=
  ((s.sqconn "tables").filter fun (r : Row) =>
    r.schema_id == schema && start.data.isPrefixOf r.name.data).map fun (r : Row) => r.name

/-! ## Sample states -/

/-- A store with two schemas and a few cached objects. -/
def sample_store : Store := fun cache =>
  if cache = "schemas" then [⟨"", "", "shop", 0⟩, ⟨"", "", "crm", 0⟩]
  else if cache = "tables" then
    [⟨"shop", "", "orders", 0⟩, ⟨"shop", "", "order_items", 0⟩, ⟨"shop", "", "customers", 0⟩,
      ⟨"crm", "", "orders_archive", 0⟩]
  else if cache = "engines" then [⟨"", "", "InnoDB", 0⟩]
  else []

/-- A running cache over `sample_store` with two pending tasks and an idle scheduler. -/
def sample_state : State where
  sqconn := sample_store
  pending_tasks := [⟨RefreshSchemas, "", ""⟩, ⟨RefreshTables, "shop", ""⟩]
  shutdown := false
  cache_working := 1
  refresh_thread := false
  workers_looping := 0
  workers_leaving := 0
  feedback := true
  feedback_calls := []

/-- A running cache with an empty queue whose schemas table holds names that differ only in
the case of their letters, some with a refresh time and some without. -/
def case_variant_state : State where
  sqconn := fun cache =>
    if cache = "schemas" then
      [⟨"", "", "SALES", 0⟩, ⟨"", "", "sales", 5⟩, ⟨"", "", "hr", 7⟩, ⟨"", "", "HR", 0⟩]
    else []
  pending_tasks := []
  shutdown := false
  cache_working := 1
  refresh_thread := false
  workers_looping := 0
  workers_leaving := 0
  feedback := true
  feedback_calls := []

/-- A running cache whose schemas table holds the row with the empty name, with a refresh
time. -/
def timed_sentinel_state : State where
  sqconn := fun cache => if cache = "schemas" then [⟨"", "", "", 5⟩, ⟨"", "", "sales", 9⟩] else []
  pending_tasks := []
  shutdown := false
  cache_working := 1
  refresh_thread := false
  workers_looping := 0
  workers_leaving := 0
  feedback := true
  feedback_calls := []

/-- A running cache with an empty queue that caches two tables of the schema `shop`, the
columns of one of them and a trigger of each. -/
def table_scoped_state : State where
  sqconn := fun cache =>
    if cache = "schemas" then [⟨"", "", "shop", 0⟩]
    else if cache = "tables" then [⟨"shop", "", "orders", 0⟩, ⟨"shop", "", "customers", 0⟩]
    else if cache = "columns" then [⟨"shop", "orders", "id", 0⟩, ⟨"shop", "orders", "total", 0⟩]
    else if cache = "triggers" then
      [⟨"shop", "orders", "trg_orders", 0⟩, ⟨"shop", "customers", "trg_customers", 0⟩]
    else []
  pending_tasks := []
  shutdown := false
  cache_working := 1
  refresh_thread := false
  workers_looping := 0
  workers_leaving := 0
  feedback := true
  feedback_calls := []

/-- A live server with the schemas `shop` and `crm`; every schema lists the table `orders`
and the view `v_orders`; `SHOW COLUMNS` throws; the other statements yield a name or nothing. -/
def sample_server : Server where
  show_databases := .result (some ["shop", "crm"])
  show_schemas_like := fun schema => .result (some [schema])
  show_full_tables := fun _ => .result (some [("orders", "BASE TABLE"), ("v_orders", "VIEW")])
  show_function_status := fun _ => .result (some [])
  show_procedure_status := fun _ => .result (some [])
  show_columns := fun _ _ => .exception
  show_triggers_where_table := fun _ table => .result (some ["trg_" ++ table])
  show_triggers := fun _ => .result none
  select_udfs := .result (some [])
  show_charset := .result (some ["utf8"])
  show_collation := .result (some ["utf8_general_ci"])
  show_global_variables := .result (some ["version"])
  show_engines := .result (some ["InnoDB"])
  select_logfile_groups := .result none
  select_tablespaces := .result (some [""])
  select_events := fun _ => .exception

/-- The cache `table_scoped_state` after `shutdown()`. -/
def stopped_state : State := shutdown table_scoped_state

/-- The server `sample_server` with a table listing that names the table `t` twice. -/
def repeating_server : Server :=
  { sample_server with
    show_full_tables := fun _ => .result (some [("t", "BASE TABLE"), ("t", "BASE TABLE")]) }

/-! ## The referential invariant as the specification words it -/

/-- Every row of `columns` and of `triggers` refers to a (schema, table) pair that the `tables`
cache holds. -/
def refers_to_cached_tables (s : State) : Bool :=
  ["columns", "triggers"].all fun cache =>
    (s.sqconn cache).all fun (r : Row) =>
      (s.sqconn "tables").any fun (t : Row) => t.schema_id == r.schema_id && t.name == r.table_id

/-! ## Lemmas on `LIKE` -/

theorem match_any_isEmpty (t : List Char) : match_any (fun s => s.isEmpty) t = true := by
  induction t with
  | nil => rfl
  | cons c t ih => simp [match_any, ih]

theorem like_chars_wildcard (t : List Char) : like_chars false ['%'] t = true := by
  have h2 : like_chars false [] = fun s => s.isEmpty := by
    funext s; simp [like_chars]
  simp only [like_chars, if_true, h2]
  exact match_any_isEmpty t

/-- A pattern that spells `s` matches exactly the texts equal to `s` up to ASCII case, and
followed by `%` exactly the texts that begin with `s` up to ASCII case. -/
theorem like_chars_of_spells (p : List Char) :
    ∀ (esc : Bool) (s : List Char), spells esc p s = true → ∀ t : List Char,
      like_chars esc p t = (s.map Char.toLower == t.map Char.toLower) ∧
      like_chars esc (p ++ ['%']) t = (s.map Char.toLower).isPrefixOf (t.map Char.toLower) := by
  induction p with
  | nil =>
    intro esc s hp t
    cases esc with
    | true => simp [spells] at hp
    | false =>
      simp only [spells, List.isEmpty_eq_true] at hp
      subst hp
      refine ⟨?_, ?_⟩
      · cases t <;> simp [like_chars]
      · simpa using like_chars_wildcard t
  | cons c p ih =>
    intro esc s hp t
    cases esc with
    | true =>
      cases s with
      | nil => simp [spells] at hp
      | cons d s =>
        simp only [spells, Bool.and_eq_true, beq_iff_eq] at hp
        obtain ⟨hcd, hsp⟩ := hp
        subst hcd
        cases t with
        | nil => simp [like_chars]
        | cons d' t' =>
          have := ih false s hsp t'
          simp [like_chars, same_char, this.1, this.2, List.isPrefixOf]
    | false =>
      simp only [spells] at hp
      split at hp
      · rename_i hc
        have hne : ¬ c = '%' := by rw [hc]; decide
        have := ih true s hp t
        simp [like_chars, hc, this.1, this.2]
      · rename_i hc
        split at hp
        · simp at hp
        · rename_i hw
          have h1 : ¬ c = '%' := fun h => hw (Or.inl h)
          have h2 : ¬ c = '_' := fun h => hw (Or.inr h)
          cases s with
          | nil => simp at hp
          | cons d s =>
            simp only [Bool.and_eq_true, beq_iff_eq] at hp
            obtain ⟨hcd, hsp⟩ := hp
            subst hcd
            cases t with
            | nil => simp [like_chars, hc, h1]
            | cons d' t' =>
              have := ih false s hsp t'
              simp [like_chars, hc, h1, h2, same_char, this.1, this.2, List.isPrefixOf]

theorem sqlite_like_escaped (escape_sql_string : String → String) (text : String)
    (h : escapes_literally escape_sql_string text) (t : String) :
    sqlite_like (escape_sql_string text) t = equal_ignoring_case text t :=
  (like_chars_of_spells _ false _ h t.data).1

theorem sqlite_like_escaped_wildcard (escape_sql_string : String → String) (text : String)
    (h : escapes_literally escape_sql_string text) (t : String) :
    sqlite_like (escape_sql_string text ++ "%") t = begins_with_ignoring_case t text := by
  unfold sqlite_like
  rw [String.data_append]
  exact (like_chars_of_spells _ false _ h t.data).2

theorem sqlite_like_wildcard (t : String) : sqlite_like "%" t = true :=
  like_chars_wildcard t.data

theorem spells_escape_chars (s : List Char) : spells false (escape_chars s) s = true := by
  induction s with
  | nil => rfl
  | cons c s ih =>
    unfold escape_chars
    split
    · simp [spells, ih]
    · rename_i h
      have h1 : ¬ c = '\\' := fun e => h (Or.inr (Or.inr e))
      have h2 : ¬ (c = '%' ∨ c = '_') := fun e => h (e.elim Or.inl (fun e => Or.inr (Or.inl e)))
      simp [spells, h1, h2, ih]

/-- The modelled helper escapes every string literally. -/
theorem escape_like_wildcards_literal (s : String) :
    escapes_literally escape_like_wildcards s :=
  spells_escape_chars s.data

/-! ## Lemmas on the queue -/

theorem same_request_eq_equivalent (i : RefreshTask) (type : RefreshType)
    (schema table : String) :
    same_request i type schema table = equivalent i ⟨type, schema, table⟩ := by
  unfold same_request equivalent
  by_cases h : i.type = type
  · subst h
    cases hk : i.type <;> simp [granularity]
  · simp [h]

theorem string_beq_comm (x y : String) : (x == y) = (y == x) := by
  rw [Bool.eq_iff_iff, beq_iff_eq, beq_iff_eq]
  exact eq_comm

theorem equivalent_symm (a b : RefreshTask) : equivalent a b = equivalent b a := by
  unfold equivalent
  by_cases h : a.type = b.type
  · rw [← h]
    cases hk : a.type <;>
      simp only [granularity, string_beq_comm a.schema_name b.schema_name,
        string_beq_comm a.table_name b.table_name]
  · have h' : ¬ b.type = a.type := fun e => h e.symm
    simp [h, h']

theorem create_worker_thread_pending (thread_created : Bool) (s : State) :
    (create_worker_thread thread_created s).pending_tasks = s.pending_tasks := by
  unfold create_worker_thread
  split
  · rfl
  · dsimp only
    split <;> split <;> try split
    all_goals first | rfl | (split <;> rfl)

theorem create_worker_thread_shutdown (thread_created : Bool) (s : State) :
    (create_worker_thread thread_created s).shutdown = s.shutdown := by
  unfold create_worker_thread
  split
  · rfl
  · dsimp only
    split <;> split <;> try split
    all_goals first | rfl | (split <;> rfl)

theorem create_worker_thread_sqconn (thread_created : Bool) (s : State) :
    (create_worker_thread thread_created s).sqconn = s.sqconn := by
  unfold create_worker_thread
  split
  · rfl
  · dsimp only
    split <;> split <;> try split
    all_goals first | rfl | (split <;> rfl)

/-- The queue after `add_pending_refresh` on a running cache, by the scan of the code. -/
theorem add_pending_refresh_pending (thread_created : Bool) (type : RefreshType)
    (schema table : String) (s : State) (h : s.shutdown = false) :
    (add_pending_refresh thread_created type schema table s).pending_tasks =
      if s.pending_tasks.any (fun i => equivalent i ⟨type, schema, table⟩) then s.pending_tasks
      else s.pending_tasks ++ [⟨type, schema, table⟩] := by
  unfold add_pending_refresh
  simp only [h, Bool.false_eq_true, if_false, same_request_eq_equivalent]
  cases hf : s.pending_tasks.any (fun i => equivalent i ⟨type, schema, table⟩)
  · simp only [Bool.not_false, if_true, Bool.false_eq_true, if_false]
    split
    · rw [create_worker_thread_pending]
    · rfl
  · simp only [Bool.not_true, Bool.false_eq_true, if_false, if_true]
    split
    · rw [create_worker_thread_pending]
    · rfl

theorem add_pending_refresh_shutdown (thread_created : Bool) (type : RefreshType)
    (schema table : String) (s : State) :
    (add_pending_refresh thread_created type schema table s).shutdown = s.shutdown := by
  unfold add_pending_refresh
  split
  · rfl
  · dsimp only
    split <;> split <;> simp [create_worker_thread_shutdown]

theorem add_pending_refresh_sqconn (thread_created : Bool) (type : RefreshType)
    (schema table : String) (s : State) :
    (add_pending_refresh thread_created type schema table s).sqconn = s.sqconn := by
  unfold add_pending_refresh
  split
  · rfl
  · dsimp only
    split <;> split <;> simp [create_worker_thread_sqconn]

/-- The invariant in the form the induction uses. -/
theorem no_equivalent_pair_iff (q : List RefreshTask) :
    no_equivalent_pair q ↔ q.Pairwise (fun a b => equivalent a b = false) := by
  rw [List.pairwise_iff_get]
  constructor
  · intro h i j hij
    exact h i j (ne_of_lt hij)
  · intro h i j hij
    rcases lt_or_gt_of_ne hij with hlt | hgt
    · exact h i j hlt
    · rw [equivalent_symm]
      exact h j i hgt

theorem pairwise_add_pending_refresh (thread_created : Bool) (type : RefreshType)
    (schema table : String) (s : State)
    (h : s.pending_tasks.Pairwise (fun a b => equivalent a b = false)) :
    (add_pending_refresh thread_created type schema table s).pending_tasks.Pairwise
      (fun a b => equivalent a b = false) := by
  cases hs : s.shutdown
  · rw [add_pending_refresh_pending _ _ _ _ _ hs]
    split
    · exact h
    · rename_i hf
      rw [Bool.not_eq_true, List.any_eq_false] at hf
      rw [List.pairwise_append]
      refine ⟨h, List.pairwise_singleton _ _, ?_⟩
      intro a ha b hb
      rw [List.mem_singleton] at hb
      subst hb
      simpa using hf a ha
  · unfold add_pending_refresh
    simpa [hs] using h

theorem pairwise_get_pending_refresh (s : State)
    (h : s.pending_tasks.Pairwise (fun a b => equivalent a b = false)) :
    (get_pending_refresh s).2.pending_tasks.Pairwise (fun a b => equivalent a b = false) := by
  unfold get_pending_refresh
  split
  · exact h
  · split
    · rename_i task rest hq
      rw [hq] at h
      exact (List.pairwise_cons.mp h).2
    · exact h

theorem shutdown_pending (s : State) : (shutdown s).pending_tasks = [] := by
  unfold shutdown refresh_cache_thread_exit worker_posts worker_leaves_loop
  dsimp only
  split
  · split
    · simp
    · split <;> simp
  · rfl

theorem shutdown_flag (s : State) : (shutdown s).shutdown = true := by
  unfold shutdown refresh_cache_thread_exit worker_posts worker_leaves_loop
  dsimp only
  split
  · split
    · simp
    · split <;> simp
  · rfl

theorem pairwise_run_queue_ops (ops : List QueueOp) (s : State)
    (h : s.pending_tasks.Pairwise (fun a b => equivalent a b = false)) :
    (run_queue_ops ops s).pending_tasks.Pairwise (fun a b => equivalent a b = false) := by
  induction ops generalizing s with
  | nil => exact h
  | cons op ops ih =>
    show (run_queue_ops ops (op.apply s)).pending_tasks.Pairwise _
    apply ih
    cases op with
    | add_pending_refresh thread_created type schema table =>
      exact pairwise_add_pending_refresh _ _ _ _ _ h
    | get_pending_refresh => exact pairwise_get_pending_refresh _ h
    | shutdown =>
      show (shutdown s).pending_tasks.Pairwise _
      rw [shutdown_pending]
      exact List.Pairwise.nil


/-! ## Lemmas on the query façade -/

theorem refresh_schema_cache_if_needed_sqconn (escape_sql_string : String → String)
    (thread_created : Bool) (schema : String) (s : State) :
    (refresh_schema_cache_if_needed escape_sql_string thread_created schema s).2.sqconn
      = s.sqconn := by
  unfold refresh_schema_cache_if_needed
  split
  · rfl
  · split
    · rfl
    · dsimp only
      split
      · rfl
      · simp only [add_pending_refresh_sqconn]

theorem refresh_schema_cache_if_needed_shutdown (escape_sql_string : String → String)
    (thread_created : Bool) (schema : String) (s : State) :
    (refresh_schema_cache_if_needed escape_sql_string thread_created schema s).2.shutdown
      = s.shutdown := by
  unfold refresh_schema_cache_if_needed
  split
  · rfl
  · split
    · rfl
    · dsimp only
      split
      · rfl
      · simp only [add_pending_refresh_shutdown]

theorem get_matching_objects_congr (escape_sql_string : String → String)
    (cache schema table pfx : String) (type : RetrievalType) (s s' : State)
    (hq : s'.sqconn = s.sqconn) (hs : s'.shutdown = s.shutdown) :
    get_matching_objects escape_sql_string cache schema table pfx type s'
      = get_matching_objects escape_sql_string cache schema table pfx type s := by
  unfold get_matching_objects
  rw [hq, hs]

theorem get_matching_objects_of_shutdown (escape_sql_string : String → String)
    (cache schema table pfx : String) (type : RetrievalType) (s : State)
    (h : s.shutdown = true) :
    get_matching_objects escape_sql_string cache schema table pfx type s = [] := by
  unfold get_matching_objects
  simp [h]

theorem refresh_schema_cache_if_needed_of_shutdown (escape_sql_string : String → String)
    (thread_created : Bool) (schema : String) (s : State) (h : s.shutdown = true) :
    refresh_schema_cache_if_needed escape_sql_string thread_created schema s = (false, s) := by
  unfold refresh_schema_cache_if_needed
  simp [h]

/-- The look at the first row of a filtered result is a `find?`. -/
theorem first_row_eq_find (rows : List Row) (p : Row → Bool) :
    (match rows.filter p with
      | r :: _ => r.last_refresh != 0
      | [] => false)
      = match rows.find? p with
        | some r => r.last_refresh != 0
        | none => false := by
  induction rows with
  | nil => rfl
  | cons a rows ih =>
    cases hp : p a
    · rw [List.filter_cons_of_neg (by simp [hp]), List.find?_cons_of_neg _ (by simp [hp])]
      exact ih
    · rw [List.filter_cons_of_pos hp, List.find?_cons_of_pos _ hp]

/-- The schema scoped query on a running cache, with the `LIKE` conditions spelled out. -/
theorem get_matching_objects_schema_qualifier (escape_sql_string : String → String)
    (cache schema table pfx : String) (s : State) (hrun : s.shutdown = false)
    (hschema : escapes_literally escape_sql_string schema)
    (hpfx : escapes_literally escape_sql_string pfx) :
    get_matching_objects escape_sql_string cache schema table pfx RetrieveWithSchemaQualifier s
      = ((s.sqconn cache).filter fun (r : Row) =>
          (decide (schema = "") || equal_ignoring_case schema r.schema_id)
            && begins_with_ignoring_case r.name pfx).map fun (r : Row) => r.name := by
  unfold get_matching_objects
  simp only [hrun, Bool.false_eq_true, if_false]
  congr 1
  apply List.filter_congr
  intro r _
  rw [sqlite_like_escaped_wildcard _ _ hpfx]
  by_cases he : schema = ""
  · have : schema.isEmpty = true := (String.isEmpty_iff schema).mpr he
    rw [if_pos this]
    simp [he, sqlite_like_wildcard]
  · have : schema.isEmpty = false := by
      rw [← Bool.not_eq_true, String.isEmpty_iff]; exact he
    rw [if_neg (by simp [this])]
    simp [he, sqlite_like_escaped _ _ hschema]

/-- The stale check on a running cache for a non-empty schema, with the lookup spelled out:
the first schemas row whose name equals the schema up to ASCII case decides. -/
theorem refresh_schema_cache_if_needed_running (escape_sql_string : String → String)
    (thread_created : Bool) (schema : String) (s : State)
    (hesc : escapes_literally escape_sql_string schema) (hne : schema ≠ "")
    (hrun : s.shutdown = false) :
    refresh_schema_cache_if_needed escape_sql_string thread_created schema s
      = if (match (s.sqconn "schemas").find? (fun r => equal_ignoring_case schema r.name) with
            | some r => r.last_refresh != 0
            | none => false) = true
        then (false, s)
        else (true,
          add_pending_refresh thread_created RefreshEvents schema ""
            (add_pending_refresh thread_created RefreshFunctions schema ""
              (add_pending_refresh thread_created RefreshProcedures schema ""
                (add_pending_refresh thread_created RefreshViews schema ""
                  (add_pending_refresh thread_created RefreshTables schema "" s))))) := by
  have hemp : ¬ schema.isEmpty = true := by
    rw [String.isEmpty_iff]; exact hne
  have hfun : (fun (r : Row) => sqlite_like (escape_sql_string schema) r.name)
      = fun r => equal_ignoring_case schema r.name := by
    funext r
    exact sqlite_like_escaped _ _ hesc _
  unfold refresh_schema_cache_if_needed
  rw [if_neg hemp, if_neg (by simp [hrun])]
  dsimp only
  rw [if_neg hemp, hfun, first_row_eq_find]

theorem equivalent_of_equivalent (a b t : RefreshTask) (ha : equivalent a t = true)
    (hb : equivalent b t = true) : equivalent a b = true := by
  unfold equivalent at ha hb ⊢
  rw [Bool.and_eq_true, decide_eq_true_iff] at ha hb
  obtain ⟨hat, ha⟩ := ha
  obtain ⟨hbt, hb⟩ := hb
  rw [hbt] at hb
  rw [hat] at ha ⊢
  rw [Bool.and_eq_true, decide_eq_true_iff]
  refine ⟨hbt.symm, ?_⟩
  cases hk : t.type <;> simp only [hk, granularity] at ha hb ⊢
  all_goals simp_all

theorem countP_eq_one_of_pairwise {α : Type} (P : α → Bool) (q : List α)
    (hpair : q.Pairwise (fun a b => ¬ (P a = true ∧ P b = true)))
    (hex : ∃ a ∈ q, P a = true) : q.countP P = 1 := by
  induction q with
  | nil => simp at hex
  | cons a q ih =>
    rw [List.pairwise_cons] at hpair
    cases hPa : P a
    · rw [List.countP_cons_of_neg _ _ (by simp [hPa])]
      apply ih hpair.2
      obtain ⟨x, hx, hPx⟩ := hex
      rcases List.mem_cons.mp hx with rfl | hx'
      · rw [hPa] at hPx; cases hPx
      · exact ⟨x, hx', hPx⟩
    · rw [List.countP_cons_of_pos _ _ hPa]
      have h0 : q.countP P = 0 := by
        rw [List.countP_eq_zero]
        intro b hb hPb
        exact hpair.1 b hb ⟨hPa, hPb⟩
      rw [h0]

/-- A run of requests that are pairwise not equivalent: each is appended unless the queue held
an equivalent task before the run. -/
theorem add_all_pending (thread_created : Bool) (reqs : List RefreshTask) :
    ∀ s : State, s.shutdown = false → reqs.Pairwise (fun a b => equivalent a b = false) →
      (reqs.foldl (fun st t =>
          add_pending_refresh thread_created t.type t.schema_name t.table_name st)
        s).pending_tasks
        = s.pending_tasks ++
          reqs.filter (fun t => !s.pending_tasks.any (fun i => equivalent i t)) := by
  induction reqs with
  | nil => intro s _ _; simp
  | cons t reqs ih =>
    intro s hrun hreqs
    rw [List.pairwise_cons] at hreqs
    rw [List.foldl_cons, ih _ (by rw [add_pending_refresh_shutdown]; exact hrun) hreqs.2,
      add_pending_refresh_pending _ _ _ _ _ hrun]
    have ht : (⟨t.type, t.schema_name, t.table_name⟩ : RefreshTask) = t := rfl
    rw [ht]
    cases hf : s.pending_tasks.any (fun i => equivalent i t)
    · simp only [Bool.false_eq_true, if_false, List.filter_cons, hf, Bool.not_false, if_true,
        List.append_assoc, List.singleton_append]
      congr 2
      apply List.filter_congr
      intro u hu
      rw [List.any_append]
      simp [hreqs.1 u hu]
    · simp only [if_true, List.filter_cons, hf, Bool.not_true, Bool.false_eq_true, if_false]

/-! ## Lemmas on the schema list update -/

theorem insert_rows_schemas (rows : List Row) :
    ∀ acc : List Row, ((acc ++ rows).map fun (r : Row) => r.name).Nodup →
      insert_rows "schemas" acc rows = some (acc ++ rows) := by
  induction rows with
  | nil => intro acc _; simp [insert_rows]
  | cons r rows ih =>
    intro acc h
    have hnot : acc.any (fun x => primary_key "schemas" x == primary_key "schemas" r)
        = false := by
      rw [List.any_eq_false]
      intro x hx
      have hname : x.name ≠ r.name := by
        intro e
        rw [List.map_append, List.map_cons, List.nodup_append] at h
        exact h.2.2 (List.mem_map.mpr ⟨x, hx, rfl⟩) (e ▸ List.mem_cons_self _ _)
      simpa [primary_key] using hname
    have h' : (((acc ++ [r]) ++ rows).map fun (r : Row) => r.name).Nodup := by
      simpa using h
    simp only [insert_rows, insert_row, hnot, Bool.false_eq_true, if_false]
    rw [ih (acc ++ [r]) h']
    simp

theorem old_schema_update_times_append (rows : List Row) (x : Row) :
    old_schema_update_times (rows ++ [x])
      = if x.name ≠ "" then
          fun k => if k = x.name then some x.last_refresh else old_schema_update_times rows k
        else old_schema_update_times rows := by
  unfold old_schema_update_times
  rw [List.foldl_append]
  rfl

theorem old_schema_update_times_of_mem (rows : List Row) :
    ((rows.map fun (r : Row) => r.name).Nodup) → ∀ r ∈ rows, r.name ≠ "" →
      old_schema_update_times rows r.name = some r.last_refresh := by
  induction rows using List.reverseRecOn with
  | nil => intro _ r hr; cases hr
  | append_singleton rows x ih =>
    intro hnodup r hr hname
    rw [old_schema_update_times_append]
    rw [List.map_append, List.nodup_append] at hnodup
    rcases List.mem_append.mp hr with hr' | hr'
    · have hne : r.name ≠ x.name := by
        intro e
        exact hnodup.2.2 (List.mem_map.mpr ⟨r, hr', rfl⟩) (by simp [e])
      split
      · simp only [hne, if_false]
        exact ih hnodup.1 r hr' hname
      · exact ih hnodup.1 r hr' hname
    · rw [List.mem_singleton] at hr'
      subst hr'
      simp [hname]

theorem old_schema_update_times_none (rows : List Row) (n : String)
    (h : n = "" ∨ ∀ r ∈ rows, r.name ≠ n) : old_schema_update_times rows n = none := by
  induction rows using List.reverseRecOn with
  | nil => rfl
  | append_singleton rows x ih =>
    rw [old_schema_update_times_append]
    have h' : n = "" ∨ ∀ r ∈ rows, r.name ≠ n :=
      h.imp id (fun hall r hr => hall r (List.mem_append_left _ hr))
    split
    · rename_i hx
      have hne : n ≠ x.name := by
        rcases h with h | h
        · rw [h]; exact fun e => hx e.symm
        · exact fun e => h x (by simp) e.symm
      simp only [hne, if_false]
      exact ih h'
    · exact ih h'

/-- The schemas table after `update_schemas` of a non-empty list without repetition. -/
theorem update_schemas_rows (schemas : List String) (s : State) (hrun : s.shutdown = false)
    (hne : schemas ≠ []) (hnodup : schemas.Nodup) :
    (update_schemas schemas s).sqconn "schemas"
      = schemas.map fun t =>
          (⟨"", "", t, match old_schema_update_times (s.sqconn "schemas") t with
            | none => 0
            | some v => v⟩ : Row) := by
  have hemp : schemas.isEmpty = false := by
    cases schemas with
    | nil => exact absurd rfl hne
    | cons a l => rfl
  unfold update_schemas
  simp only [hrun, Bool.false_eq_true, if_false, hemp]
  rw [insert_rows_schemas _ [] (by simpa [Function.comp_def] using hnodup)]
  simp [transaction]

/-! ## The claims -/

/-- C1 (dedup invariant): in every state reached from an empty task queue by any sequence of
`add_pending_refresh`, `get_pending_refresh` and `shutdown`, no two entries at different
positions of the queue are equivalent under the kind-dependent rule. -/
theorem dedup_invariant (ops : List QueueOp) (s : State) :
    no_equivalent_pair (run_queue_ops ops { s with pending_tasks := [] }).pending_tasks := by
  rw [no_equivalent_pair_iff]
  exact pairwise_run_queue_ops ops _ List.Pairwise.nil


theorem add_pending_refresh_of_shutdown (thread_created : Bool) (type : RefreshType)
    (schema table : String) (s : State) (h : s.shutdown = true) :
    add_pending_refresh thread_created type schema table s = s := by
  unfold add_pending_refresh
  simp [h]

theorem get_pending_refresh_of_shutdown (s : State) (h : s.shutdown = true) :
    get_pending_refresh s = (none, s) := by
  unfold get_pending_refresh
  simp [h]

theorem handed_out_take (n : Nat) (s : State) (h : s.shutdown = false) :
    (handed_out n s).1 = s.pending_tasks.take n ∧
      (handed_out n s).2.pending_tasks = s.pending_tasks.drop n := by
  induction n generalizing s with
  | zero => exact ⟨rfl, rfl⟩
  | succ n ih =>
    cases hq : s.pending_tasks with
    | nil =>
      have hg : get_pending_refresh s = (none, s) := by
        unfold get_pending_refresh
        simp [h, hq]
      simp [handed_out, hg, hq]
    | cons task rest =>
      have hg : get_pending_refresh s = (some task, { s with pending_tasks := rest }) := by
        unfold get_pending_refresh
        simp [h, hq]
      have ih' := ih { s with pending_tasks := rest } h
      simp only [handed_out, hg, List.take_succ_cons, List.drop_succ_cons]
      exact ⟨by rw [ih'.1], ih'.2⟩

/-- C2: on a cache that is not shut down, `add_pending_refresh` leaves the queue exactly as it
was when an equivalent task is already queued, and otherwise appends the task
`(kind, schema, table)` at the end. -/
theorem add_pending_refresh_dedup (thread_created : Bool) (type : RefreshType)
    (schema table : String) (s : State) (h : s.shutdown = false) :
    ((∃ i ∈ s.pending_tasks, equivalent i ⟨type, schema, table⟩ = true) →
      (add_pending_refresh thread_created type schema table s).pending_tasks
        = s.pending_tasks) ∧
    ((∀ i ∈ s.pending_tasks, equivalent i ⟨type, schema, table⟩ = false) →
      (add_pending_refresh thread_created type schema table s).pending_tasks
        = s.pending_tasks ++ [⟨type, schema, table⟩]) := by
  rw [add_pending_refresh_pending _ _ _ _ _ h]
  constructor
  · intro hex
    rw [if_pos (List.any_eq_true.mpr hex)]
  · intro hall
    rw [if_neg]
    rw [Bool.not_eq_true, List.any_eq_false]
    intro x hx
    simp [hall x hx]

/-- Witness of C2 on `sample_state`: a second tables request for schema `shop` is dropped, a
views request for the same schema is appended. -/
theorem add_pending_refresh_dedup_witness :
    sample_state.shutdown = false ∧
    (add_pending_refresh true RefreshTables "shop" "t" sample_state).pending_tasks
      = [⟨RefreshSchemas, "", ""⟩, ⟨RefreshTables, "shop", ""⟩] ∧
    (add_pending_refresh true RefreshViews "shop" "" sample_state).pending_tasks
      = [⟨RefreshSchemas, "", ""⟩, ⟨RefreshTables, "shop", ""⟩, ⟨RefreshViews, "shop", ""⟩] :=
  ⟨rfl,
    (add_pending_refresh_dedup true RefreshTables "shop" "t" sample_state rfl).1
      ⟨⟨RefreshTables, "shop", ""⟩, by decide, by decide⟩,
    (add_pending_refresh_dedup true RefreshViews "shop" "" sample_state rfl).2 (by decide)⟩

/-- C3: `get_pending_refresh` is FIFO. On a cache that is not shut down a non-empty queue
gives up its front task and keeps the rest; an empty queue reports that no task is available
and stays as it is. Hence successive calls hand the queued tasks to the worker in queue
order, and a request enqueued now is handed out after every task queued before it, unless it
is dropped for an equivalent one: tasks reach the worker in the order in which they were first
enqueued. -/
theorem get_pending_refresh_fifo (s : State) (h : s.shutdown = false) :
    (∀ task rest, s.pending_tasks = task :: rest →
      get_pending_refresh s = (some task, { s with pending_tasks := rest })) ∧
    (s.pending_tasks = [] → get_pending_refresh s = (none, s)) ∧
    (∀ n, (handed_out n s).1 = s.pending_tasks.take n) ∧
    (handed_out s.pending_tasks.length s).1 = s.pending_tasks ∧
    (handed_out s.pending_tasks.length s).2.pending_tasks = [] ∧
    (∀ thread_created type schema table,
      (handed_out (s.pending_tasks.length + 1)
        (add_pending_refresh thread_created type schema table s)).1
        = if s.pending_tasks.any (fun i => equivalent i ⟨type, schema, table⟩)
          then s.pending_tasks else s.pending_tasks ++ [⟨type, schema, table⟩]) := by
  refine ⟨?_, ?_, ?_, ?_, ?_, ?_⟩
  · intro task rest hq
    unfold get_pending_refresh
    simp [h, hq]
  · intro hq
    unfold get_pending_refresh
    simp [h, hq]
  · intro n
    exact (handed_out_take n s h).1
  · rw [(handed_out_take _ s h).1, List.take_length]
  · rw [(handed_out_take _ s h).2, List.drop_length]
  · intro thread_created type schema table
    rw [(handed_out_take _ _ (by rw [add_pending_refresh_shutdown]; exact h)).1,
      add_pending_refresh_pending _ _ _ _ _ h]
    split
    · exact List.take_of_length_le (Nat.le_succ _)
    · exact List.take_of_length_le (by simp)

/-- Witness of C3 on `sample_state`: the first call returns the schemas task, two calls
return both tasks in queue order, and a views request enqueued now is handed out third. -/
theorem get_pending_refresh_fifo_witness :
    sample_state.shutdown = false ∧
    (get_pending_refresh sample_state).1 = some ⟨RefreshSchemas, "", ""⟩ ∧
    (handed_out 2 sample_state).1 = [⟨RefreshSchemas, "", ""⟩, ⟨RefreshTables, "shop", ""⟩] ∧
    (handed_out 3 (add_pending_refresh true RefreshViews "shop" "" sample_state)).1
      = [⟨RefreshSchemas, "", ""⟩, ⟨RefreshTables, "shop", ""⟩, ⟨RefreshViews, "shop", ""⟩] :=
  ⟨rfl,
    congrArg Prod.fst
      ((get_pending_refresh_fifo sample_state rfl).1 ⟨RefreshSchemas, "", ""⟩
        [⟨RefreshTables, "shop", ""⟩] rfl),
    (get_pending_refresh_fifo sample_state rfl).2.2.2.1,
    ((get_pending_refresh_fifo sample_state rfl).2.2.2.2.2 true RefreshViews "shop" "").trans
      (by decide)⟩

theorem run_queue_ops_of_shutdown (ops : List QueueOp) (s : State) (h : s.shutdown = true)
    (hq : s.pending_tasks = []) :
    (run_queue_ops ops s).shutdown = true ∧ (run_queue_ops ops s).pending_tasks = [] := by
  induction ops generalizing s with
  | nil => exact ⟨h, hq⟩
  | cons op ops ih =>
    show (run_queue_ops ops (op.apply s)).shutdown = true ∧ _
    cases op with
    | add_pending_refresh thread_created type schema table =>
      apply ih
      · show (add_pending_refresh thread_created type schema table s).shutdown = true
        rw [add_pending_refresh_of_shutdown _ _ _ _ _ h]; exact h
      · show (add_pending_refresh thread_created type schema table s).pending_tasks = []
        rw [add_pending_refresh_of_shutdown _ _ _ _ _ h]; exact hq
    | get_pending_refresh =>
      apply ih
      · show (get_pending_refresh s).2.shutdown = true
        rw [get_pending_refresh_of_shutdown _ h]; exact h
      · show (get_pending_refresh s).2.pending_tasks = []
        rw [get_pending_refresh_of_shutdown _ h]; exact hq
    | shutdown => exact ih _ (shutdown_flag s) (shutdown_pending s)

theorem shutdown_feedback (s : State) : (shutdown s).feedback = false := by
  unfold shutdown refresh_cache_thread_exit worker_posts worker_leaves_loop
  dsimp only
  split
  · split
    · simp
    · split <;> simp
  · rfl

/-- C10: `shutdown` sets the shutdown flag, empties the task queue and clears the progress
callback. In every state reached afterwards by queue operations the flag is still set and the
queue is still empty: under shutdown `add_pending_refresh` returns the state as it was (queue
unchanged, semaphore and thread handle untouched, no callback invoked) and
`get_pending_refresh` reports that no task is available. -/
theorem shutdown_queue_stays_empty (s : State) :
    ((shutdown s).shutdown = true ∧ (shutdown s).pending_tasks = [] ∧
      (shutdown s).feedback = false) ∧
    (∀ ops : List QueueOp,
      (run_queue_ops ops (shutdown s)).shutdown = true ∧
      (run_queue_ops ops (shutdown s)).pending_tasks = [] ∧
      (∀ thread_created type schema table,
        add_pending_refresh thread_created type schema table (run_queue_ops ops (shutdown s))
          = run_queue_ops ops (shutdown s)) ∧
      get_pending_refresh (run_queue_ops ops (shutdown s))
        = (none, run_queue_ops ops (shutdown s))) := by
  refine ⟨⟨shutdown_flag s, shutdown_pending s, shutdown_feedback s⟩, ?_⟩
  intro ops
  have hr := run_queue_ops_of_shutdown ops (shutdown s) (shutdown_flag s) (shutdown_pending s)
  exact ⟨hr.1, hr.2, fun _ _ _ _ => add_pending_refresh_of_shutdown _ _ _ _ _ hr.1,
    get_pending_refresh_of_shutdown _ hr.1⟩


/-- C4 (prefix matching), amended: on a cache that is not shut down
`get_matching_table_names(schema, prefix)` returns, in store order, exactly the names of the
cached table rows whose `schema_id` equals the schema up to ASCII case (every row when the
schema argument is empty) and whose name begins with the prefix up to ASCII case. -/
theorem get_matching_table_names_spec (escape_sql_string : String → String)
    (thread_created : Bool) (schema pfx : String) (s : State) (hrun : s.shutdown = false)
    (hschema : escapes_literally escape_sql_string schema)
    (hpfx : escapes_literally escape_sql_string pfx) :
    (get_matching_table_names escape_sql_string thread_created schema pfx s).1
      = ((s.sqconn "tables").filter fun (r : Row) =>
          (decide (schema = "") || equal_ignoring_case schema r.schema_id)
            && begins_with_ignoring_case r.name pfx).map fun (r : Row) => r.name := by
  unfold get_matching_table_names
  dsimp only
  rw [get_matching_objects_congr _ _ _ _ _ _ s _
    (refresh_schema_cache_if_needed_sqconn _ _ _ _)
    (refresh_schema_cache_if_needed_shutdown _ _ _ _)]
  exact get_matching_objects_schema_qualifier _ _ _ _ _ _ hrun hschema hpfx

/-- Witness of C4 on `sample_state`, whose schema `shop` caches the names orders, order_items
and customers: the prefix `ord` returns orders and order_items, the empty prefix all three,
the prefix `xyz` nothing. -/
theorem get_matching_table_names_spec_witness :
    sample_state.shutdown = false ∧
    escapes_literally escape_like_wildcards "shop" ∧
    escapes_literally escape_like_wildcards "ord" ∧
    (get_matching_table_names escape_like_wildcards true "shop" "ord" sample_state).1
      = ["orders", "order_items"] ∧
    (get_matching_table_names escape_like_wildcards true "shop" "" sample_state).1
      = ["orders", "order_items", "customers"] ∧
    (get_matching_table_names escape_like_wildcards true "shop" "xyz" sample_state).1 = [] :=
  ⟨rfl, by decide, by decide,
    (get_matching_table_names_spec escape_like_wildcards true "shop" "ord" sample_state rfl
      (by decide) (by decide)).trans (by decide),
    (get_matching_table_names_spec escape_like_wildcards true "shop" "" sample_state rfl
      (by decide) (by decide)).trans (by decide),
    (get_matching_table_names_spec escape_like_wildcards true "shop" "xyz" sample_state rfl
      (by decide) (by decide)).trans (by decide)⟩

/-- C4 as stated fails in three ways. After shutdown the call returns nothing although rows of
the schema begin with the prefix; with the empty schema argument it returns the matching names
of every schema although no row has the empty `schema_id`; and it returns orders and
order_items for the schema `SHOP` and the prefix `ORD`, although no `schema_id` is `SHOP` and
no name begins with `ORD`. -/
theorem get_matching_table_names_counterexample :
    ((get_matching_table_names escape_like_wildcards true "shop" "ord"
        (shutdown sample_state)).1 = [] ∧
      table_names_beginning_with (shutdown sample_state) "shop" "ord"
        = ["orders", "order_items"]) ∧
    ((get_matching_table_names escape_like_wildcards true "" "ord" sample_state).1
        = ["orders", "order_items", "orders_archive"] ∧
      table_names_beginning_with sample_state "" "ord" = []) ∧
    ((get_matching_table_names escape_like_wildcards true "SHOP" "ORD" sample_state).1
        = ["orders", "order_items"] ∧
      table_names_beginning_with sample_state "SHOP" "ORD" = []) := by
  decide

/-- C5 (warm-once), amended: when the first row of the schemas table whose name equals the
schema name up to ASCII case has a non-zero `last_refresh`,
`refresh_schema_cache_if_needed(schema)` returns false and leaves the state, and with it the
task queue, unchanged, however often it is called. -/
theorem refresh_schema_cache_if_needed_warm (escape_sql_string : String → String)
    (thread_created : Bool) (schema : String) (s : State)
    (hesc : escapes_literally escape_sql_string schema)
    (hwarm : ∃ r, (s.sqconn "schemas").find? (fun r => equal_ignoring_case schema r.name)
      = some r ∧ r.last_refresh ≠ 0) :
    refresh_schema_cache_if_needed escape_sql_string thread_created schema s = (false, s) ∧
    ∀ n : Nat,
      refresh_schema_cache_if_needed escape_sql_string thread_created schema
        ((fun st => (refresh_schema_cache_if_needed escape_sql_string thread_created schema
          st).2)^[n] s) = (false, s) := by
  have h1 : refresh_schema_cache_if_needed escape_sql_string thread_created schema s
      = (false, s) := by
    obtain ⟨r, hfind, hr⟩ := hwarm
    by_cases hne : schema = ""
    · subst hne
      rfl
    · cases hrun : s.shutdown
      · rw [refresh_schema_cache_if_needed_running _ _ _ _ hesc hne hrun, hfind]
        simp [hr]
      · exact refresh_schema_cache_if_needed_of_shutdown _ _ _ _ hrun
  refine ⟨h1, ?_⟩
  intro n
  rw [Function.iterate_fixed (by rw [h1])]
  exact h1

/-- Witness of C5 on `case_variant_state`: the lookup for `hr` finds the row `hr` first, whose
`last_refresh` is 7. -/
theorem refresh_schema_cache_if_needed_warm_witness :
    escapes_literally escape_like_wildcards "hr" ∧
    (∃ r, (case_variant_state.sqconn "schemas").find?
        (fun r => equal_ignoring_case "hr" r.name) = some r ∧ r.last_refresh ≠ 0) ∧
    refresh_schema_cache_if_needed escape_like_wildcards true "hr" case_variant_state
      = (false, case_variant_state) :=
  ⟨by decide, ⟨⟨"", "", "hr", 7⟩, by decide, by decide⟩,
    (refresh_schema_cache_if_needed_warm escape_like_wildcards true "hr" case_variant_state
      (by decide) ⟨⟨"", "", "hr", 7⟩, by decide, by decide⟩).1⟩

/-- C5 as stated fails on `case_variant_state`: the row of the schema `sales` has the non-zero
`last_refresh` 5, but the lookup is a `LIKE` that ignores case and reads the row `SALES` first,
so the call returns true and enqueues the five tasks of the schema. -/
theorem refresh_schema_cache_if_needed_warm_counterexample :
    (⟨"", "", "sales", 5⟩ : Row) ∈ case_variant_state.sqconn "schemas" ∧
    case_variant_state.pending_tasks = [] ∧
    (refresh_schema_cache_if_needed escape_like_wildcards true "sales"
      case_variant_state).1 = true ∧
    (refresh_schema_cache_if_needed escape_like_wildcards true "sales"
      case_variant_state).2.pending_tasks
      = [⟨RefreshTables, "sales", ""⟩, ⟨RefreshViews, "sales", ""⟩,
          ⟨RefreshProcedures, "sales", ""⟩, ⟨RefreshFunctions, "sales", ""⟩,
          ⟨RefreshEvents, "sales", ""⟩] := by
  decide

/-- C6 (cold path), amended: on a cache that is not shut down, for a non-empty schema such that
the first schemas row whose name equals it up to ASCII case has `last_refresh` 0, or there is no
such row, `refresh_schema_cache_if_needed(schema)` returns true; the queue afterwards is the
old queue followed by those of the Tables, Views, Procedures, Functions and Events tasks of the
schema, in that order, that had no equivalent in the old queue; and, the old queue having no
equivalent pair, it holds exactly one task of each of the five kinds for the schema. For the
empty schema name the call returns false and changes nothing. -/
theorem refresh_schema_cache_if_needed_cold (escape_sql_string : String → String)
    (thread_created : Bool) (schema : String) (s : State)
    (hne : schema ≠ "") (hrun : s.shutdown = false)
    (hesc : escapes_literally escape_sql_string schema)
    (hcold : ∀ r, (s.sqconn "schemas").find? (fun r => equal_ignoring_case schema r.name)
      = some r → r.last_refresh = 0)
    (hq : no_equivalent_pair s.pending_tasks) :
    (refresh_schema_cache_if_needed escape_sql_string thread_created schema s).1 = true ∧
    (refresh_schema_cache_if_needed escape_sql_string thread_created schema s).2.pending_tasks
      = s.pending_tasks ++
        ([⟨RefreshTables, schema, ""⟩, ⟨RefreshViews, schema, ""⟩,
          ⟨RefreshProcedures, schema, ""⟩, ⟨RefreshFunctions, schema, ""⟩,
          ⟨RefreshEvents, schema, ""⟩] : List RefreshTask).filter
          (fun t => !s.pending_tasks.any (fun i => equivalent i t)) ∧
    (∀ kind ∈ [RefreshTables, RefreshViews, RefreshProcedures, RefreshFunctions, RefreshEvents],
      (refresh_schema_cache_if_needed escape_sql_string thread_created schema
        s).2.pending_tasks.countP
        (fun t => decide (t.type = kind ∧ t.schema_name = schema)) = 1) ∧
    (∀ s0 : State,
      refresh_schema_cache_if_needed escape_sql_string thread_created "" s0 = (false, s0)) := by
  have hstale : (match (s.sqconn "schemas").find?
      (fun r => equal_ignoring_case schema r.name) with
      | some r => r.last_refresh != 0
      | none => false) = false := by
    cases hfind : (s.sqconn "schemas").find? (fun r => equal_ignoring_case schema r.name) with
    | none => rfl
    | some r => simp [hcold r hfind]
  have hrefresh := refresh_schema_cache_if_needed_running escape_sql_string thread_created
    schema s hesc hne hrun
  rw [hstale] at hrefresh
  simp only [Bool.false_eq_true, if_false] at hrefresh
  have hfive : ([⟨RefreshTables, schema, ""⟩, ⟨RefreshViews, schema, ""⟩,
      ⟨RefreshProcedures, schema, ""⟩, ⟨RefreshFunctions, schema, ""⟩,
      ⟨RefreshEvents, schema, ""⟩] : List RefreshTask).Pairwise
      (fun a b => equivalent a b = false) := by
    simp [equivalent]
  have hqueue := add_all_pending thread_created _ s hrun hfive
  simp only [List.foldl_cons, List.foldl_nil] at hqueue
  have hpair : (refresh_schema_cache_if_needed escape_sql_string thread_created schema
      s).2.pending_tasks.Pairwise (fun a b => equivalent a b = false) := by
    rw [hrefresh]
    exact pairwise_add_pending_refresh _ _ _ _ _ (pairwise_add_pending_refresh _ _ _ _ _
      (pairwise_add_pending_refresh _ _ _ _ _ (pairwise_add_pending_refresh _ _ _ _ _
        (pairwise_add_pending_refresh _ _ _ _ _ ((no_equivalent_pair_iff _).mp hq)))))
  have hnew : (refresh_schema_cache_if_needed escape_sql_string thread_created schema
      s).2.pending_tasks = s.pending_tasks ++
        ([⟨RefreshTables, schema, ""⟩, ⟨RefreshViews, schema, ""⟩,
          ⟨RefreshProcedures, schema, ""⟩, ⟨RefreshFunctions, schema, ""⟩,
          ⟨RefreshEvents, schema, ""⟩] : List RefreshTask).filter
          (fun t => !s.pending_tasks.any (fun i => equivalent i t)) := by
    rw [hrefresh]
    exact hqueue
  refine ⟨by rw [hrefresh], hnew, ?_, fun s0 => rfl⟩
  intro kind hkind
  have hP : (fun (t : RefreshTask) => decide (t.type = kind ∧ t.schema_name = schema))
      = fun t => equivalent t ⟨kind, schema, ""⟩ := by
    funext t
    simp only [List.mem_cons, List.mem_singleton, List.not_mem_nil, or_false] at hkind
    unfold equivalent
    by_cases h : t.type = kind
    · rw [h]
      rcases hkind with rfl | rfl | rfl | rfl | rfl <;> simp [h, granularity] <;>
        rw [Bool.eq_iff_iff] <;> simp
    · simp [h]
  rw [hP]
  apply countP_eq_one_of_pairwise
  · refine hpair.imp ?_
    intro a b hab hboth
    rw [equivalent_of_equivalent a b _ hboth.1 hboth.2] at hab
    cases hab
  · have hmem : (⟨kind, schema, ""⟩ : RefreshTask) ∈
        ([⟨RefreshTables, schema, ""⟩, ⟨RefreshViews, schema, ""⟩,
          ⟨RefreshProcedures, schema, ""⟩, ⟨RefreshFunctions, schema, ""⟩,
          ⟨RefreshEvents, schema, ""⟩] : List RefreshTask) := by
      simp only [List.mem_cons, List.mem_singleton, List.not_mem_nil, or_false] at hkind
      rcases hkind with rfl | rfl | rfl | rfl | rfl <;> simp
    rw [hnew]
    cases hf : s.pending_tasks.any (fun i => equivalent i ⟨kind, schema, ""⟩)
    · refine ⟨⟨kind, schema, ""⟩, ?_, ?_⟩
      · apply List.mem_append_right
        rw [List.mem_filter]
        exact ⟨hmem, by simp [hf]⟩
      · simp [equivalent]
        cases kind <;> simp [granularity]
    · obtain ⟨i, hi, hie⟩ := List.any_eq_true.mp hf
      exact ⟨i, List.mem_append_left _ hi, hie⟩


/-- Witness of C6 on `sample_state`, whose queue already holds the tables task of the schema
`shop`: the call returns true and appends the views, procedures, functions and events
tasks. -/
theorem refresh_schema_cache_if_needed_cold_witness :
    "shop" ≠ "" ∧ sample_state.shutdown = false ∧
    escapes_literally escape_like_wildcards "shop" ∧
    no_equivalent_pair sample_state.pending_tasks ∧
    (refresh_schema_cache_if_needed escape_like_wildcards true "shop" sample_state).1 = true ∧
    (refresh_schema_cache_if_needed escape_like_wildcards true "shop"
      sample_state).2.pending_tasks
      = [⟨RefreshSchemas, "", ""⟩, ⟨RefreshTables, "shop", ""⟩, ⟨RefreshViews, "shop", ""⟩,
          ⟨RefreshProcedures, "shop", ""⟩, ⟨RefreshFunctions, "shop", ""⟩,
          ⟨RefreshEvents, "shop", ""⟩] :=
  have hcold : ∀ r, (sample_state.sqconn "schemas").find?
      (fun r => equal_ignoring_case "shop" r.name) = some r → r.last_refresh = 0 := by
    intro r h
    have h' : some (⟨"", "", "shop", 0⟩ : Row) = some r := h
    cases h'
    rfl
  have hq : no_equivalent_pair sample_state.pending_tasks := by
    unfold no_equivalent_pair
    decide
  ⟨by decide, rfl, by decide, hq,
    (refresh_schema_cache_if_needed_cold escape_like_wildcards true "shop" sample_state
      (by decide) rfl (by decide) hcold hq).1,
    (refresh_schema_cache_if_needed_cold escape_like_wildcards true "shop" sample_state
      (by decide) rfl (by decide) hcold hq).2.1.trans (by decide)⟩

/-- C6 as stated fails on `case_variant_state`, a running cache. The row of the schema `HR`
has `last_refresh` 0 and the schema `Hr` has no row, but for both the lookup, a `LIKE` that
ignores case, reads the row `hr` with `last_refresh` 7 first: the call returns false and
enqueues nothing. -/
theorem refresh_schema_cache_if_needed_cold_counterexample :
    case_variant_state.shutdown = false ∧ case_variant_state.pending_tasks = [] ∧
    ((⟨"", "", "HR", 0⟩ : Row) ∈ case_variant_state.sqconn "schemas" ∧
      (refresh_schema_cache_if_needed escape_like_wildcards true "HR"
        case_variant_state).1 = false ∧
      (refresh_schema_cache_if_needed escape_like_wildcards true "HR"
        case_variant_state).2.pending_tasks = []) ∧
    ((∀ r ∈ case_variant_state.sqconn "schemas", r.name ≠ "Hr") ∧
      (refresh_schema_cache_if_needed escape_like_wildcards true "Hr"
        case_variant_state).1 = false ∧
      (refresh_schema_cache_if_needed escape_like_wildcards true "Hr"
        case_variant_state).2.pending_tasks = []) := by
  decide

/-- C7 (timestamp preservation), amended: on a cache that is not shut down, whose schemas table
respects its primary key, after `update_schemas(S)` for a non-empty duplicate-free list `S` the
schemas table holds exactly the names of `S`, in the order of `S`; each non-empty name that
was present before keeps its `last_refresh`; the empty name and each name that was not present
before have `last_refresh` 0. -/
theorem update_schemas_timestamps (schemas : List String) (s : State)
    (hrun : s.shutdown = false) (hne : schemas ≠ []) (hnodup : schemas.Nodup)
    (hkey : ((s.sqconn "schemas").map fun (r : Row) => r.name).Nodup) :
    (((update_schemas schemas s).sqconn "schemas").map fun (r : Row) => r.name) = schemas ∧
    (∀ new ∈ (update_schemas schemas s).sqconn "schemas", new.name ≠ "" →
      ∀ old ∈ s.sqconn "schemas", old.name = new.name →
        new.last_refresh = old.last_refresh) ∧
    (∀ new ∈ (update_schemas schemas s).sqconn "schemas",
      (new.name = "" ∨ ∀ old ∈ s.sqconn "schemas", old.name ≠ new.name) →
        new.last_refresh = 0) := by
  rw [update_schemas_rows schemas s hrun hne hnodup]
  refine ⟨?_, ?_, ?_⟩
  · simp [Function.comp_def]
  · intro new hnew hname old hold hsame
    obtain ⟨t, _, rfl⟩ := List.mem_map.mp hnew
    dsimp only at hname hsame ⊢
    rw [← hsame] at hname ⊢
    rw [old_schema_update_times_of_mem _ hkey old hold hname]
  · intro new hnew h
    obtain ⟨t, _, rfl⟩ := List.mem_map.mp hnew
    dsimp only at h ⊢
    rw [old_schema_update_times_none _ t h]

/-- Witness of C7 on `timed_sentinel_state`, where `sales` has `last_refresh` 9: after the
update with `hr` and `sales`, `sales` still has 9 and the new schema `hr` has 0. -/
theorem update_schemas_timestamps_witness :
    timed_sentinel_state.shutdown = false ∧ ["hr", "sales"] ≠ [] ∧
    ["hr", "sales"].Nodup ∧
    ((timed_sentinel_state.sqconn "schemas").map fun (r : Row) => r.name).Nodup ∧
    (update_schemas ["hr", "sales"] timed_sentinel_state).sqconn "schemas"
      = [⟨"", "", "hr", 0⟩, ⟨"", "", "sales", 9⟩] ∧
    (((update_schemas ["hr", "sales"] timed_sentinel_state).sqconn "schemas").map
      fun (r : Row) => r.name) = ["hr", "sales"] :=
  ⟨rfl, by decide, by decide, by decide, by decide,
    (update_schemas_timestamps ["hr", "sales"] timed_sentinel_state rfl (by decide) (by decide)
      (by decide)).1⟩

/-- C7 as stated fails in two ways. On a cache that is shut down `update_schemas` writes
nothing, so the schemas table does not hold the names of the list; and the row with the empty
name is left out of the snapshot of the old times, so the empty name, present before with
`last_refresh` 5, has `last_refresh` 0 afterwards. -/
theorem update_schemas_timestamps_counterexample :
    (((update_schemas ["hr"] (shutdown sample_state)).sqconn "schemas").map
      fun (r : Row) => r.name) = ["shop", "crm"] ∧
    timed_sentinel_state.shutdown = false ∧
    (⟨"", "", "", 5⟩ : Row) ∈ timed_sentinel_state.sqconn "schemas" ∧
    (update_schemas [""] timed_sentinel_state).sqconn "schemas" = [⟨"", "", "", 0⟩] := by
  decide

/-- C8 (empty-schema sentinel): on a cache that is not shut down, after the schema list
fetch has found zero schemas (`refresh_schemas_w` with an empty or absent result set, which is
`update_schemas` with the empty list) the schemas table holds exactly one row, whose name is
empty, and `is_schema_list_fetch_done()` returns true. -/
theorem update_schemas_empty_sentinel (s : State) (hrun : s.shutdown = false) :
    (update_schemas [] s).sqconn "schemas" = [⟨"", "", "", 0⟩] ∧
    is_schema_list_fetch_done (update_schemas [] s) = true ∧
    refresh_schemas_w (some []) s = update_schemas [] s ∧
    refresh_schemas_w none s = update_schemas [] s := by
  have h : (update_schemas [] s).sqconn "schemas" = [⟨"", "", "", 0⟩] := by
    unfold update_schemas
    simp [hrun, transaction, insert_rows, insert_row]
  refine ⟨h, ?_, ?_, ?_⟩
  · unfold is_schema_list_fetch_done
    rw [h]
    rfl
  · simp [refresh_schemas_w, hrun]
  · simp [refresh_schemas_w, hrun]

/-- Witness of C8 on `sample_state`, whose schemas table holds two schemas before. -/
theorem update_schemas_empty_sentinel_witness :
    sample_state.shutdown = false ∧
    (refresh_schemas_w (some []) sample_state).sqconn "schemas" = [⟨"", "", "", 0⟩] ∧
    is_schema_list_fetch_done (refresh_schemas_w (some []) sample_state) = true :=
  ⟨rfl,
    (congrArg (fun st => st.sqconn "schemas")
      (update_schemas_empty_sentinel sample_state rfl).2.2.1).trans
      (update_schemas_empty_sentinel sample_state rfl).1,
    (congrArg is_schema_list_fetch_done
      (update_schemas_empty_sentinel sample_state rfl).2.2.1).trans
      (update_schemas_empty_sentinel sample_state rfl).2.1⟩

/-- C9: once the shutdown flag is set, every `get_matching_<category>` operation returns the
empty sequence for every scope and prefix, whatever rows the store holds, and
`refresh_schema_cache_if_needed` returns false. -/
theorem queries_empty_after_shutdown (escape_sql_string : String → String) (s : State)
    (h : s.shutdown = true) (thread_created : Bool) (schema table pfx : String) :
    (get_matching_schema_names escape_sql_string pfx s).1 = [] ∧
    (get_matching_table_names escape_sql_string thread_created schema pfx s).1 = [] ∧
    (get_matching_view_names escape_sql_string thread_created schema pfx s).1 = [] ∧
    (get_matching_column_names escape_sql_string thread_created schema table pfx s).1 = [] ∧
    (get_matching_procedure_names escape_sql_string thread_created schema pfx s).1 = [] ∧
    (get_matching_function_names escape_sql_string thread_created schema pfx s).1 = [] ∧
    (get_matching_trigger_names escape_sql_string thread_created schema table pfx s).1 = [] ∧
    (get_matching_udf_names escape_sql_string pfx s).1 = [] ∧
    (get_matching_variables escape_sql_string pfx s).1 = [] ∧
    (get_matching_engines escape_sql_string pfx s).1 = [] ∧
    (get_matching_logfile_groups escape_sql_string thread_created pfx s).1 = [] ∧
    (get_matching_tablespaces escape_sql_string thread_created pfx s).1 = [] ∧
    (get_matching_charsets escape_sql_string pfx s).1 = [] ∧
    (get_matching_collations escape_sql_string pfx s).1 = [] ∧
    (get_matching_events escape_sql_string schema pfx s).1 = [] ∧
    (refresh_schema_cache_if_needed escape_sql_string thread_created schema s).1 = false := by
  have hr := refresh_schema_cache_if_needed_of_shutdown escape_sql_string thread_created
    schema s h
  have ha := fun type => add_pending_refresh_of_shutdown thread_created type "" "" s h
  simp only [get_matching_schema_names, get_matching_table_names, get_matching_view_names,
    get_matching_column_names, get_matching_procedure_names, get_matching_function_names,
    get_matching_trigger_names, get_matching_udf_names, get_matching_variables,
    get_matching_engines, get_matching_logfile_groups, get_matching_tablespaces,
    get_matching_charsets, get_matching_collations, get_matching_events, hr, ha,
    get_matching_objects_of_shutdown _ _ _ _ _ _ s h, and_self]

/-- Witness of C9: after `shutdown` of `sample_state`, whose store caches tables of the schema
`shop` and an engine, the table and engine queries return nothing. -/
theorem queries_empty_after_shutdown_witness :
    (shutdown sample_state).shutdown = true ∧
    sample_state.sqconn "engines" = [⟨"", "", "InnoDB", 0⟩] ∧
    (get_matching_table_names escape_like_wildcards true "shop" "ord"
      (shutdown sample_state)).1 = [] ∧
    (get_matching_engines escape_like_wildcards "" (shutdown sample_state)).1 = [] ∧
    (refresh_schema_cache_if_needed escape_like_wildcards true "shop"
      (shutdown sample_state)).1 = false :=
  ⟨rfl, rfl,
    (queries_empty_after_shutdown escape_like_wildcards (shutdown sample_state) rfl true
      "shop" "" "ord").2.1,
    (queries_empty_after_shutdown escape_like_wildcards (shutdown sample_state) rfl true
      "shop" "" "").2.2.2.2.2.2.2.2.2.1,
    (queries_empty_after_shutdown escape_like_wildcards (shutdown sample_state) rfl true
      "shop" "" "ord").2.2.2.2.2.2.2.2.2.2.2.2.2.2.2⟩


/-! ## Explicit triggers and table scoped queries -/

theorem create_worker_thread_mem (thread_created : Bool) (s : State) (t : RefreshTask) :
    t ∈ (create_worker_thread thread_created s).pending_tasks ↔ t ∈ s.pending_tasks := by
  rw [create_worker_thread_pending]

/-- Whatever the state, the queue after `add_pending_refresh` holds nothing but what it held
before and the request. -/
theorem add_pending_refresh_mem (thread_created : Bool) (type : RefreshType)
    (schema table : String) (s : State) (t : RefreshTask)
    (h : t ∈ (add_pending_refresh thread_created type schema table s).pending_tasks) :
    t ∈ s.pending_tasks ∨ t = ⟨type, schema, table⟩ := by
  cases hs : s.shutdown
  · rw [add_pending_refresh_pending _ _ _ _ _ hs] at h
    split at h
    · exact Or.inl h
    · rcases List.mem_append.mp h with h | h
      · exact Or.inl h
      · exact Or.inr (List.mem_singleton.mp h)
  · rw [add_pending_refresh_of_shutdown _ _ _ _ _ hs] at h
    exact Or.inl h

/-- C11, evaluated on the code: `refresh_triggers(schema, table)` is
`add_pending_refresh(RefreshTableSpaces, schema, table)`. It never adds a task of the triggers
kind, and on the running cache `table_scoped_state` with its empty queue the call for
(`shop`, `orders`) leaves the single task `(RefreshTableSpaces, shop, orders)`. -/
theorem refresh_triggers_enqueues_tablespaces :
    (∀ thread_created schema table s,
      refresh_triggers thread_created schema table s
        = add_pending_refresh thread_created RefreshTableSpaces schema table s) ∧
    (∀ thread_created schema table s t,
      t ∈ (refresh_triggers thread_created schema table s).pending_tasks →
        t.type = RefreshTriggers → t ∈ s.pending_tasks) ∧
    table_scoped_state.shutdown = false ∧
    (refresh_triggers true "shop" "orders" table_scoped_state).pending_tasks
      = [⟨RefreshTableSpaces, "shop", "orders"⟩] := by
  refine ⟨fun _ _ _ _ => rfl, ?_, rfl, by decide⟩
  intro thread_created schema table s t ht htype
  rcases add_pending_refresh_mem _ _ _ _ _ _ ht with h | h
  · exact h
  · rw [h] at htype
    cases htype

/-- C12, evaluated on the code: `get_matching_trigger_names` passes
`RetrieveWithSchemaQualifier`, so its result does not depend on the table argument. On
`table_scoped_state` the call for the table `orders` of the schema `shop` also returns the
trigger cached for the table `customers`. -/
theorem get_matching_trigger_names_ignores_table :
    (∀ (escape_sql_string : String → String) thread_created schema table table' pfx s,
      (get_matching_trigger_names escape_sql_string thread_created schema table pfx s).1
        = (get_matching_trigger_names escape_sql_string thread_created schema table' pfx
            s).1) ∧
    (⟨"shop", "customers", "trg_customers", 0⟩ : Row) ∈ table_scoped_state.sqconn "triggers" ∧
    (get_matching_trigger_names escape_like_wildcards true "shop" "orders" ""
      table_scoped_state).1 = ["trg_orders", "trg_customers"] ∧
    (get_matching_trigger_names escape_like_wildcards true "shop" "orders" "trg_c"
      table_scoped_state).1 = ["trg_customers"] := by
  refine ⟨?_, by decide, by decide, by decide⟩
  intro escape_sql_string thread_created schema table table' pfx s
  unfold get_matching_trigger_names get_matching_objects
  rfl

/-- C13, evaluated on the code: `is_schema_table_columns_fetch_done(schema, table)` is
`is_fetch_done("columns", schema)` whatever the table. On `table_scoped_state`, where `columns`
holds rows for the table `orders` only, it returns true for the table `customers`. -/
theorem is_schema_table_columns_fetch_done_ignores_table :
    (∀ schema table s,
      is_schema_table_columns_fetch_done schema table s = is_fetch_done "columns" schema s) ∧
    (∀ r ∈ table_scoped_state.sqconn "columns",
      ¬ (r.schema_id = "shop" ∧ r.table_id = "customers")) ∧
    is_schema_table_columns_fetch_done "shop" "customers" table_scoped_state = true := by
  refine ⟨fun _ _ _ => rfl, by decide, by decide⟩

/-- C15, evaluated on the code: `get_matching_events` calls `get_matching_objects` only and
leaves the state as it was. On `case_variant_state`, where the schema `SALES` has `last_refresh`
0 and the queue is empty, the queue is still empty after `get_matching_events`, while
`get_matching_table_names` enqueues the five tasks of the schema. -/
theorem get_matching_events_enqueues_nothing :
    (∀ (escape_sql_string : String → String) schema pfx s,
      (get_matching_events escape_sql_string schema pfx s).2 = s) ∧
    case_variant_state.shutdown = false ∧
    (⟨"", "", "SALES", 0⟩ : Row) ∈ case_variant_state.sqconn "schemas" ∧
    (get_matching_events escape_like_wildcards "SALES" "" case_variant_state).2.pending_tasks
      = [] ∧
    (get_matching_table_names escape_like_wildcards true "SALES" ""
      case_variant_state).2.pending_tasks
      = [⟨RefreshTables, "SALES", ""⟩, ⟨RefreshViews, "SALES", ""⟩,
          ⟨RefreshProcedures, "SALES", ""⟩, ⟨RefreshFunctions, "SALES", ""⟩,
          ⟨RefreshEvents, "SALES", ""⟩] := by
  refine ⟨fun _ _ _ _ => rfl, rfl, by decide, by decide, by decide⟩


/-! ## Store writes -/

theorem insert_rows_of_key_present (cache : String) (rows : List Row) :
    ∀ acc : List Row,
      (∃ x ∈ acc, ∃ r ∈ rows, primary_key cache x = primary_key cache r) →
      insert_rows cache acc rows = none := by
  induction rows with
  | nil =>
    intro acc h
    obtain ⟨_, _, r, hr, _⟩ := h
    cases hr
  | cons r0 rows ih =>
    intro acc h
    obtain ⟨x, hx, r, hr, hkey⟩ := h
    unfold insert_rows insert_row
    by_cases hany : acc.any (fun y => primary_key cache y == primary_key cache r0) = true
    · simp [hany]
    · simp only [hany, Bool.false_eq_true, if_false]
      apply ih
      rcases List.mem_cons.mp hr with rfl | hr'
      · exfalso
        apply hany
        rw [List.any_eq_true]
        exact ⟨x, hx, by simp [hkey]⟩
      · exact ⟨x, List.mem_append_left _ hx, r, hr', hkey⟩

theorem insert_rows_of_duplicate_key (cache : String) (rows : List Row) :
    ∀ acc : List Row, ¬ (rows.map (primary_key cache)).Nodup →
      insert_rows cache acc rows = none := by
  induction rows with
  | nil => intro acc h; simp at h
  | cons r0 rows ih =>
    intro acc h
    unfold insert_rows insert_row
    by_cases hany : acc.any (fun y => primary_key cache y == primary_key cache r0) = true
    · simp [hany]
    · simp only [hany, Bool.false_eq_true, if_false]
      rw [List.map_cons, List.nodup_cons, not_and_or, not_not] at h
      rcases h with h | h
      · obtain ⟨r, hr, hkey⟩ := List.mem_map.mp h
        exact insert_rows_of_key_present cache rows _
          ⟨r0, by simp, r, hr, hkey.symm⟩
      · exact ih _ h

/-- A list that names an object twice makes the run of inserts fail, whatever the table, the
scope columns and the rows already there. -/
theorem insert_rows_of_duplicate_name (cache schema table : String) (objects : List String)
    (timestamp : String → Int) (acc : List Row) (h : ¬ objects.Nodup) :
    insert_rows cache acc
      (objects.map fun name => (⟨schema, table, name, timestamp name⟩ : Row)) = none := by
  apply insert_rows_of_duplicate_key
  intro hn
  apply h
  rw [List.map_map] at hn
  exact List.Nodup.of_map _ hn

/-- C16: a store write failure is atomic. When the run of inserts of `update_object_names`
(any of its three forms) or of `update_schemas` fails, the call returns, and it returns the
state that it was given: the rows of the scope are neither deleted nor partly replaced. A list
that names an object twice makes every one of the four fail in this way. -/
theorem store_write_failure_atomic (cache schema table : String) (objects : List String)
    (s : State) :
    (insert_rows cache [] (objects.map fun name => (⟨"", "", name, 0⟩ : Row)) = none →
      update_object_names cache objects s = s) ∧
    (insert_rows cache ((s.sqconn cache).filter fun (r : Row) => r.schema_id != schema)
        (objects.map fun name => (⟨schema, "", name, 0⟩ : Row)) = none →
      update_object_names_in_schema cache schema objects s = s) ∧
    (insert_rows cache
        ((s.sqconn cache).filter fun (r : Row) =>
          !(r.schema_id == schema && r.table_id == table))
        (objects.map fun name => (⟨schema, table, name, 0⟩ : Row)) = none →
      update_object_names_in_table cache schema table objects s = s) ∧
    (¬ objects.Nodup →
      update_object_names cache objects s = s ∧
      update_object_names_in_schema cache schema objects s = s ∧
      update_object_names_in_table cache schema table objects s = s ∧
      update_schemas objects s = s) := by
  refine ⟨?_, ?_, ?_, ?_⟩
  · intro h
    unfold update_object_names
    rw [h]
    split <;> rfl
  · intro h
    unfold update_object_names_in_schema
    dsimp only
    rw [h]
    split <;> rfl
  · intro h
    unfold update_object_names_in_table
    dsimp only
    rw [h]
    split <;> rfl
  · intro hdup
    refine ⟨?_, ?_, ?_, ?_⟩
    · unfold update_object_names
      rw [insert_rows_of_duplicate_name cache "" "" objects (fun _ => 0) _ hdup]
      split <;> rfl
    · unfold update_object_names_in_schema
      dsimp only
      rw [insert_rows_of_duplicate_name cache schema "" objects (fun _ => 0) _ hdup]
      split <;> rfl
    · unfold update_object_names_in_table
      dsimp only
      rw [insert_rows_of_duplicate_name cache schema table objects (fun _ => 0) _ hdup]
      split <;> rfl
    · have hne : objects.isEmpty = false := by
        cases objects with
        | nil => exact absurd List.nodup_nil hdup
        | cons a l => rfl
      unfold update_schemas
      dsimp only
      rw [hne]
      simp only [Bool.false_eq_true, if_false]
      rw [insert_rows_of_duplicate_name "schemas" "" "" objects _ _ hdup]
      split <;> rfl

/-- Witness of C16 on `table_scoped_state`: the list `id`, `id` for the columns of
`shop.orders` fails on its second insert, and the two cached columns are still there. -/
theorem store_write_failure_atomic_witness :
    ¬ ["id", "id"].Nodup ∧
    table_scoped_state.sqconn "columns"
      = [⟨"shop", "orders", "id", 0⟩, ⟨"shop", "orders", "total", 0⟩] ∧
    update_object_names_in_table "columns" "shop" "orders" ["id", "id"] table_scoped_state
      = table_scoped_state ∧
    (update_object_names_in_table "columns" "shop" "orders" ["id"]
      table_scoped_state).sqconn "columns" = [⟨"shop", "orders", "id", 0⟩] :=
  ⟨by decide, by decide,
    ((store_write_failure_atomic "columns" "shop" "orders" ["id", "id"]
      table_scoped_state).2.2.2 (by decide)).2.2.1,
    by decide⟩

/-- C17, evaluated on the code: the update routines write the one table they are called for.
On `table_scoped_state` every columns and triggers row refers to a cached table; after the
tables refresh of `shop` with the list `customers`, which omits `orders`, the columns and the
trigger of `shop.orders` are still cached; and the columns refresh of `shop.v_orders`, a name
that `tables` does not hold, stores its rows. -/
theorem update_tables_keeps_table_scoped_rows :
    refers_to_cached_tables table_scoped_state = true ∧
    (update_tables "shop" ["customers"] table_scoped_state).sqconn "tables"
      = [⟨"shop", "", "customers", 0⟩] ∧
    (update_tables "shop" ["customers"] table_scoped_state).sqconn "columns"
      = [⟨"shop", "orders", "id", 0⟩, ⟨"shop", "orders", "total", 0⟩] ∧
    (update_tables "shop" ["customers"] table_scoped_state).sqconn "triggers"
      = [⟨"shop", "orders", "trg_orders", 0⟩, ⟨"shop", "customers", "trg_customers", 0⟩] ∧
    refers_to_cached_tables (update_tables "shop" ["customers"] table_scoped_state) = false ∧
    refers_to_cached_tables
      (update_object_names_in_table "columns" "shop" "v_orders" ["id"] table_scoped_state)
      = false := by
  decide


/-! ## Deduplication of the unscoped kinds -/

theorem countP_le_one_of_pairwise {α : Type} (P : α → Bool) (q : List α)
    (hpair : q.Pairwise (fun a b => ¬ (P a = true ∧ P b = true))) : q.countP P ≤ 1 := by
  induction q with
  | nil => simp
  | cons a q ih =>
    rw [List.pairwise_cons] at hpair
    cases hPa : P a
    · rw [List.countP_cons_of_neg _ _ (by simp [hPa])]
      exact ih hpair.2
    · rw [List.countP_cons_of_pos _ _ hPa]
      have h0 : q.countP P = 0 := by
        rw [List.countP_eq_zero]
        intro b hb hPb
        exact hpair.1 b hb ⟨hPa, hPb⟩
      rw [h0]

theorem equivalent_of_same_fields (a b : RefreshTask) (ht : a.type = b.type)
    (hs : a.schema_name = b.schema_name) (hn : a.table_name = b.table_name) :
    equivalent a b = true := by
  unfold equivalent
  rw [ht, hs, hn]
  cases granularity b.type <;> simp

theorem equivalent_of_kind_alone (a b : RefreshTask) (ht : a.type = b.type)
    (hg : granularity a.type = Granularity.kind) : equivalent a b = true := by
  unfold equivalent
  rw [hg]
  simp [ht]

/-- At most one queued task of a kind, from the dedup invariant and either the kind's
granularity or the empty scope of its tasks. -/
theorem countP_kind_le_one (kind : RefreshType) (q : List RefreshTask)
    (hpair : q.Pairwise (fun a b => equivalent a b = false))
    (hk : granularity kind = Granularity.kind ∨ scope_free kind q) :
    q.countP (fun t => decide (t.type = kind)) ≤ 1 := by
  apply countP_le_one_of_pairwise
  refine List.Pairwise.imp_of_mem ?_ hpair
  intro a b ha hb hab hboth
  have hta : a.type = kind := by simpa using hboth.1
  have htb : b.type = kind := by simpa using hboth.2
  have heq : equivalent a b = true := by
    rcases hk with hk | hk
    · exact equivalent_of_kind_alone a b (hta.trans htb.symm) (by rw [hta]; exact hk)
    · have h1 := hk a ha hta
      have h2 := hk b hb htb
      exact equivalent_of_same_fields a b (hta.trans htb.symm) (h1.1.trans h2.1.symm)
        (h1.2.trans h2.2.symm)
  rw [heq] at hab
  cases hab

theorem scope_free_add_pending_refresh (kind : RefreshType) (thread_created : Bool)
    (type : RefreshType) (schema table : String) (s : State)
    (hreq : type = kind → schema = "" ∧ table = "")
    (h : scope_free kind s.pending_tasks) :
    scope_free kind (add_pending_refresh thread_created type schema table s).pending_tasks := by
  intro t ht hkind
  rcases add_pending_refresh_mem _ _ _ _ _ _ ht with h' | h'
  · exact h t h' hkind
  · subst h'
    exact hreq hkind

theorem scope_free_get_pending_refresh (kind : RefreshType) (s : State)
    (h : scope_free kind s.pending_tasks) :
    scope_free kind (get_pending_refresh s).2.pending_tasks := by
  unfold get_pending_refresh
  split
  · exact h
  · split
    · rename_i task rest hq
      intro t ht
      exact h t (by rw [hq]; exact List.mem_cons_of_mem _ ht)
    · exact h

/-- The state after the stale check is the state before it or the state after its five
requests. -/
theorem refresh_schema_cache_if_needed_cases (escape_sql_string : String → String)
    (thread_created : Bool) (schema : String) (s : State) :
    (refresh_schema_cache_if_needed escape_sql_string thread_created schema s).2 = s ∨
    (refresh_schema_cache_if_needed escape_sql_string thread_created schema s).2
      = add_pending_refresh thread_created RefreshEvents schema ""
          (add_pending_refresh thread_created RefreshFunctions schema ""
            (add_pending_refresh thread_created RefreshProcedures schema ""
              (add_pending_refresh thread_created RefreshViews schema ""
                (add_pending_refresh thread_created RefreshTables schema "" s)))) := by
  unfold refresh_schema_cache_if_needed
  split
  · exact Or.inl rfl
  · split
    · exact Or.inl rfl
    · dsimp only
      split
      · exact Or.inl rfl
      · exact Or.inr rfl

theorem pairwise_refresh_schema_cache_if_needed (escape_sql_string : String → String)
    (thread_created : Bool) (schema : String) (s : State)
    (h : s.pending_tasks.Pairwise (fun a b => equivalent a b = false)) :
    (refresh_schema_cache_if_needed escape_sql_string thread_created schema
      s).2.pending_tasks.Pairwise (fun a b => equivalent a b = false) := by
  rcases refresh_schema_cache_if_needed_cases escape_sql_string thread_created schema s
    with h' | h'
  · rw [h']; exact h
  · rw [h']
    exact pairwise_add_pending_refresh _ _ _ _ _ (pairwise_add_pending_refresh _ _ _ _ _
      (pairwise_add_pending_refresh _ _ _ _ _ (pairwise_add_pending_refresh _ _ _ _ _
        (pairwise_add_pending_refresh _ _ _ _ _ h))))

theorem scope_free_refresh_schema_cache_if_needed (escape_sql_string : String → String)
    (kind : RefreshType) (hk : kind = RefreshLogfileGroups ∨ kind = RefreshTableSpaces)
    (thread_created : Bool) (schema : String) (s : State)
    (h : scope_free kind s.pending_tasks) :
    scope_free kind
      (refresh_schema_cache_if_needed escape_sql_string thread_created schema
        s).2.pending_tasks := by
  rcases refresh_schema_cache_if_needed_cases escape_sql_string thread_created schema s
    with h' | h'
  · rw [h']; exact h
  · rw [h']
    have hne : ∀ type : RefreshType, type = RefreshTables ∨ type = RefreshViews ∨
        type = RefreshProcedures ∨ type = RefreshFunctions ∨ type = RefreshEvents →
        type = kind → schema = "" ∧ (("" : String) = "") := by
      intro type ht hkind
      subst hkind
      rcases hk with rfl | rfl <;> rcases ht with ht | ht | ht | ht | ht <;> cases ht
    exact scope_free_add_pending_refresh _ _ _ _ _ _ (hne _ (by simp))
      (scope_free_add_pending_refresh _ _ _ _ _ _ (hne _ (by simp))
        (scope_free_add_pending_refresh _ _ _ _ _ _ (hne _ (by simp))
          (scope_free_add_pending_refresh _ _ _ _ _ _ (hne _ (by simp))
            (scope_free_add_pending_refresh _ _ _ _ _ _ (hne _ (by simp)) h))))

theorem pairwise_call_apply (escape_sql_string : String → String) (call : Call) (s : State)
    (h : s.pending_tasks.Pairwise (fun a b => equivalent a b = false)) :
    (call.apply escape_sql_string s).pending_tasks.Pairwise
      (fun a b => equivalent a b = false) := by
  cases call <;>
    first
    | exact h
    | exact pairwise_refresh_schema_cache_if_needed _ _ _ _ h
    | exact pairwise_add_pending_refresh _ _ _ _ _ h
    | exact pairwise_get_pending_refresh _ h

theorem scope_free_call_apply (escape_sql_string : String → String) (kind : RefreshType)
    (call : Call) (s : State)
    (hk : kind = RefreshLogfileGroups ∨
      (kind = RefreshTableSpaces ∧ call.is_refresh_triggers = false))
    (h : scope_free kind s.pending_tasks) :
    scope_free kind (call.apply escape_sql_string s).pending_tasks := by
  have hk' : kind = RefreshLogfileGroups ∨ kind = RefreshTableSpaces := hk.imp id And.left
  cases call
  case refresh_triggers thread_created schema table =>
    rcases hk with hk | hk
    · subst hk
      exact scope_free_add_pending_refresh _ _ _ _ _ _ (fun e => by cases e) h
    · cases hk.2
  all_goals
    first
    | exact h
    | exact scope_free_refresh_schema_cache_if_needed _ _ hk' _ _ _ h
    | exact scope_free_get_pending_refresh _ _ h
    | exact scope_free_add_pending_refresh _ _ _ _ _ _ (fun _ => ⟨rfl, rfl⟩) h
    | (refine scope_free_add_pending_refresh _ _ _ _ _ _ ?_ h
       intro e
       rcases hk' with rfl | rfl <;> cases e)

theorem pairwise_run_calls (escape_sql_string : String → String) (calls : List Call) :
    ∀ s : State, s.pending_tasks.Pairwise (fun a b => equivalent a b = false) →
      (run_calls escape_sql_string calls s).pending_tasks.Pairwise
        (fun a b => equivalent a b = false) := by
  induction calls with
  | nil => intro s h; exact h
  | cons call calls ih =>
    intro s h
    exact ih _ (pairwise_call_apply _ _ _ h)

theorem scope_free_run_calls (escape_sql_string : String → String) (kind : RefreshType)
    (calls : List Call)
    (hk : kind = RefreshLogfileGroups ∨
      (kind = RefreshTableSpaces ∧ ∀ call ∈ calls, call.is_refresh_triggers = false)) :
    ∀ s : State, scope_free kind s.pending_tasks →
      scope_free kind (run_calls escape_sql_string calls s).pending_tasks := by
  induction calls with
  | nil => intro s h; exact h
  | cons call calls ih =>
    intro s h
    have hk1 : kind = RefreshLogfileGroups ∨
        (kind = RefreshTableSpaces ∧ call.is_refresh_triggers = false) :=
      hk.imp id (fun hk => ⟨hk.1, hk.2 call (List.mem_cons_self _ _)⟩)
    have hk2 : kind = RefreshLogfileGroups ∨
        (kind = RefreshTableSpaces ∧ ∀ c ∈ calls, c.is_refresh_triggers = false) :=
      hk.imp id (fun hk => ⟨hk.1, fun c hc => hk.2 c (List.mem_cons_of_mem _ hc)⟩)
    exact ih hk2 _ (scope_free_call_apply _ _ _ _ hk1 h)

theorem pairwise_new (store : Store) (feedback thread_created : Bool) :
    (new store feedback thread_created).pending_tasks.Pairwise
      (fun a b => equivalent a b = false) := by
  unfold new
  exact pairwise_add_pending_refresh _ _ _ _ _ (pairwise_add_pending_refresh _ _ _ _ _
    (pairwise_add_pending_refresh _ _ _ _ _ (pairwise_add_pending_refresh _ _ _ _ _
      (pairwise_add_pending_refresh _ _ _ _ _ List.Pairwise.nil))))

theorem scope_free_new (kind : RefreshType) (store : Store) (feedback thread_created : Bool) :
    scope_free kind (new store feedback thread_created).pending_tasks := by
  unfold new
  exact scope_free_add_pending_refresh _ _ _ _ _ _ (fun _ => ⟨rfl, rfl⟩)
    (scope_free_add_pending_refresh _ _ _ _ _ _ (fun _ => ⟨rfl, rfl⟩)
      (scope_free_add_pending_refresh _ _ _ _ _ _ (fun _ => ⟨rfl, rfl⟩)
        (scope_free_add_pending_refresh _ _ _ _ _ _ (fun _ => ⟨rfl, rfl⟩)
          (scope_free_add_pending_refresh _ _ _ _ _ _ (fun _ => ⟨rfl, rfl⟩)
            (fun t ht => by cases ht)))))

/-- C14, amended. Tasks of the kinds schemas, variables, engines, UDFs, charsets and collations
are deduplicated by kind alone: whatever schema and table arguments the requests of
`add_pending_refresh` carry, the queue never holds two tasks of one of these kinds. Tasks of
the kinds logfile groups and tablespaces are deduplicated by kind, schema and table; the public
operations other than `refresh_triggers` request them with the empty schema and table only,
so after the constructor and every sequence of public calls the queue holds at most one
logfile groups task, and at most one tablespaces task when no call was `refresh_triggers`. -/
theorem unscoped_kinds_deduplicated (escape_sql_string : String → String) (store : Store)
    (feedback thread_created : Bool) (calls : List Call) :
    (∀ kind ∈ [RefreshSchemas, RefreshVariables, RefreshEngines, RefreshUDFs, RefreshCharsets,
        RefreshCollations, RefreshLogfileGroups],
      (run_calls escape_sql_string calls
        (new store feedback thread_created)).pending_tasks.countP
        (fun t => decide (t.type = kind)) ≤ 1) ∧
    ((∀ call ∈ calls, call.is_refresh_triggers = false) →
      (run_calls escape_sql_string calls
        (new store feedback thread_created)).pending_tasks.countP
        (fun t => decide (t.type = RefreshTableSpaces)) ≤ 1) ∧
    (∀ (ops : List QueueOp) (s : State),
      ∀ kind ∈ [RefreshSchemas, RefreshVariables, RefreshEngines, RefreshUDFs,
        RefreshCharsets, RefreshCollations],
      (run_queue_ops ops { s with pending_tasks := [] }).pending_tasks.countP
        (fun t => decide (t.type = kind)) ≤ 1) := by
  have hpair := pairwise_run_calls escape_sql_string calls _
    (pairwise_new store feedback thread_created)
  refine ⟨?_, ?_, ?_⟩
  · intro kind hkind
    apply countP_kind_le_one kind _ hpair
    simp only [List.mem_cons, List.mem_singleton, List.not_mem_nil, or_false] at hkind
    rcases hkind with rfl | rfl | rfl | rfl | rfl | rfl | rfl
    · exact Or.inl rfl
    · exact Or.inl rfl
    · exact Or.inl rfl
    · exact Or.inl rfl
    · exact Or.inl rfl
    · exact Or.inl rfl
    · exact Or.inr (scope_free_run_calls _ _ calls (Or.inl rfl) _ (scope_free_new _ _ _ _))
  · intro hcalls
    exact countP_kind_le_one _ _ hpair
      (Or.inr (scope_free_run_calls _ _ calls (Or.inr ⟨rfl, hcalls⟩) _
        (scope_free_new _ _ _ _)))
  · intro ops s kind hkind
    apply countP_kind_le_one kind _ (pairwise_run_queue_ops ops _ List.Pairwise.nil)
    simp only [List.mem_cons, List.mem_singleton, List.not_mem_nil, or_false] at hkind
    rcases hkind with rfl | rfl | rfl | rfl | rfl | rfl <;> exact Or.inl rfl

/-- Witness of C14: after the constructor and the calls `refresh_tablespaces`,
`get_matching_tablespaces` and `refresh_logfile_groups` the queue holds one tablespaces and one
logfile groups task behind the five tasks of the constructor. -/
theorem unscoped_kinds_deduplicated_witness :
    (run_calls escape_like_wildcards
      [Call.refresh_tablespaces true, Call.get_matching_tablespaces true "ts",
        Call.refresh_logfile_groups true, Call.refresh_schema_list true]
      (new init_db true true)).pending_tasks
      = [⟨RefreshSchemas, "", ""⟩, ⟨RefreshVariables, "", ""⟩, ⟨RefreshEngines, "", ""⟩,
          ⟨RefreshCharsets, "", ""⟩, ⟨RefreshCollations, "", ""⟩,
          ⟨RefreshTableSpaces, "", ""⟩, ⟨RefreshLogfileGroups, "", ""⟩] ∧
    (run_calls escape_like_wildcards
      [Call.refresh_tablespaces true, Call.get_matching_tablespaces true "ts",
        Call.refresh_logfile_groups true, Call.refresh_schema_list true]
      (new init_db true true)).pending_tasks.countP
      (fun t => decide (t.type = RefreshTableSpaces)) ≤ 1 :=
  ⟨by decide,
    (unscoped_kinds_deduplicated escape_like_wildcards init_db true true
      [Call.refresh_tablespaces true, Call.get_matching_tablespaces true "ts",
        Call.refresh_logfile_groups true, Call.refresh_schema_list true]).2.1 (by decide)⟩

/-- C14 as stated fails for the tablespaces kind: after the constructor, the public calls
`refresh_triggers(shop, orders)` and `refresh_tablespaces()` leave two tablespaces tasks in
the queue, one for (`shop`, `orders`) and one with the empty scope. -/
theorem unscoped_kinds_deduplicated_counterexample :
    (run_calls escape_like_wildcards
      [Call.refresh_triggers true "shop" "orders", Call.refresh_tablespaces true]
      (new init_db true true)).pending_tasks
      = [⟨RefreshSchemas, "", ""⟩, ⟨RefreshVariables, "", ""⟩, ⟨RefreshEngines, "", ""⟩,
          ⟨RefreshCharsets, "", ""⟩, ⟨RefreshCollations, "", ""⟩,
          ⟨RefreshTableSpaces, "shop", "orders"⟩, ⟨RefreshTableSpaces, "", ""⟩] ∧
    (run_calls escape_like_wildcards
      [Call.refresh_triggers true "shop" "orders", Call.refresh_tablespaces true]
      (new init_db true true)).pending_tasks.countP
      (fun t => decide (t.type = RefreshTableSpaces)) = 2 := by
  decide


/-! ## The scheduler -/

/-- On a cache that is not shut down `create_worker_thread` never raises the sum of the permit
count and the number of active workers, and keeps it when the thread is created. -/
theorem create_worker_thread_sum (thread_created : Bool) (s : State)
    (hs : s.shutdown = false) :
    (create_worker_thread thread_created s).cache_working
        + active_workers (create_worker_thread thread_created s)
      ≤ s.cache_working + active_workers s ∧
    (thread_created = true →
      (create_worker_thread thread_created s).cache_working
          + active_workers (create_worker_thread thread_created s)
        = s.cache_working + active_workers s) := by
  unfold create_worker_thread active_workers
  by_cases h0 : s.cache_working = 0
  · simp [h0]
  · cases thread_created <;> cases hr : s.refresh_thread <;> cases hf : s.feedback <;>
      simp [h0, hs, hr, hf] <;> omega

theorem add_pending_refresh_sum (thread_created : Bool) (type : RefreshType)
    (schema table : String) (s : State) (hs : s.shutdown = false) :
    (add_pending_refresh thread_created type schema table s).cache_working
        + active_workers (add_pending_refresh thread_created type schema table s)
      ≤ s.cache_working + active_workers s ∧
    (thread_created = true →
      (add_pending_refresh thread_created type schema table s).cache_working
          + active_workers (add_pending_refresh thread_created type schema table s)
        = s.cache_working + active_workers s) := by
  unfold add_pending_refresh
  simp only [hs, Bool.false_eq_true, if_false]
  split
  · split
    · exact create_worker_thread_sum thread_created _ rfl
    · exact ⟨Nat.le_refl _, fun _ => rfl⟩
  · split
    · exact create_worker_thread_sum thread_created _ hs
    · exact ⟨Nat.le_refl _, fun _ => rfl⟩

theorem get_pending_refresh_scheduler (s : State) :
    (get_pending_refresh s).2.cache_working = s.cache_working ∧
    (get_pending_refresh s).2.workers_looping = s.workers_looping ∧
    (get_pending_refresh s).2.workers_leaving = s.workers_leaving ∧
    (get_pending_refresh s).2.shutdown = s.shutdown := by
  unfold get_pending_refresh
  split
  · exact ⟨rfl, rfl, rfl, rfl⟩
  · split <;> exact ⟨rfl, rfl, rfl, rfl⟩

/-- Every step keeps the cache running, never raises the sum of the permit count and the number
of active workers, and keeps the sum when no thread creation fails in it. -/
theorem step_apply_sum (step : Step) (s s' : State) (hs : s.shutdown = false)
    (h : step.apply s = some s') :
    s'.shutdown = false ∧
    s'.cache_working + active_workers s' ≤ s.cache_working + active_workers s ∧
    (step.thread_created = true →
      s'.cache_working + active_workers s' = s.cache_working + active_workers s) := by
  cases step with
  | add_pending_refresh thread_created type schema table =>
    simp only [Step.apply, Option.some.injEq] at h
    subst h
    exact ⟨by rw [add_pending_refresh_shutdown]; exact hs,
      add_pending_refresh_sum _ _ _ _ _ hs⟩
  | create_worker_thread thread_created =>
    simp only [Step.apply, Option.some.injEq] at h
    subst h
    exact ⟨by rw [create_worker_thread_shutdown]; exact hs, create_worker_thread_sum _ _ hs⟩
  | pop =>
    have hg := get_pending_refresh_scheduler s
    simp only [Step.apply] at h
    split at h
    · cases h
    · split at h
      · rename_i task s1 heq
        simp only [Option.some.injEq] at h
        subst h
        rw [heq] at hg
        simp only at hg
        unfold active_workers
        rw [hg.1, hg.2.1, hg.2.2.1, hg.2.2.2]
        exact ⟨hs, Nat.le_refl _, fun _ => rfl⟩
      · cases h
  | observe_empty =>
    have hg := get_pending_refresh_scheduler s
    simp only [Step.apply] at h
    split at h
    · cases h
    · rename_i hloop
      split at h
      · cases h
      · rename_i s1 heq
        simp only [Option.some.injEq] at h
        subst h
        rw [heq] at hg
        simp only at hg
        unfold active_workers worker_leaves_loop
        simp only
        rw [hg.1, hg.2.1, hg.2.2.1, hg.2.2.2]
        exact ⟨hs, by omega, fun _ => by omega⟩
  | release_permit =>
    simp only [Step.apply] at h
    split at h
    · cases h
    · rename_i hleave
      simp only [Option.some.injEq] at h
      subst h
      unfold active_workers worker_posts
      cases hf : s.feedback <;> simp [hs, hf] <;> omega

theorem run_steps_sum (steps : List Step) :
    ∀ s s' : State, s.shutdown = false → run_steps steps s = some s' →
      s'.shutdown = false ∧
      s'.cache_working + active_workers s' ≤ s.cache_working + active_workers s ∧
      ((∀ step ∈ steps, step.thread_created = true) →
        s'.cache_working + active_workers s' = s.cache_working + active_workers s) := by
  induction steps with
  | nil =>
    intro s s' hs h
    simp only [run_steps, Option.some.injEq] at h
    subst h
    exact ⟨hs, Nat.le_refl _, fun _ => rfl⟩
  | cons step steps ih =>
    intro s s' hs h
    simp only [run_steps] at h
    split at h
    · rename_i s1 h1
      have hstep := step_apply_sum step s s1 hs h1
      have hrest := ih s1 s' hstep.1 h
      refine ⟨hrest.1, Nat.le_trans hrest.2.1 hstep.2.1, ?_⟩
      intro hall
      rw [hrest.2.2 (fun st hst => hall st (List.mem_cons_of_mem _ hst)),
        hstep.2.2 (hall step (List.mem_cons_self _ _))]
    · cases h

/-- C18, evaluated on the code. In every state that the steps of callers and worker reach
from the initial members, at most one worker is active, the permit count plus the number of
active workers is at most 1, and `create_worker_thread` changes no state while a worker is
active; the sum is 1 as long as no thread creation has failed. A thread creation that fails
takes the permit without a worker to give it back: after `create_worker_thread` with a failing
`base::create_thread` the permit count is 0 and no worker is active. -/
theorem worker_singleton_until_failed_spawn :
    (∀ (store : Store) (feedback : Bool) (steps : List Step) (s : State),
      run_steps steps (initial store feedback) = some s →
        active_workers s ≤ 1 ∧
        s.cache_working + active_workers s ≤ 1 ∧
        (0 < active_workers s →
          ∀ thread_created, create_worker_thread thread_created s = s) ∧
        ((∀ step ∈ steps, step.thread_created = true) →
          s.cache_working + active_workers s = 1)) ∧
    (run_steps [Step.create_worker_thread false] (initial init_db true)).map
      (fun s => (s.cache_working, active_workers s)) = some (0, 0) ∧
    (run_steps [Step.create_worker_thread true] (initial init_db true)).map
      (fun s => (s.cache_working, active_workers s)) = some (0, 1) := by
  refine ⟨?_, by decide, by decide⟩
  intro store feedback steps s h
  have hsum := run_steps_sum steps (initial store feedback) s rfl h
  have h1 : (initial store feedback).cache_working + active_workers (initial store feedback)
      = 1 := rfl
  rw [h1] at hsum
  refine ⟨by omega, hsum.2.1, ?_, hsum.2.2⟩
  intro hactive thread_created
  have h0 : s.cache_working = 0 := by omega
  unfold create_worker_thread
  simp [h0]

/-- C20, evaluated on the code. From the initial members: a task is enqueued and a worker
created; the worker pops the task; its next call of `get_pending_refresh` returns false and it
leaves the loop; a caller enqueues a second task, for which `create_worker_thread` finds no
permit and creates nothing; the worker posts the semaphore. The cache is not shut down, the
second task is queued, no worker is left, and no step of a worker can be taken: the task waits
for the next call of `add_pending_refresh`. A worker that is still in its loop, by contrast,
can always pop a queued task. -/
theorem task_stranded_after_late_enqueue :
    (run_steps
      [Step.add_pending_refresh true RefreshSchemas "" "", Step.pop, Step.observe_empty,
        Step.add_pending_refresh true RefreshUDFs "" ""]
      (initial init_db true)).map
      (fun s => (s.pending_tasks, s.workers_looping, s.workers_leaving, s.cache_working))
      = some ([⟨RefreshUDFs, "", ""⟩], 0, 1, 0) ∧
    (run_steps
      [Step.add_pending_refresh true RefreshSchemas "" "", Step.pop, Step.observe_empty,
        Step.add_pending_refresh true RefreshUDFs "" "", Step.release_permit]
      (initial init_db true)).map
      (fun s => (s.pending_tasks, s.workers_looping, s.workers_leaving, s.cache_working,
        s.shutdown))
      = some ([⟨RefreshUDFs, "", ""⟩], 0, 0, 1, false) ∧
    (∀ s : State, s.workers_looping = 0 → s.workers_leaving = 0 →
      ∀ step : Step, step.is_worker_step = true → step.apply s = none) ∧
    (∀ s : State, 0 < s.workers_looping → s.shutdown = false → s.pending_tasks ≠ [] →
      ∃ task rest, s.pending_tasks = task :: rest ∧
        Step.pop.apply s = some { s with pending_tasks := rest }) := by
  refine ⟨by decide, by decide, ?_, ?_⟩
  · intro s h1 h2 step hstep
    cases step <;> simp [Step.is_worker_step] at hstep <;> simp [Step.apply, h1, h2]
  · intro s hloop hs hq
    cases hp : s.pending_tasks with
    | nil => exact absurd hp hq
    | cons task rest =>
      refine ⟨task, rest, rfl, ?_⟩
      have hne : ¬ s.workers_looping = 0 := by omega
      simp [Step.apply, hne, get_pending_refresh, hs, hp]


/-! ## The worker loop -/

theorem transaction_frame (cache : String) (result : Option (List Row)) (s : State) :
    (transaction cache result s).pending_tasks = s.pending_tasks ∧
    (transaction cache result s).shutdown = s.shutdown := by
  unfold transaction
  split <;> exact ⟨rfl, rfl⟩

theorem update_object_names_frame (cache : String) (objects : List String) (s : State) :
    (update_object_names cache objects s).pending_tasks = s.pending_tasks ∧
    (update_object_names cache objects s).shutdown = s.shutdown := by
  unfold update_object_names
  split
  · exact ⟨rfl, rfl⟩
  · exact transaction_frame _ _ _

theorem update_object_names_in_schema_frame (cache schema : String) (objects : List String)
    (s : State) :
    (update_object_names_in_schema cache schema objects s).pending_tasks = s.pending_tasks ∧
    (update_object_names_in_schema cache schema objects s).shutdown = s.shutdown := by
  unfold update_object_names_in_schema
  split
  · exact ⟨rfl, rfl⟩
  · exact transaction_frame _ _ _

theorem update_object_names_in_table_frame (cache schema table : String)
    (objects : List String) (s : State) :
    (update_object_names_in_table cache schema table objects s).pending_tasks
      = s.pending_tasks ∧
    (update_object_names_in_table cache schema table objects s).shutdown = s.shutdown := by
  unfold update_object_names_in_table
  split
  · exact ⟨rfl, rfl⟩
  · exact transaction_frame _ _ _

theorem update_schemas_frame (schemas : List String) (s : State) :
    (update_schemas schemas s).pending_tasks = s.pending_tasks ∧
    (update_schemas schemas s).shutdown = s.shutdown := by
  unfold update_schemas
  split
  · exact ⟨rfl, rfl⟩
  · exact transaction_frame _ _ _

theorem refresh_schemas_w_frame (live : Option (List String)) (s : State) :
    (refresh_schemas_w live s).pending_tasks = s.pending_tasks ∧
    (refresh_schemas_w live s).shutdown = s.shutdown := by
  unfold refresh_schemas_w
  dsimp only
  split
  · exact update_schemas_frame _ _
  · exact ⟨rfl, rfl⟩

/-- The guarded store write at the end of a fetcher touches neither the queue nor the flag. -/
theorem guarded_update_frame (update : State → State) (s : State)
    (h : (update s).pending_tasks = s.pending_tasks ∧ (update s).shutdown = s.shutdown) :
    (if (!s.shutdown) = true then update s else s).pending_tasks = s.pending_tasks ∧
    (if (!s.shutdown) = true then update s else s).shutdown = s.shutdown := by
  split
  · exact h
  · exact ⟨rfl, rfl⟩

/-- The fetchers of all kinds but tables and views leave the queue and the flag alone. -/
theorem dispatch_frame (server : Server) (thread_created : Bool) (task : RefreshTask)
    (s s' : State) (hk : task.type ≠ RefreshTables ∧ task.type ≠ RefreshViews)
    (h : dispatch server thread_created task s = some s') :
    s'.pending_tasks = s.pending_tasks ∧ s'.shutdown = s.shutdown := by
  unfold dispatch at h
  cases ht : task.type
  case RefreshTables => exact absurd ht hk.1
  case RefreshViews => exact absurd ht hk.2
  all_goals
    rw [ht] at h
    simp only [refresh_procedures_w, refresh_functions_w, refresh_columns_w,
      refresh_triggers_w, refresh_udfs_w, refreshCharsets_w, refreshCollations_w,
      refresh_variables_w, refresh_engines_w, refresh_logfile_groups_w, refresh_tablespaces_w,
      refreshEvents_w] at h
    split at h
    · cases h
    · simp only [Option.some.injEq] at h
      subst h
      first
        | exact refresh_schemas_w_frame _ _
        | exact guarded_update_frame _ s (update_object_names_frame _ _ _)
        | exact guarded_update_frame _ s (update_object_names_in_schema_frame _ _ _ _)
        | exact guarded_update_frame _ s (update_object_names_in_table_frame _ _ _ _ _)

/-- In every state the queue after `add_pending_refresh` is the queue before it, followed
by the request or by nothing. -/
theorem add_pending_refresh_append (thread_created : Bool) (type : RefreshType)
    (schema table : String) (s : State) :
    ∃ extra, (add_pending_refresh thread_created type schema table s).pending_tasks
        = s.pending_tasks ++ extra ∧
      extra.length ≤ 1 ∧ ∀ u ∈ extra, u.type = type := by
  cases hs : s.shutdown
  · rw [add_pending_refresh_pending _ _ _ _ _ hs]
    split
    · exact ⟨[], by simp, by simp, by simp⟩
    · exact ⟨[⟨type, schema, table⟩], rfl, by simp, by simp⟩
  · rw [add_pending_refresh_of_shutdown _ _ _ _ _ hs]
    exact ⟨[], by simp, by simp, by simp⟩

theorem requests_of_tables (thread_created : Bool) (schema : String) (tables : List String) :
    ∀ s : State, ∃ extra,
      (tables.foldl
        (fun s table =>
          add_pending_refresh thread_created RefreshTriggers schema table
            (add_pending_refresh thread_created RefreshColumns schema table s)) s).pending_tasks
        = s.pending_tasks ++ extra ∧
      extra.length ≤ 2 * tables.length ∧
      (∀ u ∈ extra, u.type = RefreshColumns ∨ u.type = RefreshTriggers) ∧
      (tables.foldl
        (fun s table =>
          add_pending_refresh thread_created RefreshTriggers schema table
            (add_pending_refresh thread_created RefreshColumns schema table s)) s).shutdown
        = s.shutdown := by
  induction tables with
  | nil => intro s; exact ⟨[], by simp, by simp, by simp, rfl⟩
  | cons table tables ih =>
    intro s
    obtain ⟨e1, h1, l1, k1⟩ :=
      add_pending_refresh_append thread_created RefreshColumns schema table s
    obtain ⟨e2, h2, l2, k2⟩ :=
      add_pending_refresh_append thread_created RefreshTriggers schema table
        (add_pending_refresh thread_created RefreshColumns schema table s)
    obtain ⟨e3, h3, l3, k3, hsd⟩ := ih
      (add_pending_refresh thread_created RefreshTriggers schema table
        (add_pending_refresh thread_created RefreshColumns schema table s))
    refine ⟨e1 ++ (e2 ++ e3), ?_, ?_, ?_, ?_⟩
    · rw [List.foldl_cons, h3, h2, h1]
      simp
    · simp only [List.length_append, List.length_cons]
      omega
    · intro u hu
      rcases List.mem_append.mp hu with hu | hu
      · exact Or.inl (k1 u hu)
      · rcases List.mem_append.mp hu with hu | hu
        · exact Or.inr (k2 u hu)
        · exact k3 u hu
    · rw [List.foldl_cons, hsd, add_pending_refresh_shutdown, add_pending_refresh_shutdown]

theorem requests_of_views (thread_created : Bool) (schema : String) (views : List String) :
    ∀ s : State, ∃ extra,
      (views.foldl
        (fun s table => add_pending_refresh thread_created RefreshColumns schema table s)
        s).pending_tasks = s.pending_tasks ++ extra ∧
      extra.length ≤ 2 * views.length ∧
      (∀ u ∈ extra, u.type = RefreshColumns ∨ u.type = RefreshTriggers) ∧
      (views.foldl
        (fun s table => add_pending_refresh thread_created RefreshColumns schema table s)
        s).shutdown = s.shutdown := by
  induction views with
  | nil => intro s; exact ⟨[], by simp, by simp, by simp, rfl⟩
  | cons table views ih =>
    intro s
    obtain ⟨e1, h1, l1, k1⟩ :=
      add_pending_refresh_append thread_created RefreshColumns schema table s
    obtain ⟨e3, h3, l3, k3, hsd⟩ := ih
      (add_pending_refresh thread_created RefreshColumns schema table s)
    refine ⟨e1 ++ e3, ?_, ?_, ?_, ?_⟩
    · rw [List.foldl_cons, h3, h1]
      simp
    · simp only [List.length_append, List.length_cons]
      omega
    · intro u hu
      rcases List.mem_append.mp hu with hu | hu
      · exact Or.inl (k1 u hu)
      · exact k3 u hu
    · rw [List.foldl_cons, hsd, add_pending_refresh_shutdown]

theorem rows_read_length {α : Type} (rs : Option (List α)) (s : State) (p : α → Bool) :
    ((rows_read rs s).filter p).length ≤ (rs.getD []).length := by
  unfold rows_read
  cases rs with
  | none => simp
  | some rows =>
    dsimp only
    split
    · simp
    · exact List.length_filter_le _ _

theorem children_bound_of_listing (server : Server) (task : RefreshTask)
    (rs : Option (List (String × String)))
    (hk : task.type = RefreshTables ∨ task.type = RefreshViews)
    (h : server.show_full_tables task.schema_name = Answer.result rs) :
    children_bound server task = 2 * (rs.getD []).length := by
  unfold children_bound
  rcases hk with hk | hk <;> rw [hk] <;> simp only [h] <;> cases rs <;> rfl

/-- The fetcher of a task leaves the flag alone and appends to the queue at most as many tasks
as `children_bound` tells, all of them columns or triggers tasks. -/
theorem dispatch_requests (server : Server) (thread_created : Bool) (task : RefreshTask)
    (s s' : State) (h : dispatch server thread_created task s = some s') :
    ∃ extra, s'.pending_tasks = s.pending_tasks ++ extra ∧
      extra.length ≤ children_bound server task ∧
      (∀ u ∈ extra, u.type = RefreshColumns ∨ u.type = RefreshTriggers) ∧
      s'.shutdown = s.shutdown := by
  by_cases hk : task.type ≠ RefreshTables ∧ task.type ≠ RefreshViews
  · have hf := dispatch_frame server thread_created task s s' hk h
    exact ⟨[], by simp [hf.1], by simp, by simp, hf.2⟩
  · have hk' : task.type = RefreshTables ∨ task.type = RefreshViews := by
      by_cases h1 : task.type = RefreshTables
      · exact Or.inl h1
      · by_cases h2 : task.type = RefreshViews
        · exact Or.inr h2
        · exact absurd ⟨h1, h2⟩ hk
    unfold dispatch at h
    rcases hk' with ht | ht
    · rw [ht] at h
      simp only [refresh_tables_w] at h
      split at h
      · cases h
      · split at h
        · split at h
          · cases h
          · rename_i rs2 heq
            simp only [Option.some.injEq] at h
            subst h
            obtain ⟨extra, hq, hl, hkinds, hsd⟩ := requests_of_tables thread_created
              task.schema_name
              (((rows_read rs2 s).filter fun row => row.2 != "VIEW").map fun row => row.1) s
            generalize List.foldl _ s _ = s1 at hq hsd
            have hg := guarded_update_frame
              (update_object_names_in_schema "tables" task.schema_name
                (((rows_read rs2 s).filter fun row => row.2 != "VIEW").map fun row => row.1))
              s1 (update_object_names_in_schema_frame _ _ _ _)
            refine ⟨extra, hg.1.trans hq, ?_, hkinds, hg.2.trans hsd⟩
            rw [children_bound_of_listing server task rs2 (Or.inl ht) heq]
            have := rows_read_length rs2 s (fun row => row.2 != "VIEW")
            rw [List.length_map] at hl
            omega
        · simp only [Option.some.injEq] at h
          subst h
          have hg := guarded_update_frame
            (update_object_names_in_schema "tables" task.schema_name []) s
            (update_object_names_in_schema_frame _ _ _ _)
          exact ⟨[], hg.1.trans (List.append_nil _).symm, Nat.zero_le _,
            fun u hu => absurd hu (List.not_mem_nil u), hg.2⟩
    · rw [ht] at h
      simp only [refresh_views_w] at h
      split at h
      · cases h
      · split at h
        · split at h
          · cases h
          · rename_i rs2 heq
            simp only [Option.some.injEq] at h
            subst h
            obtain ⟨extra, hq, hl, hkinds, hsd⟩ := requests_of_views thread_created
              task.schema_name
              (((rows_read rs2 s).filter fun row => row.2 == "VIEW").map fun row => row.1) s
            generalize List.foldl _ s _ = s1 at hq hsd
            have hg := guarded_update_frame
              (update_object_names_in_schema "views" task.schema_name
                (((rows_read rs2 s).filter fun row => row.2 == "VIEW").map fun row => row.1))
              s1 (update_object_names_in_schema_frame _ _ _ _)
            refine ⟨extra, hg.1.trans hq, ?_, hkinds, hg.2.trans hsd⟩
            rw [children_bound_of_listing server task rs2 (Or.inr ht) heq]
            have := rows_read_length rs2 s (fun row => row.2 == "VIEW")
            rw [List.length_map] at hl
            omega
        · simp only [Option.some.injEq] at h
          subst h
          have hg := guarded_update_frame
            (update_object_names_in_schema "views" task.schema_name []) s
            (update_object_names_in_schema_frame _ _ _ _)
          exact ⟨[], hg.1.trans (List.append_nil _).symm, Nat.zero_le _,
            fun u hu => absurd hu (List.not_mem_nil u), hg.2⟩

theorem passes_bound_append (server : Server) (q extra : List RefreshTask)
    (h : ∀ u ∈ extra, u.type = RefreshColumns ∨ u.type = RefreshTriggers) :
    passes_bound server (q ++ extra) = passes_bound server q + extra.length := by
  unfold passes_bound
  rw [List.map_append, List.sum_append]
  congr 1
  induction extra with
  | nil => rfl
  | cons u extra ih =>
    have hu : children_bound server u = 0 := by
      unfold children_bound
      rcases h u (List.mem_cons_self _ _) with hu | hu <;> rw [hu]
    rw [List.map_cons, List.sum_cons, hu, ih (fun v hv => h v (List.mem_cons_of_mem _ hv))]
    simp
    omega

theorem passes_bound_ge_length (server : Server) (q : List RefreshTask) :
    q.length ≤ passes_bound server q := by
  unfold passes_bound
  induction q with
  | nil => simp
  | cons t q ih =>
    rw [List.map_cons, List.sum_cons, List.length_cons]
    omega

/-- The worker loop on a running cache, with passes enough: it returns, the tasks it has
dispatched are the queued ones in queue order followed by the columns and triggers tasks that
the fetchers requested on the way, and the queue is empty at the return. -/
theorem refresh_cache_thread_returns (server : Server) (thread_created : Bool) (n : Nat) :
    ∀ s : State, s.shutdown = false → passes_bound server s.pending_tasks < n →
      ∃ log final, refresh_cache_thread server thread_created n s = some (log, final) ∧
        (∃ extra, log.map Prod.fst = s.pending_tasks ++ extra ∧
          (∀ u ∈ extra, u.type = RefreshColumns ∨ u.type = RefreshTriggers)) ∧
        log.length ≤ passes_bound server s.pending_tasks ∧
        final.pending_tasks = [] ∧ final.shutdown = false := by
  induction n with
  | zero => intro s _ h; exact absurd h (Nat.not_lt_zero _)
  | succ n ih =>
    intro s hs hn
    cases hq : s.pending_tasks with
    | nil =>
      refine ⟨[], refresh_cache_thread_exit s, ?_, ⟨[], by simp, by simp⟩, by simp, ?_, ?_⟩
      · simp [refresh_cache_thread, hs, get_pending_refresh, hq]
      · simp [refresh_cache_thread_exit, worker_posts, worker_leaves_loop, hq]
        split <;> simp [hq]
      · simp [refresh_cache_thread_exit, worker_posts, worker_leaves_loop, hs]
        split <;> simp [hs]
    | cons task rest =>
      have hstep : ∀ s1 : State, s1.shutdown = false →
          (∃ e1, s1.pending_tasks = rest ++ e1 ∧ e1.length ≤ children_bound server task ∧
            ∀ u ∈ e1, u.type = RefreshColumns ∨ u.type = RefreshTriggers) →
          ∀ outcome : Bool,
          ∃ log final,
            (match refresh_cache_thread server thread_created n s1 with
              | some (log, s'') => some ((task, outcome) :: log, s'')
              | none => none) = some (log, final) ∧
            (∃ extra, log.map Prod.fst = (task :: rest) ++ extra ∧
              (∀ u ∈ extra, u.type = RefreshColumns ∨ u.type = RefreshTriggers)) ∧
            log.length ≤ passes_bound server (task :: rest) ∧
            final.pending_tasks = [] ∧ final.shutdown = false := by
        intro s1 hs1 hs1q outcome
        obtain ⟨e1, he1, hl1, hk1⟩ := hs1q
        have hb : passes_bound server (task :: rest)
            = 1 + children_bound server task + passes_bound server rest := by
          unfold passes_bound
          rw [List.map_cons, List.sum_cons]
        have hb1 : passes_bound server s1.pending_tasks
            = passes_bound server rest + e1.length := by
          rw [he1, passes_bound_append server rest e1 hk1]
        rw [hq, hb] at hn
        obtain ⟨log, final, hrun, ⟨extra, hlog, hkinds⟩, hlen, hfq, hfs⟩ :=
          ih s1 hs1 (by omega)
        refine ⟨(task, outcome) :: log, final, by rw [hrun], ⟨e1 ++ extra, ?_, ?_⟩, ?_,
          hfq, hfs⟩
        · rw [List.map_cons, hlog, he1]
          simp
        · intro u hu
          rcases List.mem_append.mp hu with hu | hu
          · exact hk1 u hu
          · exact hkinds u hu
        · rw [List.length_cons, hb]
          omega
      obtain ⟨s0, hget, hs0, hs0q⟩ : ∃ s0 : State, get_pending_refresh s = (some task, s0) ∧
          s0.shutdown = false ∧ s0.pending_tasks = rest := by
        refine ⟨{ s with pending_tasks := rest }, ?_, hs, rfl⟩
        unfold get_pending_refresh
        simp [hs, hq]
      unfold refresh_cache_thread
      simp only [hs, Bool.false_eq_true, if_false, hget, hs0]
      cases hd : dispatch server thread_created task s0 with
      | none =>
        exact hstep s0 hs0
          ⟨[], hs0q.trans (List.append_nil rest).symm, Nat.zero_le _,
            fun u hu => absurd hu (List.not_mem_nil u)⟩ false
      | some s1 =>
        obtain ⟨e1, he1, hl1, hk1, hsd⟩ := dispatch_requests server thread_created task _ s1 hd
        exact hstep s1 (hsd.trans hs0) ⟨e1, by rw [he1, hs0q], hl1, hk1⟩ true

theorem passes_bound_of_no_listing (server : Server) (q : List RefreshTask)
    (h : ∀ t ∈ q, t.type ≠ RefreshTables ∧ t.type ≠ RefreshViews) :
    passes_bound server q = q.length := by
  unfold passes_bound
  induction q with
  | nil => rfl
  | cons t q ih =>
    have ht : children_bound server t = 0 := by
      have h1 := (h t (List.mem_cons_self _ _)).1
      have h2 := (h t (List.mem_cons_self _ _)).2
      unfold children_bound
      cases hk : t.type <;> first | rfl | exact absurd hk h1 | exact absurd hk h2
    rw [List.map_cons, List.sum_cons, ht, ih (fun u hu => h u (List.mem_cons_of_mem _ hu)),
      List.length_cons]
    omega

/-- C19: a failed fetch does not abort the worker. For every live server, that is every
assignment of results and exceptions to the statements of the fetchers, on a cache that is not
shut down and with no other thread in between, the worker loop returns; the tasks it has
dispatched are the queued tasks in queue order, followed by the columns and triggers tasks that
the tables and views fetchers requested on the way (none when the queue holds no tables or
views task, so that each queued task is dispatched exactly once); and the queue is empty at the
return. A task whose fetcher throws is dropped from the queue with no other change of the
state, and the loop goes on with the next task just as after a fetch that succeeded. -/
theorem worker_loop_survives_failed_fetch (server : Server) (thread_created : Bool)
    (s : State) (n : Nat) (hrun : s.shutdown = false)
    (hn : passes_bound server s.pending_tasks < n) :
    (∃ log final, refresh_cache_thread server thread_created n s = some (log, final) ∧
      (∃ extra, log.map Prod.fst = s.pending_tasks ++ extra ∧
        (∀ u ∈ extra, u.type = RefreshColumns ∨ u.type = RefreshTriggers)) ∧
      ((∀ t ∈ s.pending_tasks, t.type ≠ RefreshTables ∧ t.type ≠ RefreshViews) →
        log.map Prod.fst = s.pending_tasks) ∧
      final.pending_tasks = [] ∧ final.shutdown = false) ∧
    (∀ task rest, s.pending_tasks = task :: rest →
      dispatch server thread_created task { s with pending_tasks := rest } = none →
      refresh_cache_thread server thread_created (n + 1) s
        = (refresh_cache_thread server thread_created n { s with pending_tasks := rest }).map
            (fun r => ((task, false) :: r.1, r.2))) ∧
    (∀ task rest s', s.pending_tasks = task :: rest →
      dispatch server thread_created task { s with pending_tasks := rest } = some s' →
      refresh_cache_thread server thread_created (n + 1) s
        = (refresh_cache_thread server thread_created n s').map
            (fun r => ((task, true) :: r.1, r.2))) ∧
    (s.pending_tasks = [] →
      refresh_cache_thread server thread_created (n + 1) s
        = some ([], refresh_cache_thread_exit s)) := by
  refine ⟨?_, ?_, ?_, ?_⟩
  · obtain ⟨log, final, hloop, ⟨extra, hlog, hkinds⟩, hlen, hq, hs⟩ :=
      refresh_cache_thread_returns server thread_created n s hrun hn
    refine ⟨log, final, hloop, ⟨extra, hlog, hkinds⟩, ?_, hq, hs⟩
    intro hsimple
    rw [passes_bound_of_no_listing server _ hsimple] at hlen
    have hl : (log.map Prod.fst).length = log.length := List.length_map _ _
    rw [hlog, List.length_append] at hl
    have he : extra = [] := List.eq_nil_of_length_eq_zero (by omega)
    rw [hlog, he, List.append_nil]
  · intro task rest hq hd
    have hget : get_pending_refresh s = (some task, { s with pending_tasks := rest }) := by
      unfold get_pending_refresh
      simp [hrun, hq]
    rw [refresh_cache_thread]
    simp only [hrun, Bool.false_eq_true, if_false, hget]
    have hd' := hd
    simp only [hrun] at hd'
    rw [hd']
    cases refresh_cache_thread server thread_created n _ <;> rfl
  · intro task rest s' hq hd
    have hget : get_pending_refresh s = (some task, { s with pending_tasks := rest }) := by
      unfold get_pending_refresh
      simp [hrun, hq]
    rw [refresh_cache_thread]
    simp only [hrun, Bool.false_eq_true, if_false, hget]
    have hd' := hd
    simp only [hrun] at hd'
    rw [hd']
    dsimp only
    cases refresh_cache_thread server thread_created n s' <;> rfl
  · intro hq
    rw [refresh_cache_thread]
    simp [hrun, get_pending_refresh, hq]

/-- Witness of C19 on `sample_state` and `sample_server`: the schemas task and the tables task
of `shop` are dispatched in queue order, then the columns task of `shop.orders`, whose fetcher
throws, and after it the triggers task, whose fetcher stores its row. -/
theorem worker_loop_survives_failed_fetch_witness :
    sample_state.shutdown = false ∧
    passes_bound sample_server sample_state.pending_tasks < 7 ∧
    (∃ log final, refresh_cache_thread sample_server true 7 sample_state = some (log, final) ∧
      (∃ extra, log.map Prod.fst = sample_state.pending_tasks ++ extra ∧
        (∀ u ∈ extra, u.type = RefreshColumns ∨ u.type = RefreshTriggers)) ∧
      ((∀ t ∈ sample_state.pending_tasks, t.type ≠ RefreshTables ∧ t.type ≠ RefreshViews) →
        log.map Prod.fst = sample_state.pending_tasks) ∧
      final.pending_tasks = [] ∧ final.shutdown = false) ∧
    (refresh_cache_thread sample_server true 7 sample_state).map (fun r => r.1)
      = some [(⟨RefreshSchemas, "", ""⟩, true), (⟨RefreshTables, "shop", ""⟩, true),
          (⟨RefreshColumns, "shop", "orders"⟩, false),
          (⟨RefreshTriggers, "shop", "orders"⟩, true)] ∧
    (refresh_cache_thread sample_server true 7 sample_state).map
      (fun r => (r.2.sqconn "triggers", r.2.sqconn "columns"))
      = some ([⟨"shop", "orders", "trg_orders", 0⟩], []) :=
  ⟨rfl, by decide,
    (worker_loop_survives_failed_fetch sample_server true sample_state 7 rfl (by decide)).1,
    by decide, by decide⟩


/-! ## The progress callback and the shutdown flag -/

/-- C21: the progress callback. `create_worker_thread` tells the callback `true` exactly when
it has created a worker, which is when it got the permit, the cache is not shut down and
`base::create_thread` succeeded (with no callback set there is nothing to tell); in every other
case, the permit taken by a running worker and a failed thread creation among them, it invokes
nothing. The lines after the loop of the worker tell it `false` exactly when a callback is set
and the cache is not shut down. On a new cache with a callback, a task that is enqueued, popped
and followed by the worker's exit yields the invocations `true`, `false`; a failed thread
creation yields none. -/
theorem feedback_follows_worker :
    (∀ (thread_created : Bool) (s : State),
      ((create_worker_thread thread_created s).workers_looping = s.workers_looping + 1 ↔
        0 < s.cache_working ∧ s.shutdown = false ∧ thread_created = true) ∧
      ((create_worker_thread thread_created s).workers_looping = s.workers_looping ∨
        (create_worker_thread thread_created s).workers_looping = s.workers_looping + 1) ∧
      (create_worker_thread thread_created s).feedback_calls
        = if (create_worker_thread thread_created s).workers_looping = s.workers_looping + 1
            ∧ s.feedback = true
          then s.feedback_calls ++ [true] else s.feedback_calls) ∧
    (∀ s : State,
      (worker_posts s).feedback_calls
        = (if s.feedback = true ∧ s.shutdown = false then s.feedback_calls ++ [false]
          else s.feedback_calls) ∧
      (refresh_cache_thread_exit s).feedback_calls
        = if s.feedback = true ∧ s.shutdown = false then s.feedback_calls ++ [false]
          else s.feedback_calls) ∧
    (run_steps
      [Step.add_pending_refresh true RefreshSchemas "" "", Step.create_worker_thread true,
        Step.pop, Step.observe_empty, Step.release_permit]
      (initial init_db true)).map (fun s => s.feedback_calls) = some [true, false] ∧
    (run_steps
      [Step.add_pending_refresh true RefreshSchemas "" "", Step.pop, Step.observe_empty,
        Step.release_permit]
      (initial init_db false)).map (fun s => s.feedback_calls) = some [] ∧
    (run_steps [Step.add_pending_refresh false RefreshSchemas "" ""]
      (initial init_db true)).map (fun s => s.feedback_calls) = some [] ∧
    (refresh_cache_thread_exit
      (shutdown (create_worker_thread true (initial init_db true)))).feedback_calls
      = [true] := by
  refine ⟨?_, ?_, by decide, by decide, by decide, by decide⟩
  · intro thread_created s
    unfold create_worker_thread
    by_cases h0 : s.cache_working = 0
    · simp [h0]
    · have hpos : 0 < s.cache_working := Nat.pos_of_ne_zero h0
      cases hsd : s.shutdown <;> cases thread_created <;> cases hf : s.feedback <;>
        cases hr : s.refresh_thread <;> simp [h0, hpos, hsd, hf, hr]
  · intro s
    unfold refresh_cache_thread_exit worker_posts worker_leaves_loop
    cases hf : s.feedback <;> cases hsd : s.shutdown <;> simp [hf, hsd]

/-- C22: no write after shutdown. With the shutdown flag set, `update_schemas` and the three
forms of `update_object_names` return the state that they were given, for every cache name,
scope and object list: every table of the store is as it was. -/
theorem no_write_after_shutdown (s : State) (hs : s.shutdown = true) (cache schema table : String)
    (objects : List String) :
    update_schemas objects s = s ∧
    update_object_names cache objects s = s ∧
    update_object_names_in_schema cache schema objects s = s ∧
    update_object_names_in_table cache schema table objects s = s ∧
    (update_schemas objects s).sqconn = s.sqconn ∧
    (update_object_names cache objects s).sqconn = s.sqconn ∧
    (update_object_names_in_schema cache schema objects s).sqconn = s.sqconn ∧
    (update_object_names_in_table cache schema table objects s).sqconn = s.sqconn := by
  have h1 : update_schemas objects s = s := by
    unfold update_schemas
    simp [hs]
  have h2 : update_object_names cache objects s = s := by
    unfold update_object_names
    simp [hs]
  have h3 : update_object_names_in_schema cache schema objects s = s := by
    unfold update_object_names_in_schema
    simp [hs]
  have h4 : update_object_names_in_table cache schema table objects s = s := by
    unfold update_object_names_in_table
    simp [hs]
  exact ⟨h1, h2, h3, h4, by rw [h1], by rw [h2], by rw [h3], by rw [h4]⟩

/-- Witness of C22 on `stopped_state`: the tables refresh of `shop` with the list `customers`
writes nothing, and the two cached tables are still there. -/
theorem no_write_after_shutdown_witness :
    stopped_state.shutdown = true ∧
    (update_schemas ["customers"] stopped_state = stopped_state ∧
      update_object_names "tables" ["customers"] stopped_state = stopped_state ∧
      update_object_names_in_schema "tables" "shop" ["customers"] stopped_state
        = stopped_state ∧
      update_object_names_in_table "tables" "shop" "orders" ["customers"] stopped_state
        = stopped_state ∧
      (update_schemas ["customers"] stopped_state).sqconn = stopped_state.sqconn ∧
      (update_object_names "tables" ["customers"] stopped_state).sqconn
        = stopped_state.sqconn ∧
      (update_object_names_in_schema "tables" "shop" ["customers"] stopped_state).sqconn
        = stopped_state.sqconn ∧
      (update_object_names_in_table "tables" "shop" "orders" ["customers"]
        stopped_state).sqconn = stopped_state.sqconn) ∧
    (update_tables "shop" ["customers"] stopped_state).sqconn "tables"
      = [⟨"shop", "", "orders", 0⟩, ⟨"shop", "", "customers", 0⟩] :=
  ⟨rfl, no_write_after_shutdown stopped_state rfl "tables" "shop" "orders" ["customers"],
    by decide⟩


/-! ## The child tasks of the table and view fetchers -/

/-- A queued task that stands for the same work as a columns or triggers request is that
request. -/
theorem equivalent_of_table_scoped (i : RefreshTask) (type : RefreshType)
    (schema table : String) (hk : type = RefreshColumns ∨ type = RefreshTriggers)
    (h : equivalent i ⟨type, schema, table⟩ = true) : i = ⟨type, schema, table⟩ := by
  obtain ⟨k, a, b⟩ := i
  unfold equivalent at h
  rw [Bool.and_eq_true, decide_eq_true_iff] at h
  obtain ⟨hkind, hscope⟩ := h
  dsimp only at hkind hscope
  subst hkind
  rcases hk with hk | hk <;> subst hk <;>
    simp only [granularity, Bool.and_eq_true, beq_iff_eq] at hscope <;>
    rw [hscope.1, hscope.2]

/-- On a running cache a columns or triggers request is in the queue after
`add_pending_refresh`. -/
theorem add_pending_refresh_queued (thread_created : Bool) (type : RefreshType)
    (schema table : String) (s : State) (hs : s.shutdown = false)
    (hk : type = RefreshColumns ∨ type = RefreshTriggers) :
    (⟨type, schema, table⟩ : RefreshTask)
      ∈ (add_pending_refresh thread_created type schema table s).pending_tasks := by
  rw [add_pending_refresh_pending _ _ _ _ _ hs]
  split
  · rename_i hany
    obtain ⟨i, hi, he⟩ := List.any_eq_true.mp hany
    rw [← equivalent_of_table_scoped i type schema table hk he]
    exact hi
  · exact List.mem_append_right _ (List.mem_singleton_self _)

/-- A queued task stays queued over `add_pending_refresh`. -/
theorem add_pending_refresh_keeps (thread_created : Bool) (type : RefreshType)
    (schema table : String) (s : State) (t : RefreshTask) (h : t ∈ s.pending_tasks) :
    t ∈ (add_pending_refresh thread_created type schema table s).pending_tasks := by
  obtain ⟨extra, hq, _⟩ := add_pending_refresh_append thread_created type schema table s
  rw [hq]
  exact List.mem_append_left _ h

/-- The requests of the loop of `refresh_tables_w` on a running cache: the queue keeps what it
held and holds a columns and a triggers task for every table. -/
theorem requests_of_tables_mem (thread_created : Bool) (schema : String)
    (tables : List String) :
    ∀ s : State, s.shutdown = false →
      (∀ t ∈ s.pending_tasks, t ∈ (tables.foldl
        (fun s table =>
          add_pending_refresh thread_created RefreshTriggers schema table
            (add_pending_refresh thread_created RefreshColumns schema table s))
        s).pending_tasks) ∧
      (∀ table ∈ tables,
        (⟨RefreshColumns, schema, table⟩ : RefreshTask) ∈ (tables.foldl
          (fun s table =>
            add_pending_refresh thread_created RefreshTriggers schema table
              (add_pending_refresh thread_created RefreshColumns schema table s))
          s).pending_tasks ∧
        (⟨RefreshTriggers, schema, table⟩ : RefreshTask) ∈ (tables.foldl
          (fun s table =>
            add_pending_refresh thread_created RefreshTriggers schema table
              (add_pending_refresh thread_created RefreshColumns schema table s))
          s).pending_tasks) := by
  induction tables with
  | nil =>
    intro s _
    exact ⟨fun t ht => ht, fun table h => absurd h (List.not_mem_nil _)⟩
  | cons a tables ih =>
    intro s hs
    have hs1 : (add_pending_refresh thread_created RefreshColumns schema a s).shutdown
        = false := by rw [add_pending_refresh_shutdown]; exact hs
    have hs2 : (add_pending_refresh thread_created RefreshTriggers schema a
        (add_pending_refresh thread_created RefreshColumns schema a s)).shutdown = false := by
      rw [add_pending_refresh_shutdown]; exact hs1
    obtain ⟨hkeep, hnew⟩ := ih _ hs2
    rw [List.foldl_cons]
    refine ⟨fun t ht => hkeep t (add_pending_refresh_keeps _ _ _ _ _ t
      (add_pending_refresh_keeps _ _ _ _ _ t ht)), ?_⟩
    intro table htable
    rcases List.mem_cons.mp htable with rfl | htable
    · exact ⟨hkeep _ (add_pending_refresh_keeps _ _ _ _ _ _
          (add_pending_refresh_queued _ _ _ _ s hs (Or.inl rfl))),
        hkeep _ (add_pending_refresh_queued _ _ _ _ _ hs1 (Or.inr rfl))⟩
    · exact hnew table htable

/-- The requests of the loop of `refresh_views_w` on a running cache: the queue keeps what it
held, holds a columns task for every view, and has got columns tasks only. -/
theorem requests_of_views_mem (thread_created : Bool) (schema : String)
    (views : List String) :
    ∀ s : State, s.shutdown = false →
      (∀ view ∈ views,
        (⟨RefreshColumns, schema, view⟩ : RefreshTask) ∈ (views.foldl
          (fun s table => add_pending_refresh thread_created RefreshColumns schema table s)
          s).pending_tasks) ∧
      ∃ extra, (views.foldl
          (fun s table => add_pending_refresh thread_created RefreshColumns schema table s)
          s).pending_tasks = s.pending_tasks ++ extra ∧
        ∀ u ∈ extra, u.type = RefreshColumns := by
  induction views with
  | nil =>
    intro s _
    exact ⟨fun view h => absurd h (List.not_mem_nil _), [], (List.append_nil _).symm,
      fun u hu => absurd hu (List.not_mem_nil _)⟩
  | cons a views ih =>
    intro s hs
    have hs1 : (add_pending_refresh thread_created RefreshColumns schema a s).shutdown
        = false := by rw [add_pending_refresh_shutdown]; exact hs
    obtain ⟨hnew, extra, hq, hkinds⟩ := ih _ hs1
    obtain ⟨e1, h1, _, k1⟩ := add_pending_refresh_append thread_created RefreshColumns schema a s
    rw [List.foldl_cons]
    refine ⟨?_, e1 ++ extra, ?_, ?_⟩
    · intro view hview
      rcases List.mem_cons.mp hview with rfl | hview
      · rw [hq]
        exact List.mem_append_left _ (add_pending_refresh_queued _ _ _ _ s hs (Or.inl rfl))
      · exact hnew view hview
    · rw [hq, h1, List.append_assoc]
    · intro u hu
      rcases List.mem_append.mp hu with hu | hu
      · exact k1 u hu
      · exact hkinds u hu


/-- `refresh_tables_w` on a running cache, for a schema that the server knows and a listing
that it returns: the requests for the listed tables, then the store write. -/
theorem refresh_tables_w_running (server : Server) (thread_created : Bool) (schema : String)
    (s : State) (rs1 : Option (List String)) (rows : List (String × String))
    (hrun : s.shutdown = false) (hschema : server.show_schemas_like schema = .result rs1)
    (hknown : has_row rs1 = true)
    (hlist : server.show_full_tables schema = .result (some rows)) :
    refresh_tables_w server thread_created schema s
      = some (update_object_names_in_schema "tables" schema
          ((rows.filter fun row => row.2 != "VIEW").map fun row => row.1)
          (((rows.filter fun row => row.2 != "VIEW").map fun row => row.1).foldl
            (fun s table =>
              add_pending_refresh thread_created RefreshTriggers schema table
                (add_pending_refresh thread_created RefreshColumns schema table s)) s)) := by
  obtain ⟨_, _, _, _, hsd⟩ := requests_of_tables thread_created schema
    ((rows.filter fun row => row.2 != "VIEW").map fun row => row.1) s
  unfold refresh_tables_w
  simp only [hschema, hknown, if_true, hlist, rows_read, hrun, Bool.false_eq_true, if_false]
  rw [hsd, hrun]
  rfl

/-- `refresh_views_w` on a running cache, for a schema that the server knows and a listing
that it returns: the requests for the listed views, then the store write. -/
theorem refresh_views_w_running (server : Server) (thread_created : Bool) (schema : String)
    (s : State) (rs1 : Option (List String)) (rows : List (String × String))
    (hrun : s.shutdown = false) (hschema : server.show_schemas_like schema = .result rs1)
    (hknown : has_row rs1 = true)
    (hlist : server.show_full_tables schema = .result (some rows)) :
    refresh_views_w server thread_created schema s
      = some (update_object_names_in_schema "views" schema
          ((rows.filter fun row => row.2 == "VIEW").map fun row => row.1)
          (((rows.filter fun row => row.2 == "VIEW").map fun row => row.1).foldl
            (fun s table => add_pending_refresh thread_created RefreshColumns schema table s)
            s)) := by
  obtain ⟨_, _, _, _, hsd⟩ := requests_of_views thread_created schema
    ((rows.filter fun row => row.2 == "VIEW").map fun row => row.1) s
  unfold refresh_views_w
  simp only [hschema, hknown, if_true, hlist, rows_read, hrun, Bool.false_eq_true, if_false]
  rw [hsd, hrun]
  rfl

/-- Where the tasks in the queue after the loop of `refresh_tables_w` come from. -/
theorem requests_of_tables_origin (thread_created : Bool) (schema : String)
    (tables : List String) :
    ∀ (s : State) (u : RefreshTask),
      u ∈ (tables.foldl
        (fun s table =>
          add_pending_refresh thread_created RefreshTriggers schema table
            (add_pending_refresh thread_created RefreshColumns schema table s))
        s).pending_tasks →
      u ∈ s.pending_tasks ∨
        ∃ table ∈ tables, u = ⟨RefreshColumns, schema, table⟩
          ∨ u = ⟨RefreshTriggers, schema, table⟩ := by
  induction tables with
  | nil => intro s u hu; exact Or.inl hu
  | cons a tables ih =>
    intro s u hu
    rw [List.foldl_cons] at hu
    rcases ih _ u hu with h | ⟨table, htable, h⟩
    · rcases add_pending_refresh_mem _ _ _ _ _ _ h with h | h
      · rcases add_pending_refresh_mem _ _ _ _ _ _ h with h | h
        · exact Or.inl h
        · exact Or.inr ⟨a, List.mem_cons_self _ _, Or.inl h⟩
      · exact Or.inr ⟨a, List.mem_cons_self _ _, Or.inr h⟩
    · exact Or.inr ⟨table, List.mem_cons_of_mem _ htable, h⟩


/-- C23, amended. On a running cache, for a schema that the server knows and every listing
that `SHOW FULL TABLES` returns, the table fetcher and after it the view fetcher return, and the
queue then holds a columns task and a triggers task for every listed table and a columns task
for every listed view. The view fetcher adds columns tasks only: a triggers task in the queue
was there before the two fetchers ran or belongs to a listed table. -/
theorem fetchers_request_child_tasks (server : Server) (thread_created : Bool)
    (schema : String) (s : State) (rs1 : Option (List String))
    (rows : List (String × String)) (hrun : s.shutdown = false)
    (hschema : server.show_schemas_like schema = .result rs1) (hknown : has_row rs1 = true)
    (hlist : server.show_full_tables schema = .result (some rows)) :
    ∃ s1 s2, refresh_tables_w server thread_created schema s = some s1 ∧
      refresh_views_w server thread_created schema s1 = some s2 ∧
      (∀ row ∈ rows, (⟨RefreshColumns, schema, row.1⟩ : RefreshTask) ∈ s2.pending_tasks) ∧
      (∀ row ∈ rows, row.2 ≠ "VIEW" →
        (⟨RefreshTriggers, schema, row.1⟩ : RefreshTask) ∈ s2.pending_tasks) ∧
      (∃ extra, s2.pending_tasks = s1.pending_tasks ++ extra ∧
        ∀ u ∈ extra, u.type = RefreshColumns) ∧
      (∀ u ∈ s2.pending_tasks, u.type = RefreshTriggers →
        u ∈ s.pending_tasks ∨
          ∃ row ∈ rows, row.2 ≠ "VIEW" ∧ u = ⟨RefreshTriggers, schema, row.1⟩) := by
  have ht := refresh_tables_w_running server thread_created schema s rs1 rows hrun hschema
    hknown hlist
  obtain ⟨hkeep, hnew⟩ := requests_of_tables_mem thread_created schema
    ((rows.filter fun row => row.2 != "VIEW").map fun row => row.1) s hrun
  have horigin := requests_of_tables_origin thread_created schema
    ((rows.filter fun row => row.2 != "VIEW").map fun row => row.1) s
  obtain ⟨_, _, _, _, hsd⟩ := requests_of_tables thread_created schema
    ((rows.filter fun row => row.2 != "VIEW").map fun row => row.1) s
  generalize (((rows.filter fun row => row.2 != "VIEW").map fun row => row.1).foldl
    (fun s table =>
      add_pending_refresh thread_created RefreshTriggers schema table
        (add_pending_refresh thread_created RefreshColumns schema table s)) s) = sf
    at ht hkeep hnew horigin hsd
  have hf1 := update_object_names_in_schema_frame "tables" schema
    ((rows.filter fun row => row.2 != "VIEW").map fun row => row.1) sf
  generalize update_object_names_in_schema "tables" schema
    ((rows.filter fun row => row.2 != "VIEW").map fun row => row.1) sf = s1 at ht hf1
  have hrun1 : s1.shutdown = false := by rw [hf1.2, hsd]; exact hrun
  have hv := refresh_views_w_running server thread_created schema s1 rs1 rows hrun1 hschema
    hknown hlist
  obtain ⟨hviews, extra, hq, hkinds⟩ := requests_of_views_mem thread_created schema
    ((rows.filter fun row => row.2 == "VIEW").map fun row => row.1) s1 hrun1
  generalize (((rows.filter fun row => row.2 == "VIEW").map fun row => row.1).foldl
    (fun s table => add_pending_refresh thread_created RefreshColumns schema table s) s1) = sg
    at hv hviews hq
  have hf2 := update_object_names_in_schema_frame "views" schema
    ((rows.filter fun row => row.2 == "VIEW").map fun row => row.1) sg
  generalize update_object_names_in_schema "views" schema
    ((rows.filter fun row => row.2 == "VIEW").map fun row => row.1) sg = s2 at hv hf2
  refine ⟨s1, s2, ht, hv, ?_, ?_, ⟨extra, by rw [hf2.1, hq], hkinds⟩, ?_⟩
  · intro row hrow
    rw [hf2.1]
    by_cases hview : row.2 = "VIEW"
    · apply hviews
      exact List.mem_map.mpr ⟨row, List.mem_filter.mpr ⟨hrow, by simp [hview]⟩, rfl⟩
    · rw [hq]
      apply List.mem_append_left
      rw [hf1.1]
      exact (hnew row.1
        (List.mem_map.mpr ⟨row, List.mem_filter.mpr ⟨hrow, by simp [hview]⟩, rfl⟩)).1
  · intro row hrow hview
    rw [hf2.1, hq]
    apply List.mem_append_left
    rw [hf1.1]
    exact (hnew row.1
      (List.mem_map.mpr ⟨row, List.mem_filter.mpr ⟨hrow, by simp [hview]⟩, rfl⟩)).2
  · intro u hu hkind
    rw [hf2.1, hq] at hu
    rcases List.mem_append.mp hu with hu | hu
    · rw [hf1.1] at hu
      rcases horigin u hu with h | ⟨table, htable, h | h⟩
      · exact Or.inl h
      · rw [h] at hkind
        cases hkind
      · obtain ⟨row, hrow, hname⟩ := List.mem_map.mp htable
        obtain ⟨hrow, htype⟩ := List.mem_filter.mp hrow
        refine Or.inr ⟨row, hrow, by simpa using htype, ?_⟩
        rw [h, hname]
    · rw [hkinds u hu] at hkind
      cases hkind

/-- Witness of C23, amended, on `table_scoped_state` and `sample_server`, whose listing of
`shop` holds the table `orders` and the view `v_orders`. -/
theorem fetchers_request_child_tasks_witness :
    table_scoped_state.shutdown = false ∧
    sample_server.show_schemas_like "shop" = .result (some ["shop"]) ∧
    has_row (some ["shop"]) = true ∧
    sample_server.show_full_tables "shop"
      = .result (some [("orders", "BASE TABLE"), ("v_orders", "VIEW")]) ∧
    ∃ s1 s2, refresh_tables_w sample_server true "shop" table_scoped_state = some s1 ∧
      refresh_views_w sample_server true "shop" s1 = some s2 ∧
      (∀ row ∈ [("orders", "BASE TABLE"), ("v_orders", "VIEW")],
        (⟨RefreshColumns, "shop", row.1⟩ : RefreshTask) ∈ s2.pending_tasks) ∧
      (∀ row ∈ [("orders", "BASE TABLE"), ("v_orders", "VIEW")], row.2 ≠ "VIEW" →
        (⟨RefreshTriggers, "shop", row.1⟩ : RefreshTask) ∈ s2.pending_tasks) ∧
      (∃ extra, s2.pending_tasks = s1.pending_tasks ++ extra ∧
        ∀ u ∈ extra, u.type = RefreshColumns) ∧
      (∀ u ∈ s2.pending_tasks, u.type = RefreshTriggers →
        u ∈ table_scoped_state.pending_tasks ∨
          ∃ row ∈ [("orders", "BASE TABLE"), ("v_orders", "VIEW")],
            row.2 ≠ "VIEW" ∧ u = ⟨RefreshTriggers, "shop", row.1⟩) :=
  ⟨rfl, rfl, rfl, rfl,
    fetchers_request_child_tasks sample_server true "shop" table_scoped_state
      (some ["shop"]) [("orders", "BASE TABLE"), ("v_orders", "VIEW")] rfl rfl rfl rfl⟩

/-- C23 as stated fails for the views. On `table_scoped_state`, whose queue is empty, and
`sample_server` the table fetcher and the view fetcher of `shop` discover the table `orders`
and the view `v_orders`; afterwards the queue holds the columns and the triggers task of
`orders` and the columns task of `v_orders`, and no triggers task of `v_orders`. -/
theorem fetchers_request_child_tasks_counterexample :
    table_scoped_state.shutdown = false ∧
    ((refresh_tables_w sample_server true "shop" table_scoped_state).bind
      (refresh_views_w sample_server true "shop")).map (fun s => (s.pending_tasks, s.shutdown))
      = some ([⟨RefreshColumns, "shop", "orders"⟩, ⟨RefreshTriggers, "shop", "orders"⟩,
          ⟨RefreshColumns, "shop", "v_orders"⟩], false) ∧
    ((refresh_tables_w sample_server true "shop" table_scoped_state).bind
      (refresh_views_w sample_server true "shop")).map (fun s => s.sqconn "views")
      = some [⟨"shop", "", "v_orders", 0⟩] ∧
    ¬ (∀ object ∈ ["orders", "v_orders"],
        (⟨RefreshColumns, "shop", object⟩ : RefreshTask)
          ∈ [⟨RefreshColumns, "shop", "orders"⟩, ⟨RefreshTriggers, "shop", "orders"⟩,
              ⟨RefreshColumns, "shop", "v_orders"⟩] ∧
        (⟨RefreshTriggers, "shop", object⟩ : RefreshTask)
          ∈ [⟨RefreshColumns, "shop", "orders"⟩, ⟨RefreshTriggers, "shop", "orders"⟩,
              ⟨RefreshColumns, "shop", "v_orders"⟩]) := by
  refine ⟨rfl, by decide, by decide, by decide⟩


/-! ## The rows after a scoped replace -/

/-- A run of inserts succeeds and appends its rows when no new row has the primary key of a
row that is there or of another new row. -/
theorem insert_rows_fresh (cache : String) :
    ∀ (news rows : List Row),
      (∀ r ∈ rows, ∀ n ∈ news, primary_key cache r ≠ primary_key cache n) →
      news.Pairwise (fun a b => primary_key cache a ≠ primary_key cache b) →
      insert_rows cache rows news = some (rows ++ news) := by
  intro news
  induction news with
  | nil => intro rows _ _; simp [insert_rows]
  | cons n news ih =>
    intro rows hrows hnews
    have hfree : rows.any (fun x => primary_key cache x == primary_key cache n) = false := by
      rw [List.any_eq_false]
      intro r hr
      simpa using hrows r hr n (List.mem_cons_self _ _)
    rw [insert_rows, insert_row, hfree]
    simp only [Bool.false_eq_true, if_false]
    rw [ih (rows ++ [n]) ?_ (List.pairwise_cons.mp hnews).2]
    · simp
    · intro r hr m hm
      rcases List.mem_append.mp hr with hr | hr
      · exact hrows r hr m (List.mem_cons_of_mem _ hm)
      · rw [List.mem_singleton.mp hr]
        exact (List.pairwise_cons.mp hnews).1 m hm

/-- The primary key of the schema scoped caches. -/
theorem primary_key_schema_scoped (cache : String) (r : Row)
    (hc : cache ∈ ["tables", "views", "functions", "procedures", "events"]) :
    primary_key cache r = [r.schema_id, r.name] := by
  simp only [List.mem_cons, List.mem_singleton, List.not_mem_nil, or_false] at hc
  rcases hc with rfl | rfl | rfl | rfl | rfl <;> simp [primary_key]

/-- The primary key of the table scoped caches. -/
theorem primary_key_table_scoped (cache : String) (r : Row)
    (hc : cache ∈ ["columns", "triggers"]) :
    primary_key cache r = [r.schema_id, r.table_id, r.name] := by
  simp only [List.mem_cons, List.mem_singleton, List.not_mem_nil, or_false] at hc
  rcases hc with rfl | rfl <;> simp [primary_key]

/-- The store after the schema scoped replace on a running cache, for a list without
repetition: the rows of the other schemas, then the new rows. -/
theorem update_object_names_in_schema_rows (cache schema : String) (objects : List String)
    (s : State) (hc : cache ∈ ["tables", "views", "functions", "procedures", "events"])
    (hrun : s.shutdown = false) (hnodup : objects.Nodup) :
    update_object_names_in_schema cache schema objects s
      = { s with sqconn := fun c =>
            if c = cache then
              ((s.sqconn cache).filter fun (r : Row) => r.schema_id != schema)
                ++ objects.map fun name => (⟨schema, "", name, 0⟩ : Row)
            else s.sqconn c } := by
  unfold update_object_names_in_schema
  rw [if_neg (by rw [hrun]; exact Bool.false_ne_true)]
  dsimp only
  rw [insert_rows_fresh]
  · rfl
  · intro r hr n hn
    obtain ⟨name, _, rfl⟩ := List.mem_map.mp hn
    rw [primary_key_schema_scoped cache r hc, primary_key_schema_scoped cache _ hc]
    have hne : r.schema_id ≠ schema := by simpa using (List.mem_filter.mp hr).2
    intro h
    exact hne (List.cons.inj h).1
  · rw [List.pairwise_map]
    apply hnodup.imp
    intro a b hab
    rw [primary_key_schema_scoped cache _ hc, primary_key_schema_scoped cache _ hc]
    intro h
    exact hab (List.cons.inj (List.cons.inj h).2).1

/-- The store after the table scoped replace on a running cache, for a list without
repetition: the rows of the other tables, then the new rows. -/
theorem update_object_names_in_table_rows (cache schema table : String)
    (objects : List String) (s : State) (hc : cache ∈ ["columns", "triggers"])
    (hrun : s.shutdown = false) (hnodup : objects.Nodup) :
    update_object_names_in_table cache schema table objects s
      = { s with sqconn := fun c =>
            if c = cache then
              ((s.sqconn cache).filter fun (r : Row) =>
                !(r.schema_id == schema && r.table_id == table))
                ++ objects.map fun name => (⟨schema, table, name, 0⟩ : Row)
            else s.sqconn c } := by
  unfold update_object_names_in_table
  rw [if_neg (by rw [hrun]; exact Bool.false_ne_true)]
  dsimp only
  rw [insert_rows_fresh]
  · rfl
  · intro r hr n hn
    obtain ⟨name, _, rfl⟩ := List.mem_map.mp hn
    rw [primary_key_table_scoped cache r hc, primary_key_table_scoped cache _ hc]
    have hne : ¬ (r.schema_id = schema ∧ r.table_id = table) := by
      intro hboth
      have hkept := (List.mem_filter.mp hr).2
      simp [hboth.1, hboth.2] at hkept
    intro h
    exact hne ⟨(List.cons.inj h).1, (List.cons.inj (List.cons.inj h).2).1⟩
  · rw [List.pairwise_map]
    apply hnodup.imp
    intro a b hab
    rw [primary_key_table_scoped cache _ hc, primary_key_table_scoped cache _ hc]
    intro h
    exact hab (List.cons.inj (List.cons.inj (List.cons.inj h).2).2).1


/-- The rows of a schema and the rows of the other schemas after a schema scoped replace. -/
theorem schema_rows_after_replace (rows : List Row) (schema : String)
    (objects : List String) :
    ((rows.filter (fun (r : Row) => r.schema_id != schema)
        ++ objects.map fun name => (⟨schema, "", name, 0⟩ : Row)).filter
      fun (r : Row) => r.schema_id == schema)
      = (objects.map fun name => (⟨schema, "", name, 0⟩ : Row)) ∧
    ((rows.filter (fun (r : Row) => r.schema_id != schema)
        ++ objects.map fun name => (⟨schema, "", name, 0⟩ : Row)).filter
      fun (r : Row) => r.schema_id != schema)
      = rows.filter (fun (r : Row) => r.schema_id != schema) := by
  constructor
  · rw [List.filter_append, List.filter_filter]
    have h1 : rows.filter (fun (r : Row) => r.schema_id == schema && r.schema_id != schema)
        = [] := by
      rw [List.filter_eq_nil_iff]
      intro r _
      by_cases h : r.schema_id = schema <;> simp [h]
    have h2 : (objects.map fun name => (⟨schema, "", name, 0⟩ : Row)).filter
        (fun (r : Row) => r.schema_id == schema)
        = objects.map fun name => (⟨schema, "", name, 0⟩ : Row) := by
      rw [List.filter_eq_self]
      intro r hr
      obtain ⟨name, _, rfl⟩ := List.mem_map.mp hr
      simp
    rw [h1, h2, List.nil_append]
  · rw [List.filter_append, List.filter_filter]
    have h1 : rows.filter (fun (r : Row) => r.schema_id != schema && r.schema_id != schema)
        = rows.filter (fun (r : Row) => r.schema_id != schema) := by
      apply List.filter_congr
      intro r _
      simp
    have h2 : (objects.map fun name => (⟨schema, "", name, 0⟩ : Row)).filter
        (fun (r : Row) => r.schema_id != schema) = [] := by
      rw [List.filter_eq_nil_iff]
      intro r hr
      obtain ⟨name, _, rfl⟩ := List.mem_map.mp hr
      simp
    rw [h1, h2, List.append_nil]

/-- The rows of a table and the rows of the other tables after a table scoped replace. -/
theorem table_rows_after_replace (rows : List Row) (schema table : String)
    (objects : List String) :
    ((rows.filter (fun (r : Row) => !(r.schema_id == schema && r.table_id == table))
        ++ objects.map fun name => (⟨schema, table, name, 0⟩ : Row)).filter
      fun (r : Row) => r.schema_id == schema && r.table_id == table)
      = (objects.map fun name => (⟨schema, table, name, 0⟩ : Row)) ∧
    ((rows.filter (fun (r : Row) => !(r.schema_id == schema && r.table_id == table))
        ++ objects.map fun name => (⟨schema, table, name, 0⟩ : Row)).filter
      fun (r : Row) => !(r.schema_id == schema && r.table_id == table))
      = rows.filter (fun (r : Row) => !(r.schema_id == schema && r.table_id == table)) := by
  constructor
  · rw [List.filter_append, List.filter_filter]
    have h1 : rows.filter (fun (r : Row) => (r.schema_id == schema && r.table_id == table)
        && !(r.schema_id == schema && r.table_id == table)) = [] := by
      rw [List.filter_eq_nil_iff]
      intro r _
      cases (r.schema_id == schema && r.table_id == table) <;> simp
    have h2 : (objects.map fun name => (⟨schema, table, name, 0⟩ : Row)).filter
        (fun (r : Row) => r.schema_id == schema && r.table_id == table)
        = objects.map fun name => (⟨schema, table, name, 0⟩ : Row) := by
      rw [List.filter_eq_self]
      intro r hr
      obtain ⟨name, _, rfl⟩ := List.mem_map.mp hr
      simp
    rw [h1, h2, List.nil_append]
  · rw [List.filter_append, List.filter_filter]
    have h1 : rows.filter (fun (r : Row) => !(r.schema_id == schema && r.table_id == table)
        && !(r.schema_id == schema && r.table_id == table))
        = rows.filter (fun (r : Row) => !(r.schema_id == schema && r.table_id == table)) := by
      apply List.filter_congr
      intro r _
      simp
    have h2 : (objects.map fun name => (⟨schema, table, name, 0⟩ : Row)).filter
        (fun (r : Row) => !(r.schema_id == schema && r.table_id == table)) = [] := by
      rw [List.filter_eq_nil_iff]
      intro r hr
      obtain ⟨name, _, rfl⟩ := List.mem_map.mp hr
      simp
    rw [h1, h2, List.append_nil]


/-- C29, amended. On a cache that is not shut down, for every store, every schema scoped cache
table (tables, views, functions, procedures, events), every schema and every object list
without repetition, `update_object_names(cache, schema, objects)` makes the rows of that cache
with `schema_id = schema` exactly the given objects, in their order, and leaves unchanged every
row of that cache with another `schema_id` and every other cache table. The table scoped form
does the same on `columns` and `triggers` for the rows with the given `schema_id` and
`table_id`. -/
theorem scoped_replace_touches_scope (cache tcache schema table : String)
    (objects : List String) (s : State) (hrun : s.shutdown = false)
    (hnodup : objects.Nodup) :
    (cache ∈ ["tables", "views", "functions", "procedures", "events"] →
      (((update_object_names_in_schema cache schema objects s).sqconn cache).filter
          fun (r : Row) => r.schema_id == schema)
        = (objects.map fun name => (⟨schema, "", name, 0⟩ : Row)) ∧
      (((update_object_names_in_schema cache schema objects s).sqconn cache).filter
          fun (r : Row) => r.schema_id != schema)
        = (s.sqconn cache).filter (fun (r : Row) => r.schema_id != schema) ∧
      ∀ c, c ≠ cache →
        (update_object_names_in_schema cache schema objects s).sqconn c = s.sqconn c) ∧
    (tcache ∈ ["columns", "triggers"] →
      (((update_object_names_in_table tcache schema table objects s).sqconn tcache).filter
          fun (r : Row) => r.schema_id == schema && r.table_id == table)
        = (objects.map fun name => (⟨schema, table, name, 0⟩ : Row)) ∧
      (((update_object_names_in_table tcache schema table objects s).sqconn tcache).filter
          fun (r : Row) => !(r.schema_id == schema && r.table_id == table))
        = (s.sqconn tcache).filter
            (fun (r : Row) => !(r.schema_id == schema && r.table_id == table)) ∧
      ∀ c, c ≠ tcache →
        (update_object_names_in_table tcache schema table objects s).sqconn c
          = s.sqconn c) := by
  constructor
  · intro hc
    rw [update_object_names_in_schema_rows cache schema objects s hc hrun hnodup]
    dsimp only
    rw [if_pos rfl]
    exact ⟨(schema_rows_after_replace _ schema objects).1,
      (schema_rows_after_replace _ schema objects).2, fun c hne => if_neg hne⟩
  · intro hc
    rw [update_object_names_in_table_rows tcache schema table objects s hc hrun hnodup]
    dsimp only
    rw [if_pos rfl]
    exact ⟨(table_rows_after_replace _ schema table objects).1,
      (table_rows_after_replace _ schema table objects).2, fun c hne => if_neg hne⟩

/-- Witness of C29, amended, on `sample_state`: the tables refresh of `shop` with the list
`invoices`, `orders` replaces the three tables of `shop` and keeps the table of `crm`. -/
theorem scoped_replace_touches_scope_witness :
    sample_state.shutdown = false ∧ ["invoices", "orders"].Nodup ∧
    ((((update_object_names_in_schema "tables" "shop" ["invoices", "orders"]
          sample_state).sqconn "tables").filter fun (r : Row) => r.schema_id == "shop")
        = (["invoices", "orders"].map fun name => (⟨"shop", "", name, 0⟩ : Row)) ∧
      (((update_object_names_in_schema "tables" "shop" ["invoices", "orders"]
          sample_state).sqconn "tables").filter fun (r : Row) => r.schema_id != "shop")
        = (sample_state.sqconn "tables").filter (fun (r : Row) => r.schema_id != "shop") ∧
      ∀ c, c ≠ "tables" →
        (update_object_names_in_schema "tables" "shop" ["invoices", "orders"]
          sample_state).sqconn c = sample_state.sqconn c) ∧
    (update_object_names_in_schema "tables" "shop" ["invoices", "orders"]
      sample_state).sqconn "tables"
      = [⟨"crm", "", "orders_archive", 0⟩, ⟨"shop", "", "invoices", 0⟩,
          ⟨"shop", "", "orders", 0⟩] :=
  ⟨rfl, by decide,
    (scoped_replace_touches_scope "tables" "columns" "shop" "orders" ["invoices", "orders"]
      sample_state rfl (by decide)).1 (by decide),
    by decide⟩

/-- C29 as stated fails on a cache that is shut down: on `stopped_state` the tables refresh of
`shop` with the list `customers` returns at its test of `_shutdown`, and the rows of `shop` are
still `orders` and `customers`; so are the columns of `shop.orders` after the table scoped
form with the list `id`. -/
theorem scoped_replace_touches_scope_counterexample :
    stopped_state.shutdown = true ∧ ["customers"].Nodup ∧
    (((update_object_names_in_schema "tables" "shop" ["customers"]
        stopped_state).sqconn "tables").filter fun (r : Row) => r.schema_id == "shop")
      = [⟨"shop", "", "orders", 0⟩, ⟨"shop", "", "customers", 0⟩] ∧
    (((update_object_names_in_schema "tables" "shop" ["customers"]
        stopped_state).sqconn "tables").filter fun (r : Row) => r.schema_id == "shop")
      ≠ (["customers"].map fun name => (⟨"shop", "", name, 0⟩ : Row)) ∧
    (((update_object_names_in_table "columns" "shop" "orders" ["id"]
        stopped_state).sqconn "columns").filter
        fun (r : Row) => r.schema_id == "shop" && r.table_id == "orders")
      ≠ (["id"].map fun name => (⟨"shop", "orders", name, 0⟩ : Row)) := by
  refine ⟨rfl, by decide, by decide, by decide, by decide⟩


/-! ## The classification of the table listing -/

/-- The requests of the table fetcher leave the store alone. -/
theorem requests_of_tables_sqconn (thread_created : Bool) (schema : String)
    (tables : List String) :
    ∀ s : State, (tables.foldl
      (fun s table =>
        add_pending_refresh thread_created RefreshTriggers schema table
          (add_pending_refresh thread_created RefreshColumns schema table s)) s).sqconn
      = s.sqconn := by
  induction tables with
  | nil => intro s; rfl
  | cons a tables ih =>
    intro s
    rw [List.foldl_cons, ih, add_pending_refresh_sqconn, add_pending_refresh_sqconn]

/-- The requests of the view fetcher leave the store alone. -/
theorem requests_of_views_sqconn (thread_created : Bool) (schema : String)
    (views : List String) :
    ∀ s : State, (views.foldl
      (fun s table => add_pending_refresh thread_created RefreshColumns schema table s)
      s).sqconn = s.sqconn := by
  induction views with
  | nil => intro s; rfl
  | cons a views ih =>
    intro s
    rw [List.foldl_cons, ih, add_pending_refresh_sqconn]

/-- The schema scoped replace on a running cache, for a list without repetition: the rows of
the schema are the new ones, the other cache tables are as they were. -/
theorem update_object_names_in_schema_scope (cache schema : String) (objects : List String)
    (s : State) (hc : cache ∈ ["tables", "views", "functions", "procedures", "events"])
    (hrun : s.shutdown = false) (hnodup : objects.Nodup) :
    (((update_object_names_in_schema cache schema objects s).sqconn cache).filter
        fun (r : Row) => r.schema_id == schema)
      = (objects.map fun name => (⟨schema, "", name, 0⟩ : Row)) ∧
    ∀ c, c ≠ cache →
      (update_object_names_in_schema cache schema objects s).sqconn c = s.sqconn c := by
  rw [update_object_names_in_schema_rows cache schema objects s hc hrun hnodup]
  dsimp only
  rw [if_pos rfl]
  exact ⟨(schema_rows_after_replace _ schema objects).1, fun c hne => if_neg hne⟩

/-- C24, amended. On a cache that is not shut down, for a schema that the server knows and
every list of (name, type) rows with distinct names that the table listing of the schema
returns, the table fetcher and after it the view fetcher return; the rows of the schema in the
`tables` cache are then exactly the listed names whose type is not `VIEW`, those in the `views`
cache exactly the listed names whose type is `VIEW`, each in listing order; and every listed
name is in exactly one of the two lists. -/
theorem fetchers_classify_listing (server : Server) (thread_created : Bool) (schema : String)
    (s : State) (rs1 : Option (List String)) (rows : List (String × String))
    (hrun : s.shutdown = false) (hschema : server.show_schemas_like schema = .result rs1)
    (hknown : has_row rs1 = true)
    (hlist : server.show_full_tables schema = .result (some rows))
    (hnames : (rows.map fun row => row.1).Nodup) :
    ∃ s1 s2, refresh_tables_w server thread_created schema s = some s1 ∧
      refresh_views_w server thread_created schema s1 = some s2 ∧
      ((s2.sqconn "tables").filter fun (r : Row) => r.schema_id == schema)
        = ((rows.filter fun row => row.2 != "VIEW").map
            fun row => (⟨schema, "", row.1, 0⟩ : Row)) ∧
      ((s2.sqconn "views").filter fun (r : Row) => r.schema_id == schema)
        = ((rows.filter fun row => row.2 == "VIEW").map
            fun row => (⟨schema, "", row.1, 0⟩ : Row)) ∧
      ∀ row ∈ rows,
        (row.1 ∈ ((rows.filter fun row => row.2 != "VIEW").map fun row => row.1) ∧
          row.1 ∉ ((rows.filter fun row => row.2 == "VIEW").map fun row => row.1)) ∨
        (row.1 ∈ ((rows.filter fun row => row.2 == "VIEW").map fun row => row.1) ∧
          row.1 ∉ ((rows.filter fun row => row.2 != "VIEW").map fun row => row.1)) := by
  have hT : ((rows.filter fun row => row.2 != "VIEW").map fun row => row.1).Nodup :=
    List.Nodup.sublist (List.Sublist.map _ (List.filter_sublist rows)) hnames
  have hV : ((rows.filter fun row => row.2 == "VIEW").map fun row => row.1).Nodup :=
    List.Nodup.sublist (List.Sublist.map _ (List.filter_sublist rows)) hnames
  have ht := refresh_tables_w_running server thread_created schema s rs1 rows hrun hschema
    hknown hlist
  obtain ⟨_, _, _, _, hsd⟩ := requests_of_tables thread_created schema
    ((rows.filter fun row => row.2 != "VIEW").map fun row => row.1) s
  have hsq := requests_of_tables_sqconn thread_created schema
    ((rows.filter fun row => row.2 != "VIEW").map fun row => row.1) s
  generalize (((rows.filter fun row => row.2 != "VIEW").map fun row => row.1).foldl
    (fun s table =>
      add_pending_refresh thread_created RefreshTriggers schema table
        (add_pending_refresh thread_created RefreshColumns schema table s)) s) = sf
    at ht hsd hsq
  have hrunf : sf.shutdown = false := hsd.trans hrun
  have hscope1 := update_object_names_in_schema_scope "tables" schema _ sf (by decide) hrunf hT
  have hf1 := update_object_names_in_schema_frame "tables" schema
    ((rows.filter fun row => row.2 != "VIEW").map fun row => row.1) sf
  generalize update_object_names_in_schema "tables" schema
    ((rows.filter fun row => row.2 != "VIEW").map fun row => row.1) sf = s1
    at ht hf1 hscope1
  have hrun1 : s1.shutdown = false := hf1.2.trans hrunf
  have hv := refresh_views_w_running server thread_created schema s1 rs1 rows hrun1 hschema
    hknown hlist
  obtain ⟨_, _, _, _, hsd2⟩ := requests_of_views thread_created schema
    ((rows.filter fun row => row.2 == "VIEW").map fun row => row.1) s1
  have hsq2 := requests_of_views_sqconn thread_created schema
    ((rows.filter fun row => row.2 == "VIEW").map fun row => row.1) s1
  generalize (((rows.filter fun row => row.2 == "VIEW").map fun row => row.1).foldl
    (fun s table => add_pending_refresh thread_created RefreshColumns schema table s) s1) = sg
    at hv hsd2 hsq2
  have hrung : sg.shutdown = false := hsd2.trans hrun1
  have hscope2 := update_object_names_in_schema_scope "views" schema _ sg (by decide) hrung hV
  generalize update_object_names_in_schema "views" schema
    ((rows.filter fun row => row.2 == "VIEW").map fun row => row.1) sg = s2 at hv hscope2
  refine ⟨s1, s2, ht, hv, ?_, ?_, ?_⟩
  · rw [hscope2.2 "tables" (by decide), hsq2, hscope1.1, List.map_map]
    rfl
  · rw [hscope2.1, List.map_map]
    rfl
  · intro row hrow
    have hinj := List.inj_on_of_nodup_map hnames
    by_cases hview : row.2 = "VIEW"
    · right
      refine ⟨List.mem_map.mpr ⟨row, List.mem_filter.mpr ⟨hrow, by simp [hview]⟩, rfl⟩, ?_⟩
      intro hmem
      obtain ⟨other, hother, hname⟩ := List.mem_map.mp hmem
      obtain ⟨hother, htype⟩ := List.mem_filter.mp hother
      have := hinj hother hrow hname
      rw [this] at htype
      simp [hview] at htype
    · left
      refine ⟨List.mem_map.mpr ⟨row, List.mem_filter.mpr ⟨hrow, by simp [hview]⟩, rfl⟩, ?_⟩
      intro hmem
      obtain ⟨other, hother, hname⟩ := List.mem_map.mp hmem
      obtain ⟨hother, htype⟩ := List.mem_filter.mp hother
      have := hinj hother hrow hname
      rw [this] at htype
      simp [hview] at htype


/-- Witness of C24, amended, on `table_scoped_state` and `sample_server`: of the listing
`orders` (a base table) and `v_orders` (a view) the first name is stored in `tables` and the
second in `views`. -/
theorem fetchers_classify_listing_witness :
    table_scoped_state.shutdown = false ∧
    sample_server.show_schemas_like "shop" = .result (some ["shop"]) ∧
    has_row (some ["shop"]) = true ∧
    sample_server.show_full_tables "shop"
      = .result (some [("orders", "BASE TABLE"), ("v_orders", "VIEW")]) ∧
    ([("orders", "BASE TABLE"), ("v_orders", "VIEW")].map fun row => row.1).Nodup ∧
    (∃ s1 s2, refresh_tables_w sample_server true "shop" table_scoped_state = some s1 ∧
      refresh_views_w sample_server true "shop" s1 = some s2 ∧
      ((s2.sqconn "tables").filter fun (r : Row) => r.schema_id == "shop")
        = (([("orders", "BASE TABLE"), ("v_orders", "VIEW")].filter
            fun row => row.2 != "VIEW").map fun row => (⟨"shop", "", row.1, 0⟩ : Row)) ∧
      ((s2.sqconn "views").filter fun (r : Row) => r.schema_id == "shop")
        = (([("orders", "BASE TABLE"), ("v_orders", "VIEW")].filter
            fun row => row.2 == "VIEW").map fun row => (⟨"shop", "", row.1, 0⟩ : Row)) ∧
      ∀ row ∈ [("orders", "BASE TABLE"), ("v_orders", "VIEW")],
        (row.1 ∈ (([("orders", "BASE TABLE"), ("v_orders", "VIEW")].filter
              fun row => row.2 != "VIEW").map fun row => row.1) ∧
          row.1 ∉ (([("orders", "BASE TABLE"), ("v_orders", "VIEW")].filter
              fun row => row.2 == "VIEW").map fun row => row.1)) ∨
        (row.1 ∈ (([("orders", "BASE TABLE"), ("v_orders", "VIEW")].filter
              fun row => row.2 == "VIEW").map fun row => row.1) ∧
          row.1 ∉ (([("orders", "BASE TABLE"), ("v_orders", "VIEW")].filter
              fun row => row.2 != "VIEW").map fun row => row.1))) ∧
    ((refresh_tables_w sample_server true "shop" table_scoped_state).bind
      (refresh_views_w sample_server true "shop")).map
      (fun s => (s.sqconn "tables", s.sqconn "views"))
      = some ([⟨"shop", "", "orders", 0⟩], [⟨"shop", "", "v_orders", 0⟩]) :=
  ⟨rfl, rfl, rfl, rfl, by decide,
    fetchers_classify_listing sample_server true "shop" table_scoped_state (some ["shop"])
      [("orders", "BASE TABLE"), ("v_orders", "VIEW")] rfl rfl rfl rfl (by decide),
    by decide⟩

/-- C24 as stated fails on a cache that is shut down and for a listing that repeats a name.
On `stopped_state` the table fetcher reads no row of the listing of `sample_server` and writes
nothing: the `tables` cache still holds `orders` and `customers` for `shop`, not the one listed
table `orders`, and the `views` cache does not hold the listed view. On the running
`table_scoped_state`, with a listing that names the table `t` twice, the second insert fails
and the cached tables of `shop` are as before. -/
theorem fetchers_classify_listing_counterexample :
    stopped_state.shutdown = true ∧
    (refresh_tables_w sample_server true "shop" stopped_state).map
      (fun s => (s.sqconn "tables").filter fun (r : Row) => r.schema_id == "shop")
      = some [⟨"shop", "", "orders", 0⟩, ⟨"shop", "", "customers", 0⟩] ∧
    (([("orders", "BASE TABLE"), ("v_orders", "VIEW")].filter
        fun row => row.2 != "VIEW").map fun row => (⟨"shop", "", row.1, 0⟩ : Row))
      = [⟨"shop", "", "orders", 0⟩] ∧
    (refresh_views_w sample_server true "shop" stopped_state).map
      (fun s => (s.sqconn "views").filter fun (r : Row) => r.schema_id == "shop")
      = some [] ∧
    table_scoped_state.shutdown = false ∧
    repeating_server.show_full_tables "shop"
      = .result (some [("t", "BASE TABLE"), ("t", "BASE TABLE")]) ∧
    (refresh_tables_w repeating_server true "shop" table_scoped_state).map
      (fun s => (s.sqconn "tables").filter fun (r : Row) => r.schema_id == "shop")
      = some [⟨"shop", "", "orders", 0⟩, ⟨"shop", "", "customers", 0⟩] := by
  refine ⟨rfl, by decide, by decide, by decide, rfl, rfl, by decide⟩


/-! ## Refresh times -/

theorem insert_rows_mem (cache : String) :
    ∀ (news rows out : List Row), insert_rows cache rows news = some out →
      ∀ r ∈ out, r ∈ rows ∨ r ∈ news := by
  intro news
  induction news with
  | nil =>
    intro rows out h r hr
    simp only [insert_rows, Option.some.injEq] at h
    rw [← h] at hr
    exact Or.inl hr
  | cons n news ih =>
    intro rows out h r hr
    rw [insert_rows] at h
    unfold insert_row at h
    split at h
    · cases h
    · rename_i rows' heq
      split at heq
      · cases heq
      · simp only [Option.some.injEq] at heq
        subst heq
        rcases ih _ out h r hr with h1 | h1
        · rcases List.mem_append.mp h1 with h2 | h2
          · exact Or.inl h2
          · rw [List.mem_singleton.mp h2]
            exact Or.inr (List.mem_cons_self _ _)
        · exact Or.inr (List.mem_cons_of_mem _ h1)

theorem old_schema_update_times_some (rows : List Row) :
    ∀ (k : String) (v : Int), old_schema_update_times rows k = some v →
      ∃ r ∈ rows, r.last_refresh = v := by
  induction rows using List.reverseRecOn with
  | nil => intro k v h; cases h
  | append_singleton rows x ih =>
    intro k v h
    rw [old_schema_update_times_append] at h
    split at h
    · dsimp only at h
      split at h
      · simp only [Option.some.injEq] at h
        exact ⟨x, by simp, h⟩
      · obtain ⟨r, hr, hv⟩ := ih k v h
        exact ⟨r, List.mem_append_left _ hr, hv⟩
    · obtain ⟨r, hr, hv⟩ := ih k v h
      exact ⟨r, List.mem_append_left _ hr, hv⟩

theorem transaction_cold (cache : String) (result : Option (List Row)) (s : State)
    (hs : all_cold s) (h : ∀ rows, result = some rows → ∀ r ∈ rows, r.last_refresh = 0) :
    all_cold (transaction cache result s) := by
  unfold transaction
  cases result with
  | none => exact hs
  | some rows =>
    intro c r hr
    dsimp only at hr
    split at hr
    · exact h rows rfl r hr
    · exact hs c r hr

theorem update_object_names_cold (cache : String) (objects : List String) (s : State)
    (hs : all_cold s) : all_cold (update_object_names cache objects s) := by
  unfold update_object_names
  split
  · exact hs
  · apply transaction_cold _ _ _ hs
    intro rows hrows r hr
    rcases insert_rows_mem _ _ _ _ hrows r hr with h | h
    · cases h
    · obtain ⟨name, _, rfl⟩ := List.mem_map.mp h
      rfl

theorem update_object_names_in_schema_cold (cache schema : String) (objects : List String)
    (s : State) (hs : all_cold s) :
    all_cold (update_object_names_in_schema cache schema objects s) := by
  unfold update_object_names_in_schema
  split
  · exact hs
  · apply transaction_cold _ _ _ hs
    intro rows hrows r hr
    rcases insert_rows_mem _ _ _ _ hrows r hr with h | h
    · exact hs cache r (List.mem_filter.mp h).1
    · obtain ⟨name, _, rfl⟩ := List.mem_map.mp h
      rfl

theorem update_object_names_in_table_cold (cache schema table : String)
    (objects : List String) (s : State) (hs : all_cold s) :
    all_cold (update_object_names_in_table cache schema table objects s) := by
  unfold update_object_names_in_table
  split
  · exact hs
  · apply transaction_cold _ _ _ hs
    intro rows hrows r hr
    rcases insert_rows_mem _ _ _ _ hrows r hr with h | h
    · exact hs cache r (List.mem_filter.mp h).1
    · obtain ⟨name, _, rfl⟩ := List.mem_map.mp h
      rfl

theorem update_schemas_cold (schemas : List String) (s : State) (hs : all_cold s) :
    all_cold (update_schemas schemas s) := by
  unfold update_schemas
  split
  · exact hs
  · apply transaction_cold _ _ _ hs
    intro rows hrows r hr
    split at hrows
    · rcases insert_rows_mem _ _ _ _ hrows r hr with h | h
      · cases h
      · rw [List.mem_singleton.mp h]
    · rcases insert_rows_mem _ _ _ _ hrows r hr with h | h
      · cases h
      · obtain ⟨t, _, rfl⟩ := List.mem_map.mp h
        dsimp only
        split
        · rfl
        · rename_i v hv
          obtain ⟨old, hold, hval⟩ := old_schema_update_times_some _ _ _ hv
          rw [← hval]
          exact hs "schemas" old hold

theorem all_cold_of_sqconn (s s' : State) (h : s'.sqconn = s.sqconn) (hs : all_cold s) :
    all_cold s' := by
  intro c r hr
  rw [h] at hr
  exact hs c r hr


theorem guarded_cold (update : State → State) (s : State) (hs : all_cold s)
    (h : all_cold (update s)) : all_cold (if (!s.shutdown) = true then update s else s) := by
  split
  · exact h
  · exact hs

/-- No fetcher writes a refresh time. -/
theorem dispatch_cold (server : Server) (thread_created : Bool) (task : RefreshTask)
    (s s' : State) (hs : all_cold s) (h : dispatch server thread_created task s = some s') :
    all_cold s' := by
  unfold dispatch at h
  cases ht : task.type
  case RefreshSchemas =>
    rw [ht] at h
    dsimp only at h
    split at h
    · cases h
    · simp only [Option.some.injEq] at h
      subst h
      unfold refresh_schemas_w
      exact guarded_cold _ s hs (update_schemas_cold _ s hs)
  case RefreshTables =>
    rw [ht] at h
    simp only [refresh_tables_w] at h
    split at h
    · cases h
    · split at h
      · split at h
        · cases h
        · simp only [Option.some.injEq] at h
          subst h
          split
          · exact update_object_names_in_schema_cold _ _ _ _
              (all_cold_of_sqconn s _ (requests_of_tables_sqconn _ _ _ s) hs)
          · exact all_cold_of_sqconn s _ (requests_of_tables_sqconn _ _ _ s) hs
      · simp only [Option.some.injEq] at h
        subst h
        exact guarded_cold _ s hs (update_object_names_in_schema_cold _ _ _ s hs)
  case RefreshViews =>
    rw [ht] at h
    simp only [refresh_views_w] at h
    split at h
    · cases h
    · split at h
      · split at h
        · cases h
        · simp only [Option.some.injEq] at h
          subst h
          split
          · exact update_object_names_in_schema_cold _ _ _ _
              (all_cold_of_sqconn s _ (requests_of_views_sqconn _ _ _ s) hs)
          · exact all_cold_of_sqconn s _ (requests_of_views_sqconn _ _ _ s) hs
      · simp only [Option.some.injEq] at h
        subst h
        exact guarded_cold _ s hs (update_object_names_in_schema_cold _ _ _ s hs)
  all_goals
    rw [ht] at h
    simp only [refresh_procedures_w, refresh_functions_w, refresh_columns_w,
      refresh_triggers_w, refresh_udfs_w, refreshCharsets_w, refreshCollations_w,
      refresh_variables_w, refresh_engines_w, refresh_logfile_groups_w, refresh_tablespaces_w,
      refreshEvents_w] at h
    split at h
    · cases h
    · simp only [Option.some.injEq] at h
      subst h
      first
        | exact guarded_cold _ s hs (update_object_names_cold _ _ s hs)
        | exact guarded_cold _ s hs (update_object_names_in_schema_cold _ _ _ s hs)
        | exact guarded_cold _ s hs (update_object_names_in_table_cold _ _ _ _ s hs)

theorem get_pending_refresh_sqconn (s : State) :
    (get_pending_refresh s).2.sqconn = s.sqconn := by
  unfold get_pending_refresh
  split
  · rfl
  · split <;> rfl

/-- The public calls leave the store alone. -/
theorem call_apply_sqconn (escape_sql_string : String → String) (call : Call) (s : State) :
    (call.apply escape_sql_string s).sqconn = s.sqconn := by
  cases call <;>
    simp only [Call.apply, get_matching_schema_names, get_matching_table_names,
      get_matching_view_names, get_matching_column_names, get_matching_procedure_names,
      get_matching_function_names, get_matching_trigger_names, get_matching_udf_names,
      get_matching_variables, get_matching_engines, get_matching_logfile_groups,
      get_matching_tablespaces, get_matching_charsets, get_matching_collations,
      get_matching_events, refresh_schema_list, refresh_columns, refresh_triggers,
      refresh_udfs, refresh_tablespaces, refresh_logfile_groups, refresh_events,
      refresh_schema_cache_if_needed_sqconn, add_pending_refresh_sqconn,
      get_pending_refresh_sqconn]

theorem shutdown_sqconn (s : State) : (shutdown s).sqconn = s.sqconn := by
  unfold shutdown refresh_cache_thread_exit worker_posts worker_leaves_loop
  dsimp only
  split
  · split
    · simp only []
      split <;> rfl
    · split
      · simp only []
        split <;> rfl
      · rfl
  · rfl

theorem store_op_cold (escape_sql_string : String → String) (op : StoreOp) (s : State)
    (hs : all_cold s) : all_cold (op.apply escape_sql_string s) := by
  cases op with
  | fetch server thread_created task =>
    simp only [StoreOp.apply]
    split
    · rename_i s' h
      exact dispatch_cold server thread_created task s s' hs h
    · exact hs
  | update_schemas schemas => exact update_schemas_cold _ s hs
  | update_object_names cache objects => exact update_object_names_cold _ _ s hs
  | update_object_names_in_schema cache schema objects =>
    exact update_object_names_in_schema_cold _ _ _ s hs
  | update_object_names_in_table cache schema table objects =>
    exact update_object_names_in_table_cold _ _ _ _ s hs
  | call c => exact all_cold_of_sqconn s _ (call_apply_sqconn _ c s) hs
  | shutdown => exact all_cold_of_sqconn s _ (shutdown_sqconn s) hs

theorem run_store_ops_cold (escape_sql_string : String → String) (ops : List StoreOp) :
    ∀ s : State, all_cold s → all_cold (run_store_ops escape_sql_string ops s) := by
  induction ops with
  | nil => intro s hs; exact hs
  | cons op ops ih =>
    intro s hs
    exact ih _ (store_op_cold escape_sql_string op s hs)


/-- C25: no schema ever becomes warm. In every state that is reached from a freshly
initialised store through the fetchers of the worker (against any server), the update routines,
the public calls and `shutdown`, every row of `schemas` has `last_refresh = 0`, and while the
cache is not shut down `refresh_schema_cache_if_needed(schema)` returns true for every
non-empty schema, on every call. The one routine that writes another value is
`touch_schema_record`, which none of these operations runs: after it the row of the schema
carries the time it was given, and the stale check of that schema returns false. -/
theorem no_schema_becomes_warm (escape_sql_string : String → String) (ops : List StoreOp)
    (s0 : State) (h0 : s0.sqconn = init_db) :
    (∀ r ∈ (run_store_ops escape_sql_string ops s0).sqconn "schemas", r.last_refresh = 0) ∧
    (∀ (thread_created : Bool) (schema : String), schema ≠ "" →
      (run_store_ops escape_sql_string ops s0).shutdown = false →
      (refresh_schema_cache_if_needed escape_sql_string thread_created schema
        (run_store_ops escape_sql_string ops s0)).1 = true) ∧
    (∀ (now : Int) (schema : String) (s : State),
      ∃ r ∈ (touch_schema_record now schema s).sqconn "schemas",
        r.name = schema ∧ r.last_refresh = now) ∧
    (refresh_schema_cache_if_needed escape_like_wildcards true "shop"
      (touch_schema_record 1700000000 "shop" table_scoped_state)).1 = false := by
  have hcold0 : all_cold s0 := by
    intro c r hr
    rw [h0] at hr
    cases hr
  have hcold := run_store_ops_cold escape_sql_string ops s0 hcold0
  generalize run_store_ops escape_sql_string ops s0 = s at hcold
  refine ⟨hcold "schemas", ?_, ?_, by decide⟩
  · intro thread_created schema hne hrun
    have hemp : ¬ schema.isEmpty = true := by
      rw [String.isEmpty_iff]; exact hne
    have hcached : ∀ rows : List Row, (∀ r ∈ rows, r.last_refresh = 0) →
        (match rows with
          | r :: _ => r.last_refresh != 0
          | [] => false) = false := by
      intro rows hrows
      cases rows with
      | nil => rfl
      | cons r rest => simp [hrows r (List.mem_cons_self _ _)]
    unfold refresh_schema_cache_if_needed
    rw [if_neg hemp, if_neg (by rw [hrun]; exact Bool.false_ne_true)]
    dsimp only
    rw [hcached _ (fun r hr => hcold "schemas" r (List.mem_filter.mp hr).1)]
    rfl
  · intro now schema s
    unfold touch_schema_record
    split
    · rename_i hany
      obtain ⟨r, hr, hname⟩ := List.any_eq_true.mp hany
      refine ⟨{ r with last_refresh := now }, ?_, by simpa using hname, rfl⟩
      dsimp only
      rw [if_pos rfl]
      exact List.mem_map.mpr ⟨r, hr, by rw [if_pos hname]⟩
    · refine ⟨⟨"", "", schema, now⟩, ?_, rfl, rfl⟩
      dsimp only
      rw [if_pos rfl]
      exact List.mem_append_right _ (List.mem_singleton_self _)

/-- Witness of C25: after the constructor on a new store, the schema list fetch from
`sample_server`, a query for the tables of `shop` and the tables fetch of `shop`, the two
schemas are cached without a refresh time and the stale check of `shop` returns true. -/
theorem no_schema_becomes_warm_witness :
    (new init_db true true).sqconn = init_db ∧
    ((∀ r ∈ (run_store_ops escape_like_wildcards
        [StoreOp.fetch sample_server true ⟨RefreshSchemas, "", ""⟩,
          StoreOp.call (Call.get_matching_table_names true "shop" ""),
          StoreOp.fetch sample_server true ⟨RefreshTables, "shop", ""⟩]
        (new init_db true true)).sqconn "schemas", r.last_refresh = 0) ∧
      (∀ (thread_created : Bool) (schema : String), schema ≠ "" →
        (run_store_ops escape_like_wildcards
          [StoreOp.fetch sample_server true ⟨RefreshSchemas, "", ""⟩,
            StoreOp.call (Call.get_matching_table_names true "shop" ""),
            StoreOp.fetch sample_server true ⟨RefreshTables, "shop", ""⟩]
          (new init_db true true)).shutdown = false →
        (refresh_schema_cache_if_needed escape_like_wildcards thread_created schema
          (run_store_ops escape_like_wildcards
            [StoreOp.fetch sample_server true ⟨RefreshSchemas, "", ""⟩,
              StoreOp.call (Call.get_matching_table_names true "shop" ""),
              StoreOp.fetch sample_server true ⟨RefreshTables, "shop", ""⟩]
            (new init_db true true))).1 = true)) ∧
    (run_store_ops escape_like_wildcards
      [StoreOp.fetch sample_server true ⟨RefreshSchemas, "", ""⟩,
        StoreOp.call (Call.get_matching_table_names true "shop" ""),
        StoreOp.fetch sample_server true ⟨RefreshTables, "shop", ""⟩]
      (new init_db true true)).sqconn "schemas"
      = [⟨"", "", "shop", 0⟩, ⟨"", "", "crm", 0⟩] ∧
    (refresh_schema_cache_if_needed escape_like_wildcards true "shop"
      (run_store_ops escape_like_wildcards
        [StoreOp.fetch sample_server true ⟨RefreshSchemas, "", ""⟩,
          StoreOp.call (Call.get_matching_table_names true "shop" ""),
          StoreOp.fetch sample_server true ⟨RefreshTables, "shop", ""⟩]
        (new init_db true true))).1 = true :=
  ⟨rfl,
    ⟨(no_schema_becomes_warm escape_like_wildcards
        [StoreOp.fetch sample_server true ⟨RefreshSchemas, "", ""⟩,
          StoreOp.call (Call.get_matching_table_names true "shop" ""),
          StoreOp.fetch sample_server true ⟨RefreshTables, "shop", ""⟩]
        (new init_db true true) rfl).1,
      (no_schema_becomes_warm escape_like_wildcards
        [StoreOp.fetch sample_server true ⟨RefreshSchemas, "", ""⟩,
          StoreOp.call (Call.get_matching_table_names true "shop" ""),
          StoreOp.fetch sample_server true ⟨RefreshTables, "shop", ""⟩]
        (new init_db true true) rfl).2.1⟩,
    by decide, by decide⟩


/-! ## The permit after a failed thread creation -/

/-- A step in which `base::create_thread` fails, taken with the one permit available and no
worker, leaves no permit and no worker. -/
theorem failed_spawn_takes_permit (step : Step) (s s1 : State)
    (hfail : step.thread_created = false) (hs : s.shutdown = false)
    (hpermit : s.cache_working = 1) (hidle : active_workers s = 0)
    (h : step.apply s = some s1) :
    s1.shutdown = false ∧ s1.cache_working = 0 ∧ active_workers s1 = 0 := by
  unfold active_workers at hidle
  have hl : s.workers_looping = 0 := by omega
  have hv : s.workers_leaving = 0 := by omega
  cases step with
  | add_pending_refresh thread_created type schema table =>
    simp only [Step.thread_created] at hfail
    subst hfail
    simp only [Step.apply, Option.some.injEq] at h
    subst h
    unfold add_pending_refresh create_worker_thread active_workers
    cases hq : s.pending_tasks with
    | nil => cases hr : s.refresh_thread <;> simp [hs, hpermit, hl, hv, hr]
    | cons t q =>
      cases hany : (t :: q).any (fun i => same_request i type schema table) <;>
        cases hr : s.refresh_thread <;> simp [hs, hpermit, hl, hv, hr, hany] <;>
        simp_all
  | create_worker_thread thread_created =>
    simp only [Step.thread_created] at hfail
    subst hfail
    simp only [Step.apply, Option.some.injEq] at h
    subst h
    unfold create_worker_thread active_workers
    cases hr : s.refresh_thread <;> simp [hs, hpermit, hl, hv, hr]
  | pop => cases hfail
  | observe_empty => cases hfail
  | release_permit => cases hfail

/-- With no permit and no worker, every sequence of steps that can be taken consists of steps
of callers, keeps the permit count and the number of workers at 0, and only appends to the
queue. -/
theorem no_permit_forever (later : List Step) :
    ∀ s1 s' : State, s1.shutdown = false → s1.cache_working = 0 → active_workers s1 = 0 →
      run_steps later s1 = some s' →
      s'.shutdown = false ∧ s'.cache_working = 0 ∧ active_workers s' = 0 ∧
      (∀ step ∈ later, step.is_worker_step = false) ∧
      ∃ extra, s'.pending_tasks = s1.pending_tasks ++ extra := by
  induction later with
  | nil =>
    intro s1 s' hs hp hw h
    simp only [run_steps, Option.some.injEq] at h
    subst h
    exact ⟨hs, hp, hw, fun step hstep => absurd hstep (List.not_mem_nil _), [],
      (List.append_nil _).symm⟩
  | cons step later ih =>
    intro s1 s' hs hp hw h
    simp only [run_steps] at h
    split at h
    · rename_i s2 h2
      have hsum := step_apply_sum step s1 s2 hs h2
      have hp2 : s2.cache_working = 0 := by omega
      have hw2 : active_workers s2 = 0 := by omega
      obtain ⟨hs', hp', hw', hsteps, extra, hq⟩ := ih s2 s' hsum.1 hp2 hw2 h
      have hstep : step.is_worker_step = false ∧
          ∃ e, s2.pending_tasks = s1.pending_tasks ++ e := by
        unfold active_workers at hw
        have hl : s1.workers_looping = 0 := by omega
        have hv : s1.workers_leaving = 0 := by omega
        cases step with
        | add_pending_refresh thread_created type schema table =>
          simp only [Step.apply, Option.some.injEq] at h2
          subst h2
          obtain ⟨e, he, _⟩ := add_pending_refresh_append thread_created type schema table s1
          exact ⟨rfl, e, he⟩
        | create_worker_thread thread_created =>
          simp only [Step.apply, Option.some.injEq] at h2
          subst h2
          exact ⟨rfl, [], by rw [create_worker_thread_pending, List.append_nil]⟩
        | pop => simp [Step.apply, hl] at h2
        | observe_empty => simp [Step.apply, hl] at h2
        | release_permit => simp [Step.apply, hv] at h2
      obtain ⟨hkind, e, he⟩ := hstep
      refine ⟨hs', hp', hw', ?_, e ++ extra, by rw [hq, he, List.append_assoc]⟩
      intro st hst
      rcases List.mem_cons.mp hst with rfl | hst
      · exact hkind
      · exact hsteps st hst
    · cases h

/-- C26: the permit is lost on a failed spawn. When a step of a caller finds the permit and
`base::create_thread` fails in it, then in every state that later steps reach the permit count
is 0 and no worker is active, every call of `create_worker_thread` returns the state unchanged,
no step of a worker can be taken, and the queue only grows: the tasks enqueued afterwards are
never popped. -/
theorem permit_lost_on_failed_spawn (store : Store) (feedback : Bool)
    (before later : List Step) (failing : Step) (s s1 s' : State)
    (hreach : run_steps before (initial store feedback) = some s)
    (hpermit : 0 < s.cache_working) (hfail : failing.thread_created = false)
    (h1 : failing.apply s = some s1) (hlater : run_steps later s1 = some s') :
    s'.shutdown = false ∧ s'.cache_working = 0 ∧ active_workers s' = 0 ∧
    (∀ thread_created, create_worker_thread thread_created s' = s') ∧
    (∀ step ∈ later, step.is_worker_step = false) ∧
    (∀ step : Step, step.is_worker_step = true → step.apply s' = none) ∧
    ∃ extra, s'.pending_tasks = s1.pending_tasks ++ extra := by
  have hsum := run_steps_sum before (initial store feedback) s rfl hreach
  have h0 : (initial store feedback).cache_working + active_workers (initial store feedback)
      = 1 := rfl
  rw [h0] at hsum
  obtain ⟨hs1, hp1, hw1⟩ := failed_spawn_takes_permit failing s s1 hfail hsum.1 (by omega)
    (by omega) h1
  obtain ⟨hs', hp', hw', hsteps, extra, hq⟩ := no_permit_forever later s1 s' hs1 hp1 hw1 hlater
  refine ⟨hs', hp', hw', ?_, hsteps, ?_, extra, hq⟩
  · intro thread_created
    unfold create_worker_thread
    simp [hp']
  · intro step hstep
    unfold active_workers at hw'
    have hl : s'.workers_looping = 0 := by omega
    have hv : s'.workers_leaving = 0 := by omega
    cases step <;> simp [Step.is_worker_step] at hstep <;> simp [Step.apply, hl, hv]

/-- Witness of C26: on a new cache the first request meets a failing `base::create_thread`;
a second request and a call of `create_worker_thread`, both with a thread creation that would
succeed, start no worker, and the two tasks stay queued. -/
theorem permit_lost_on_failed_spawn_witness :
    run_steps [] (initial init_db true) = some (initial init_db true) ∧
    0 < (initial init_db true).cache_working ∧
    (Step.add_pending_refresh false RefreshSchemas "" "").thread_created = false ∧
    (Step.add_pending_refresh false RefreshSchemas "" "").apply (initial init_db true)
      = some (add_pending_refresh false RefreshSchemas "" "" (initial init_db true)) ∧
    run_steps [Step.add_pending_refresh true RefreshUDFs "" "", Step.create_worker_thread true]
      (add_pending_refresh false RefreshSchemas "" "" (initial init_db true))
      = some (create_worker_thread true (add_pending_refresh true RefreshUDFs "" ""
          (add_pending_refresh false RefreshSchemas "" "" (initial init_db true)))) ∧
    (create_worker_thread true (add_pending_refresh true RefreshUDFs "" ""
        (add_pending_refresh false RefreshSchemas "" "" (initial init_db true)))).cache_working
      = 0 ∧
    (run_steps
      [Step.add_pending_refresh false RefreshSchemas "" "",
        Step.add_pending_refresh true RefreshUDFs "" "", Step.create_worker_thread true]
      (initial init_db true)).map
      (fun s => (s.pending_tasks, s.cache_working, active_workers s))
      = some ([⟨RefreshSchemas, "", ""⟩, ⟨RefreshUDFs, "", ""⟩], 0, 0) :=
  ⟨rfl, by decide, rfl, rfl, rfl,
    (permit_lost_on_failed_spawn init_db true []
      [Step.add_pending_refresh true RefreshUDFs "" "", Step.create_worker_thread true]
      (Step.add_pending_refresh false RefreshSchemas "" "") (initial init_db true)
      (add_pending_refresh false RefreshSchemas "" "" (initial init_db true))
      (create_worker_thread true (add_pending_refresh true RefreshUDFs "" ""
        (add_pending_refresh false RefreshSchemas "" "" (initial init_db true))))
      rfl (by decide) rfl rfl rfl).2.1,
    by decide⟩


/-! ## The polling predicates after an empty refresh -/

/-- After the schema scoped replace with the empty list on a running cache the cache table
holds no row of the schema, and `is_fetch_done` returns false. -/
theorem is_fetch_done_after_empty (cache schema : String) (s : State)
    (hrun : s.shutdown = false) :
    is_fetch_done cache schema (update_object_names_in_schema cache schema [] s) = false := by
  unfold is_fetch_done update_object_names_in_schema transaction
  rw [if_neg (by rw [hrun]; exact Bool.false_ne_true)]
  simp only [List.map_nil, insert_rows, if_true]
  rw [List.any_eq_false]
  intro r hr
  have := (List.mem_filter.mp hr).2
  simpa using this

/-- C27: a schema without tables never reports done. `is_schema_tables_fetch_done(schema)` is
true if and only if the `tables` cache holds a row whose `schema_id` is exactly the schema, and
likewise the functions and the procedures predicate for their caches. So after a refresh that
ran to its store write and found nothing, `update_object_names(cache, schema, empty list)` on a
cache that is not shut down, the predicate of that cache returns false; this is the state after
the tables fetcher when the listing holds views only (or nothing), and after the functions and
procedures fetchers when the server lists no routine. On `table_scoped_state` the predicate of
`shop` is true before the empty tables refresh and false after it. -/
theorem empty_refresh_never_reports_done :
    (∀ (schema : String) (s : State),
      (is_schema_tables_fetch_done schema s = true ↔
        ∃ r ∈ s.sqconn "tables", r.schema_id = schema) ∧
      (is_schema_functions_fetch_done schema s = true ↔
        ∃ r ∈ s.sqconn "functions", r.schema_id = schema) ∧
      (is_schema_procedure_fetch_done schema s = true ↔
        ∃ r ∈ s.sqconn "procedures", r.schema_id = schema)) ∧
    (∀ (schema : String) (s : State), s.shutdown = false →
      is_schema_tables_fetch_done schema (update_tables schema [] s) = false ∧
      is_schema_functions_fetch_done schema (update_functions schema [] s) = false ∧
      is_schema_procedure_fetch_done schema (update_procedures schema [] s) = false) ∧
    (∀ (server : Server) (thread_created : Bool) (schema : String) (s s1 : State),
      s.shutdown = false →
      (∀ rows, server.show_full_tables schema = .result (some rows) →
        ∀ row ∈ rows, row.2 = "VIEW") →
      refresh_tables_w server thread_created schema s = some s1 →
      is_schema_tables_fetch_done schema s1 = false) ∧
    (∀ (server : Server) (schema : String) (s : State), s.shutdown = false →
      (server.show_function_status schema = .result (some []) →
        (refresh_functions_w server schema s).map (is_schema_functions_fetch_done schema)
          = some false) ∧
      (server.show_procedure_status schema = .result (some []) →
        (refresh_procedures_w server schema s).map (is_schema_procedure_fetch_done schema)
          = some false)) ∧
    is_schema_tables_fetch_done "shop" table_scoped_state = true ∧
    is_schema_tables_fetch_done "shop" (update_tables "shop" [] table_scoped_state) = false ∧
    (refresh_functions_w sample_server "shop" table_scoped_state).map
      (is_schema_functions_fetch_done "shop") = some false := by
  refine ⟨?_, ?_, ?_, ?_, by decide, by decide, by decide⟩
  · intro schema s
    unfold is_schema_tables_fetch_done is_schema_functions_fetch_done
      is_schema_procedure_fetch_done is_fetch_done
    simp only [List.any_eq_true, beq_iff_eq]
    exact ⟨trivial, trivial, trivial⟩
  · intro schema s hrun
    exact ⟨is_fetch_done_after_empty "tables" schema s hrun,
      is_fetch_done_after_empty "functions" schema s hrun,
      is_fetch_done_after_empty "procedures" schema s hrun⟩
  · intro server thread_created schema s s1 hrun hzero h
    unfold refresh_tables_w at h
    split at h
    · cases h
    · split at h
      · split at h
        · cases h
        · rename_i rs2 heq
          simp only [Option.some.injEq] at h
          subst h
          have hnone : ((rows_read rs2 s).filter fun row => row.2 != "VIEW") = [] := by
            rw [List.filter_eq_nil_iff]
            intro row hrow
            unfold rows_read at hrow
            cases rs2 with
            | none => cases hrow
            | some rows =>
              simp only [hrun, Bool.false_eq_true, if_false] at hrow
              simp [hzero rows heq row hrow]
          simp only [hnone, List.map_nil, List.foldl_nil, hrun, Bool.not_false, if_true]
          exact is_fetch_done_after_empty "tables" schema s hrun
      · simp only [Option.some.injEq] at h
        subst h
        simp only [hrun, Bool.not_false, if_true]
        exact is_fetch_done_after_empty "tables" schema s hrun
  · intro server schema s hrun
    constructor
    · intro h
      unfold refresh_functions_w
      simp only [h, rows_read, hrun, Bool.false_eq_true, if_false, Bool.not_false, if_true,
        Option.map_some']
      exact congrArg some (is_fetch_done_after_empty "functions" schema s hrun)
    · intro h
      unfold refresh_procedures_w
      simp only [h, rows_read, hrun, Bool.false_eq_true, if_false, Bool.not_false, if_true,
        Option.map_some']
      exact congrArg some (is_fetch_done_after_empty "procedures" schema s hrun)

/-! ## The sentinel row in the schema query -/

/-- C28: the empty-schema sentinel is visible to queries. After `update_schemas` with the
empty list on a cache that is not shut down, `get_matching_schema_names("")` returns the
sequence of length one that holds the empty string. The helper `escape_sql_string` is assumed
to spell the empty prefix literally. -/
theorem sentinel_visible_to_queries (escape_sql_string : String → String) (s : State)
    (hesc : escapes_literally escape_sql_string "") (hrun : s.shutdown = false) :
    (get_matching_schema_names escape_sql_string "" (update_schemas [] s)).1 = [""] ∧
    (get_matching_schema_names escape_sql_string "" (update_schemas [] s)).1.length = 1 := by
  have hstore : (update_schemas [] s).sqconn "schemas" = [⟨"", "", "", 0⟩] := by
    unfold update_schemas transaction
    rw [if_neg (by rw [hrun]; exact Bool.false_ne_true)]
    simp [insert_rows, insert_row]
  have hflag : (update_schemas [] s).shutdown = false := by
    rw [(update_schemas_frame [] s).2]
    exact hrun
  have hq : (get_matching_schema_names escape_sql_string "" (update_schemas [] s)).1
      = [""] := by
    unfold get_matching_schema_names get_matching_objects
    rw [if_neg (by rw [hflag]; exact Bool.false_ne_true)]
    dsimp only
    rw [hstore]
    simp [sqlite_like_escaped_wildcard escape_sql_string "" hesc, begins_with_ignoring_case,
      fold_case]
  rw [hq]
  exact ⟨rfl, rfl⟩

/-- Witness of C28 on `sample_state`, whose schemas table held two names before. -/
theorem sentinel_visible_to_queries_witness :
    escapes_literally escape_like_wildcards "" ∧ sample_state.shutdown = false ∧
    (get_matching_schema_names escape_like_wildcards "" (update_schemas [] sample_state)).1
      = [""] ∧
    (get_matching_schema_names escape_like_wildcards ""
      (update_schemas [] sample_state)).1.length = 1 ∧
    (get_matching_schema_names escape_like_wildcards "" sample_state).1 = ["shop", "crm"] :=
  ⟨by decide, rfl,
    (sentinel_visible_to_queries escape_like_wildcards sample_state (by decide) rfl).1,
    (sentinel_visible_to_queries escape_like_wildcards sample_state (by decide) rfl).2,
    by decide⟩


/-! ## Termination of the worker loop -/

/-- C30: the worker loop terminates. For every server (finite result sets), every state of the
cache (finite queue) and every bound above `passes_bound`, the loop run with no other thread
in between returns, and it has dispatched at most `passes_bound` tasks: one for each queued
task and two for each row of the table listing of a queued tables or views task. The reason is
in the fetchers: the fetcher of a task that is not a tables or views task leaves the queue as
it is, and the tables and views fetchers append columns and triggers tasks only, at most
`children_bound` of them. -/
theorem worker_loop_terminates :
    (∀ (server : Server) (thread_created : Bool) (s : State) (n : Nat),
      passes_bound server s.pending_tasks < n →
      ∃ log final, refresh_cache_thread server thread_created n s = some (log, final) ∧
        log.length ≤ passes_bound server s.pending_tasks) ∧
    (∀ (server : Server) (thread_created : Bool) (task : RefreshTask) (s s' : State),
      dispatch server thread_created task s = some s' →
      (task.type ≠ RefreshTables ∧ task.type ≠ RefreshViews →
        s'.pending_tasks = s.pending_tasks) ∧
      ∃ extra, s'.pending_tasks = s.pending_tasks ++ extra ∧
        extra.length ≤ children_bound server task ∧
        ∀ u ∈ extra, u.type = RefreshColumns ∨ u.type = RefreshTriggers) ∧
    passes_bound sample_server (new init_db true true).pending_tasks = 5 ∧
    (refresh_cache_thread sample_server true 6 (new init_db true true)).map
      (fun r => (r.1.map fun entry => entry.1.type, r.2.pending_tasks))
      = some ([RefreshSchemas, RefreshVariables, RefreshEngines, RefreshCharsets,
          RefreshCollations], []) ∧
    passes_bound sample_server [⟨RefreshTables, "shop", ""⟩, ⟨RefreshViews, "shop", ""⟩] = 10 ∧
    (refresh_cache_thread sample_server true 11
      { sample_state with
        pending_tasks := [⟨RefreshTables, "shop", ""⟩, ⟨RefreshViews, "shop", ""⟩] }).map
      (fun r => (r.1.map fun entry => entry.1.type, r.2.pending_tasks))
      = some ([RefreshTables, RefreshViews, RefreshColumns, RefreshTriggers, RefreshColumns],
          []) := by
  refine ⟨?_, ?_, by decide, by decide, by decide, by decide⟩
  · intro server thread_created s n hn
    cases hs : s.shutdown
    · obtain ⟨log, final, hloop, _, hlen, _⟩ :=
        refresh_cache_thread_returns server thread_created n s hs hn
      exact ⟨log, final, hloop, hlen⟩
    · obtain ⟨m, rfl⟩ : ∃ m, n = m + 1 := ⟨n - 1, by omega⟩
      refine ⟨[], refresh_cache_thread_exit s, ?_, Nat.zero_le _⟩
      rw [refresh_cache_thread]
      simp [hs]
  · intro server thread_created task s s' h
    obtain ⟨extra, hq, hlen, hkinds, _⟩ := dispatch_requests server thread_created task s s' h
    exact ⟨fun hk => (dispatch_frame server thread_created task s s' hk h).1,
      extra, hq, hlen, hkinds⟩


end AutoCompleteCache
